import Mathlib

/-!
# Verification of the memo-filler normalization pipeline

A shallow embedding, in Lean 4, of the context-assembly core of the
memo-filler service (`src/main.py`): Python values are modelled by the
inductive type `Val` (dicts as insertion-ordered association lists, which
matches CPython semantics), fallible operations (attribute errors, type
errors) return `Except String`, Python floats are modelled by exact
rationals `ℚ` (every numeric literal exercised by a theorem below is
exactly representable as an IEEE double, so no rounding behaviour is
lost), and `datetime.now()` is passed in as an explicit `today` argument.
-/

/-- Model of a Python value as handled by the service: `None`, booleans,
ints, floats (as exact rationals), strings, lists, and insertion-ordered
dicts with string keys (the service only ever builds string-keyed dicts). -/
inductive Val where
  | none : Val
  | bool : Bool → Val
  | int : Int → Val
  | float : ℚ → Val
  | str : String → Val
  | list : List Val → Val
  | dict : List (String × Val) → Val

/-- Python truthiness (`bool(v)`) for the modelled values. -/
def Val.truthy : Val → Bool
  | .none => false
  | .bool b => b
  | .int n => n != 0
  | .float q => q != 0
  | .str s => s != ""
  | .list l => !l.isEmpty
  | .dict d => !d.isEmpty

/-- Python `a or b` (returns the first truthy operand, else the second). -/
def pyOr (a b : Val) : Val := if a.truthy then a else b

/-- Dict lookup (first binding wins, as in a duplicate-free CPython dict):
`d[k]` as an `Option`. -/
def dgetOpt (d : List (String × Val)) (k : String) : Option Val :=
  match d with
  | [] => Option.none
  | (k₁, v) :: rest => if k₁ = k then some v else dgetOpt rest k

/-- Python `d.get(k)`: missing keys give `None` (the value). -/
def dget (d : List (String × Val)) (k : String) : Val :=
  (dgetOpt d k).getD .none

/-- Python `d.get(k, default)`. -/
def dgetD (d : List (String × Val)) (k : String) (dflt : Val) : Val :=
  (dgetOpt d k).getD dflt

/-- Python `k in d`. -/
def dmem (d : List (String × Val)) (k : String) : Bool :=
  (dgetOpt d k).isSome

/-- Python `d[k] = v`: replace the first binding in place, else append
(CPython keeps the original insertion position on overwrite). -/
def dset (d : List (String × Val)) (k : String) (v : Val) : List (String × Val) :=
  match d with
  | [] => [(k, v)]
  | (k₁, v₁) :: rest => if k₁ = k then (k₁, v) :: rest else (k₁, v₁) :: dset rest k v

/-- Python `d.pop(k, None)` restricted to the remaining dict. -/
def dremove (d : List (String × Val)) (k : String) : List (String × Val) :=
  match d with
  | [] => []
  | (k₁, v₁) :: rest => if k₁ = k then rest else (k₁, v₁) :: dremove rest k

/-- Python whitespace as used by `str.strip` / `\s` on the ASCII inputs the
service handles: space, tab, newline, carriage return, vertical tab, form feed. -/
def pyIsSpace (c : Char) : Bool :=
  c = ' ' || c = '\t' || c = '\n' || c = '\r' || c = Char.ofNat 11 || c = Char.ofNat 12

/-- Drop trailing characters satisfying `p` (helper for `str.strip`). -/
def dropTrailing (p : Char → Bool) : List Char → List Char
  | [] => []
  | c :: cs =>
    let r := dropTrailing p cs
    if r.isEmpty && p c then [] else c :: r

/-- Python `str.strip()` on a character list. -/
def pyStripChars (l : List Char) : List Char :=
  dropTrailing pyIsSpace (l.dropWhile pyIsSpace)

/-- Python `str.strip()`. -/
def pyStrip (s : String) : String := String.mk (pyStripChars s.data)

/-- ASCII `str.lower()` (the sentinel strings compared by the service are
all ASCII). -/
def pyLower (s : String) : String := String.mk (s.data.map Char.toLower)

/-- Remove every occurrence of a single character (`str.replace(c, "")`). -/
def removeChar (c : Char) (s : String) : String :=
  String.mk (s.data.filter (fun x => x ≠ c))

/-! ## Value formatter: `parse_currency_to_number` (src/main.py lines 86-104)

`float(...)` on a cleaned string is modelled by `pyFloatOfChars?`, an
implementation of Python's finite-float literal grammar (optional sign,
digits with single underscores allowed between digits, optional fraction,
optional exponent) returning the exact rational value. `inf`/`nan` forms
are outside the rational model and are treated as unparsable; no theorem
below exercises them. -/

/-- Consume a run of digits (with single underscores allowed between
digits, as in Python numeric literals), returning the accumulated value,
the number of digits consumed, and the rest. Must be entered on a digit. -/
def digitsCore : List Char → Nat → Nat → (Nat × Nat × List Char)
  | [], acc, k => (acc, k, [])
  | c :: rest, acc, k =>
    if c.isDigit then digitsCore rest (10 * acc + (c.toNat - 48)) (k + 1)
    else if c = '_' then
      match rest with
      | d :: rest₂ =>
        if d.isDigit then digitsCore rest₂ (10 * acc + (d.toNat - 48)) (k + 1)
        else (acc, k, c :: rest)
      | [] => (acc, k, [c])
    else (acc, k, c :: rest)

/-- Parse a digit run; fails (count 0) unless the first char is a digit. -/
def parseDigits (l : List Char) : Nat × Nat × List Char :=
  match l with
  | c :: _ => if c.isDigit then digitsCore l 0 0 else (0, 0, l)
  | [] => (0, 0, l)

/-- Parse a finite Python float literal into its parts
(negative?, integer part, fraction digits value, fraction digit count,
signed exponent); `Option.none` where CPython raises `ValueError` (and on
the `inf`/`nan` forms, which the rational model cannot represent and which
no input below reaches). Kept over `Nat`/`Int` so that concrete runs
reduce with `decide`; the rational value is assembled by `ratFromParts`. -/
def pyFloatParts? (l : List Char) : Option (Bool × Nat × Nat × Nat × Int) :=
  let l := pyStripChars l
  let (neg, l) : Bool × List Char :=
    match l with
    | '+' :: r => (false, r)
    | '-' :: r => (true, r)
    | _ => (false, l)
  let (ip, ic, l) := parseDigits l
  let (fp, fc, l) : Nat × Nat × List Char :=
    match l with
    | '.' :: r => parseDigits r
    | _ => (0, 0, l)
  if ic + fc = 0 then Option.none
  else
    match l with
    | [] => some (neg, ip, fp, fc, 0)
    | e :: r =>
      if e = 'e' || e = 'E' then
        let (eneg, r) : Bool × List Char :=
          match r with
          | '+' :: r₂ => (false, r₂)
          | '-' :: r₂ => (true, r₂)
          | _ => (false, r)
        let (ev, ec, r) := parseDigits r
        if ec = 0 then Option.none
        else match r with
          | [] => some (neg, ip, fp, fc, if eneg then -(ev : Int) else (ev : Int))
          | _ => Option.none
      else Option.none

/-- The exact rational denoted by parsed float parts. -/
def ratFromParts (p : Bool × Nat × Nat × Nat × Int) : ℚ :=
  let (neg, ip, fp, fc, ex) := p
  (if neg then (-1 : ℚ) else 1) * (((ip : ℚ) + (fp : ℚ) / (10 : ℚ) ^ fc) * (10 : ℚ) ^ ex)

/-- Python `float(s)` for finite decimal forms, as an exact rational. -/
def pyFloatOfChars? (l : List Char) : Option ℚ :=
  (pyFloatParts? l).map ratFromParts

/-- `float(s)` on a string. -/
def pyFloatOfString? (s : String) : Option ℚ := pyFloatOfChars? s.data

/-- The cleaning step of `parse_currency_to_number`:
`val.replace('$', '').replace(',', '').replace(' ', '').strip()`. -/
def cleanCurrency (s : String) : String :=
  pyStrip (removeChar ' ' (removeChar ',' (removeChar '$' s)))

/-- Embedding of `parse_currency_to_number` (src/main.py lines 86-104).
`None` → 0.0; ints/floats (including bools, which are ints in Python) pass
through `float(...)`; strings are cleaned and parsed, with empty or
unparsable text giving 0.0; anything else gives 0.0. The `try/except
ValueError` of the source is the `Option.getD 0` here: the function is
total and never propagates an error. -/
def parse_currency_to_number (v : Val) : ℚ :=
  match v with
  | .none => 0
  | .bool b => if b then 1 else 0
  | .int n => (n : ℚ)
  | .float q => q
  | .str s =>
    let cleaned := cleanCurrency s
    if cleaned = "" then 0
    else (pyFloatOfString? cleaned).getD 0
  | .list _ => 0
  | .dict _ => 0

/-- C8: `parse_currency_to_number` never raises for any input:
`parse_currency_to_number("$35,610,000") == 35610000.0`,
`parse_currency_to_number(None) == 0.0`, and every unparsable value (such
as `"garbage"`) yields `0.0` rather than an exception. Totality is
intrinsic to the embedding (the source's `try/except ValueError` makes the
function total); the last conjunct states that every string whose cleaned
form `float()` rejects comes back as 0. -/
theorem parse_currency_to_number_total_values :
    parse_currency_to_number (Val.str "$35,610,000") = 35610000 ∧
    parse_currency_to_number Val.none = 0 ∧
    parse_currency_to_number (Val.str "garbage") = 0 ∧
    ∀ s : String, pyFloatOfString? (cleanCurrency s) = Option.none →
      parse_currency_to_number (Val.str s) = 0 := by
  refine ⟨?_, rfl, ?_, ?_⟩
  · have h : cleanCurrency "$35,610,000" = "35610000" := by decide
    have h₂ : pyFloatParts? "35610000".data = some (false, 35610000, 0, 0, 0) := by decide
    simp [parse_currency_to_number, h, pyFloatOfString?, pyFloatOfChars?, h₂, ratFromParts]
  · have h : pyFloatParts? (cleanCurrency "garbage").data = Option.none := by decide
    simp [parse_currency_to_number, pyFloatOfString?, pyFloatOfChars?, h]
  · intro s h
    simp only [parse_currency_to_number]
    by_cases he : cleanCurrency s = ""
    · simp [he]
    · simp [he, h]

/-- Witness for the hypothesis-bearing conjunct of
`parse_currency_to_number_total_values` at the concrete input `"garbage"`. -/
theorem parse_currency_to_number_total_values_witness :
    pyFloatOfString? (cleanCurrency "garbage") = Option.none ∧
    parse_currency_to_number (Val.str "garbage") = 0 := by
  constructor
  · show pyFloatOfChars? (cleanCurrency "garbage").data = Option.none
    have h : pyFloatParts? (cleanCurrency "garbage").data = Option.none := by decide
    simp [pyFloatOfChars?, h]
  · exact parse_currency_to_number_total_values.2.2.2 "garbage" (by
      show pyFloatOfChars? (cleanCurrency "garbage").data = Option.none
      have h : pyFloatParts? (cleanCurrency "garbage").data = Option.none := by decide
      simp [pyFloatOfChars?, h])

/-! ## Value formatter: `_strip_markdown` (src/main.py lines 237-250)

The mapper's markdown stripper is a pipeline of five regex/replace steps
followed by `str.strip()`.  Each step is embedded as a character-list
scanner with exactly the source regex's semantics:

* `re.sub(r'^#{1,6}\s*', '', text, flags=re.MULTILINE)`:
  at a line start (`^` matches at position 0 and right after a `'\n'` of
  the original string, which is the last consumed character), consume one
  to six `'#'` greedily, then a maximal whitespace run (`\s` includes
  newlines).
* `re.sub(r'\*{1,2}([^*]+)\*{1,2}', r'\1', text)` (and the `_` twin):
  at each position, an opener of one or two marker characters (a run of
  three or more markers cannot back off, so no match starts inside it), a
  nonempty maximal run of non-markers, and a closer of one or two markers;
  on failure the scanner advances one character, as `re.sub` does.
* `text.replace('\\#', '#')` (and `\\*`, `\\_`): left-to-right
  non-overlapping two-character replacement.
* `re.sub(r'\n{3,}', '\n\n', text)`: collapse every maximal run of three
  or more newlines to two.
* `text.strip()`.
-/

/-- Drop up to `n` leading `'#'` characters. -/
def dropHashUpTo : Nat → List Char → List Char
  | 0, l => l
  | n + 1, l =>
    match l with
    | '#' :: r => dropHashUpTo n r
    | _ => l

theorem length_dropHashUpTo_le (n : Nat) (l : List Char) :
    (dropHashUpTo n l).length ≤ l.length := by
  induction n generalizing l with
  | zero => simp [dropHashUpTo]
  | succ n ih =>
    match l with
    | [] => simp [dropHashUpTo]
    | c :: r =>
      by_cases h : c = '#'
      · subst h
        simpa [dropHashUpTo] using Nat.le_succ_of_le (ih r)
      · simp only [dropHashUpTo]
        split
        · simp_all
        · exact Nat.le_refl _

theorem length_dropWhile_le' (p : Char → Bool) (l : List Char) :
    (l.dropWhile p).length ≤ l.length := by
  induction l with
  | nil => simp
  | cons c cs ih =>
    by_cases h : p c
    · simp [List.dropWhile, h]; omega
    · simp [List.dropWhile, h]

/-- The heading-marker pass: `re.sub(r'^#{1,6}\s*', '', text, re.MULTILINE)`,
written with explicit fuel so that concrete runs reduce inside the kernel.
Every step consumes at least one character, so fuel `l.length` (supplied by
`stripHeading`) is always sufficient and the fuel-exhausted branch is
unreachable. The boolean tracks whether the current position is a line
start of the original string (position 0, or the previously consumed
character was a newline). -/
def stripHeadingF : Nat → Bool → List Char → List Char
  | 0, _, l => l
  | _ + 1, _, [] => []
  | fuel + 1, atStart, c :: cs =>
    if atStart ∧ c = '#' then
      let rest := dropHashUpTo 5 cs
      let ws := rest.takeWhile pyIsSpace
      let rest₂ := rest.dropWhile pyIsSpace
      stripHeadingF fuel (ws.getLast? = some '\n') rest₂
    else c :: stripHeadingF fuel (c = '\n') cs

/-- The heading-marker pass at adequate fuel, starting at a line start. -/
def stripHeading (l : List Char) : List Char :=
  stripHeadingF l.length true l

/-- The emphasis-marker pass for marker `m`:
`re.sub(r'\m{1,2}([^m]+)\m{1,2}', r'\1', text)`, with explicit fuel (every
step consumes at least one character, so fuel `l.length` is sufficient). -/
def replaceEmphF (m : Char) : Nat → List Char → List Char
  | 0, l => l
  | _ + 1, [] => []
  | fuel + 1, c :: cs =>
    if c = m then
      let a := 1 + (cs.takeWhile (fun x => x = m)).length
      if 3 ≤ a then c :: replaceEmphF m fuel cs
      else
        let afterOpen := cs.dropWhile (fun x => x = m)
        let content := afterOpen.takeWhile (fun x => x ≠ m)
        let afterContent := afterOpen.dropWhile (fun x => x ≠ m)
        if content.isEmpty then c :: replaceEmphF m fuel cs
        else
          match afterContent with
          | [] => c :: replaceEmphF m fuel cs
          | _ :: arest =>
            match arest with
            | a₂ :: arest₂ =>
              if a₂ = m then content ++ replaceEmphF m fuel arest₂
              else content ++ replaceEmphF m fuel arest
            | [] => content ++ replaceEmphF m fuel []
    else c :: replaceEmphF m fuel cs

/-- The emphasis-marker pass at adequate fuel. -/
def replaceEmph (m : Char) (l : List Char) : List Char :=
  replaceEmphF m l.length l

/-- Python `text.replace(ab, c)` for a two-character pattern `a b` replaced
by the single character `c`: left-to-right, non-overlapping. -/
def replace2with1 (a b c : Char) : List Char → List Char
  | x :: y :: rest =>
    if x = a ∧ y = b then c :: replace2with1 a b c rest
    else x :: replace2with1 a b c (y :: rest)
  | l => l

/-- `re.sub(r'\n{3,}', '\n\n', text)`: collapse every maximal run of three
or more newlines to exactly two. The accumulator counts the newlines of
the pending run; a run of `n` newlines is emitted as `min n 2` newlines. -/
def collapseNlAux : Nat → List Char → List Char
  | n, [] => List.replicate (min n 2) '\n'
  | n, c :: cs =>
    if c = '\n' then collapseNlAux (n + 1) cs
    else List.replicate (min n 2) '\n' ++ c :: collapseNlAux 0 cs

/-- The blank-line-collapsing pass. -/
def collapseNl (l : List Char) : List Char := collapseNlAux 0 l

/-- Embedding of `DealInputToSchemaMapper._strip_markdown` (src/main.py
lines 237-250) on the string payload: heading markers, `*`-emphasis,
`_`-emphasis, the three escaped-character replacements, blank-line
collapsing, and the final `strip()`, in source order. -/
def stripMarkdownChars (l : List Char) : List Char :=
  pyStripChars (collapseNl
    (replace2with1 '\\' '_' '_'
      (replace2with1 '\\' '*' '*'
        (replace2with1 '\\' '#' '#'
          (replaceEmph '_'
            (replaceEmph '*'
              (stripHeading l)))))))

/-- `DealInputToSchemaMapper._strip_markdown` on strings (the non-string
branches of the source are handled at its call sites in `transform`). -/
def _strip_markdown (s : String) : String :=
  String.mk (stripMarkdownChars s.data)

example : _strip_markdown "\\#x" = "#x" := by decide

example : _strip_markdown (_strip_markdown "\\#x") = "x" := by decide

example : _strip_markdown "## Title\n\n\n\n\nBody **bold** _it_" = "Title\n\nBody bold it" := by decide

theorem stripHeadingF_id (l : List Char) (h : '#' ∉ l) :
    ∀ (fuel : Nat) (b : Bool), stripHeadingF fuel b l = l := by
  induction l with
  | nil => intro fuel b; cases fuel <;> rfl
  | cons c cs ih =>
    intro fuel b
    cases fuel with
    | zero => rfl
    | succ fuel =>
      have hc : c ≠ '#' := fun hh => h (hh ▸ List.mem_cons_self c cs)
      simp only [stripHeadingF]
      rw [if_neg (fun hh => hc hh.2)]
      rw [ih (fun hm => h (List.mem_cons_of_mem _ hm)) fuel _]

theorem replaceEmphF_id (m : Char) (l : List Char) (h : m ∉ l) :
    ∀ fuel : Nat, replaceEmphF m fuel l = l := by
  induction l with
  | nil => intro fuel; cases fuel <;> rfl
  | cons c cs ih =>
    intro fuel
    cases fuel with
    | zero => rfl
    | succ fuel =>
      have hc : c ≠ m := fun hh => h (hh ▸ List.mem_cons_self c cs)
      simp only [replaceEmphF]
      rw [if_neg hc]
      rw [ih (fun hm => h (List.mem_cons_of_mem _ hm)) fuel]

theorem replace2with1_id (a b c : Char) (l : List Char) (h : a ∉ l) :
    replace2with1 a b c l = l := by
  induction l with
  | nil => rfl
  | cons x xs ih =>
    have hx : x ≠ a := fun hh => h (hh ▸ List.mem_cons_self x xs)
    match xs with
    | [] => rfl
    | y :: rest =>
      simp only [replace2with1]
      rw [if_neg (fun hh => hx hh.1)]
      rw [ih (fun hm => h (List.mem_cons_of_mem _ hm))]

/-- Scanner for three consecutive newlines (`\n\n\n` as a substring). -/
def hasNNN : List Char → Bool
  | a :: b :: c :: rest => (a = '\n' && b = '\n' && c = '\n') || hasNNN (b :: c :: rest)
  | _ => false

theorem hasNNN_cons (x : Char) (t : List Char) (h : hasNNN t = true) :
    hasNNN (x :: t) = true := by
  match t with
  | [] => simp [hasNNN] at h
  | [a] => simp [hasNNN] at h
  | a :: b :: r => simp only [hasNNN]; rw [h]; simp

theorem hasNNN_cons_ne (c : Char) (t : List Char) (hc : c ≠ '\n') :
    hasNNN (c :: t) = hasNNN t := by
  match t with
  | [] => simp [hasNNN]
  | [a] => simp [hasNNN]
  | a :: b :: r => simp [hasNNN, hc]

theorem hasNNN_append_right (l t : List Char) (h : hasNNN t = true) :
    hasNNN (l ++ t) = true := by
  induction l with
  | nil => simpa
  | cons x xs ih => exact hasNNN_cons x _ ih

theorem hasNNN_append_left (l t : List Char) (h : hasNNN l = true) :
    hasNNN (l ++ t) = true := by
  match l with
  | [] => simp [hasNNN] at h
  | [a] => simp [hasNNN] at h
  | [a, b] => simp [hasNNN] at h
  | a :: b :: c :: r =>
    simp only [hasNNN] at h
    rcases Bool.or_eq_true_iff.mp h with h₁ | h₂
    · simp only [List.cons_append, hasNNN]
      rw [h₁]; simp
    · have := hasNNN_append_left (b :: c :: r) t h₂
      simp only [List.cons_append] at this ⊢
      exact hasNNN_cons a _ this

theorem dropTrailing_prefix (p : Char → Bool) (l : List Char) :
    ∃ t, l = dropTrailing p l ++ t := by
  induction l with
  | nil => exact ⟨[], rfl⟩
  | cons c cs ih =>
    obtain ⟨t, ht⟩ := ih
    simp only [dropTrailing]
    by_cases hcond : (dropTrailing p cs).isEmpty && p c
    · refine ⟨c :: cs, ?_⟩
      rw [if_pos hcond]; rfl
    · refine ⟨t, ?_⟩
      rw [if_neg hcond]
      simp only [List.cons_append]
      rw [← ht]

theorem hasNNN_dropTrailing (p : Char → Bool) (l : List Char)
    (h : hasNNN (dropTrailing p l) = true) : hasNNN l = true := by
  obtain ⟨t, ht⟩ := dropTrailing_prefix p l
  rw [ht]
  exact hasNNN_append_left _ _ h

theorem hasNNN_dropWhile (p : Char → Bool) (l : List Char)
    (h : hasNNN (l.dropWhile p) = true) : hasNNN l = true := by
  have hl : List.takeWhile p l ++ List.dropWhile p l = l :=
    List.takeWhile_append_dropWhile p l
  rw [← hl]
  exact hasNNN_append_right _ _ h

theorem hasNNN_pyStripChars (l : List Char) (h : hasNNN (pyStripChars l) = true) :
    hasNNN l = true :=
  hasNNN_dropWhile _ _ (hasNNN_dropTrailing _ _ h)

theorem hasNNN_replicate_ge3 (n : Nat) (hn : 3 ≤ n) (t : List Char) :
    hasNNN (List.replicate n '\n' ++ t) = true := by
  match n, hn with
  | n + 3, _ =>
    simp only [List.replicate, List.cons_append, hasNNN]
    simp

theorem hasNNN_replicate_prepend (k : Nat) (hk : k ≤ 2) (c : Char) (hc : c ≠ '\n')
    (t : List Char) :
    hasNNN (List.replicate k '\n' ++ c :: t) = hasNNN (c :: t) := by
  match k, hk with
  | 0, _ => rfl
  | 1, _ =>
    simp only [List.replicate, List.nil_append, List.cons_append]
    match t with
    | [] => simp [hasNNN, hc]
    | x :: r => simp [hasNNN, hc]
  | 2, _ =>
    simp only [List.replicate, List.nil_append, List.cons_append]
    match t with
    | [] => simp [hasNNN, hc]
    | x :: r => simp [hasNNN, hc]

theorem hasNNN_replicate_le2 (k : Nat) (hk : k ≤ 2) :
    hasNNN (List.replicate k '\n') = false := by
  match k, hk with
  | 0, _ => rfl
  | 1, _ => rfl
  | 2, _ => rfl

theorem collapseNlAux_noNNN (l : List Char) : ∀ n, hasNNN (collapseNlAux n l) = false := by
  induction l with
  | nil =>
    intro n
    exact hasNNN_replicate_le2 _ (Nat.min_le_right n 2)
  | cons c cs ih =>
    intro n
    by_cases hc : c = '\n'
    · subst hc
      simp only [collapseNlAux, if_pos rfl]
      exact ih (n + 1)
    · simp only [collapseNlAux, if_neg hc]
      rw [hasNNN_replicate_prepend _ (Nat.min_le_right n 2) c hc]
      rw [hasNNN_cons_ne c _ hc]
      exact ih 0

theorem collapseNlAux_of_noNNN (l : List Char) :
    ∀ n, hasNNN (List.replicate n '\n' ++ l) = false →
      collapseNlAux n l = List.replicate n '\n' ++ l := by
  induction l with
  | nil =>
    intro n h
    have hn : n ≤ 2 := by
      by_contra hgt
      have h3 : 3 ≤ n := by omega
      rw [hasNNN_replicate_ge3 n h3 []] at h
      exact Bool.noConfusion h
    simp only [collapseNlAux, List.append_nil]
    rw [Nat.min_eq_left hn]
  | cons c cs ih =>
    intro n h
    by_cases hc : c = '\n'
    · subst hc
      have hrearr : List.replicate n '\n' ++ '\n' :: cs = List.replicate (n + 1) '\n' ++ cs := by
        rw [List.replicate_succ']
        simp
      rw [hrearr] at h ⊢
      simp only [collapseNlAux, if_pos rfl]
      exact ih (n + 1) h
    · have hn : n ≤ 2 := by
        by_contra hgt
        have h3 : 3 ≤ n := by omega
        rw [hasNNN_replicate_ge3 n h3 (c :: cs)] at h
        exact Bool.noConfusion h
      have hcs : hasNNN cs = false := by
        cases hcase : hasNNN cs with
        | false => rfl
        | true =>
          have h₁ := hasNNN_cons c cs hcase
          have h₂ := hasNNN_append_right (List.replicate n '\n') _ h₁
          rw [h₂] at h
          exact Bool.noConfusion h
      simp only [collapseNlAux, if_neg hc]
      rw [Nat.min_eq_left hn, ih 0 (by simpa using hcs)]
      simp

theorem collapseNl_noNNN (l : List Char) : hasNNN (collapseNl l) = false :=
  collapseNlAux_noNNN l 0

theorem collapseNl_of_noNNN (l : List Char) (h : hasNNN l = false) : collapseNl l = l := by
  have := collapseNlAux_of_noNNN l 0 (by simpa using h)
  simpa [collapseNl] using this

theorem mem_collapseNlAux (x : Char) (l : List Char) :
    ∀ n, x ∈ collapseNlAux n l → x ∈ l ∨ x = '\n' := by
  induction l with
  | nil =>
    intro n hx
    exact Or.inr (List.eq_of_mem_replicate hx)
  | cons c cs ih =>
    intro n hx
    by_cases hc : c = '\n'
    · subst hc
      simp only [collapseNlAux, if_pos rfl] at hx
      rcases ih (n + 1) hx with h | h
      · exact Or.inl (List.mem_cons_of_mem _ h)
      · exact Or.inr h
    · simp only [collapseNlAux, if_neg hc] at hx
      rcases List.mem_append.mp hx with h | h
      · exact Or.inr (List.eq_of_mem_replicate h)
      · rcases List.mem_cons.mp h with h | h
        · exact Or.inl (h ▸ List.mem_cons_self _ _)
        · rcases ih 0 h with h' | h'
          · exact Or.inl (List.mem_cons_of_mem _ h')
          · exact Or.inr h'

theorem mem_dropTrailing (p : Char → Bool) (l : List Char) (x : Char)
    (h : x ∈ dropTrailing p l) : x ∈ l := by
  obtain ⟨t, ht⟩ := dropTrailing_prefix p l
  rw [ht]
  exact List.mem_append_left _ h

theorem mem_pyStripChars (l : List Char) (x : Char) (h : x ∈ pyStripChars l) : x ∈ l := by
  have h₁ : x ∈ l.dropWhile pyIsSpace := mem_dropTrailing _ _ _ h
  exact (List.dropWhile_sublist pyIsSpace).mem h₁

theorem head?_dropWhile_not (p : Char → Bool) (l : List Char) :
    ∀ c, (l.dropWhile p).head? = some c → p c = false := by
  induction l with
  | nil => intro c h; simp at h
  | cons x xs ih =>
    intro c h
    by_cases hx : p x
    · rw [List.dropWhile_cons_of_pos hx] at h
      exact ih c h
    · rw [List.dropWhile_cons_of_neg hx] at h
      simp at h
      rw [← h]
      exact Bool.eq_false_iff.mpr hx

theorem dropTrailing_head? (p : Char → Bool) (l : List Char) (c : Char)
    (h : (dropTrailing p l).head? = some c) : l.head? = some c := by
  obtain ⟨t, ht⟩ := dropTrailing_prefix p l
  cases hdt : dropTrailing p l with
  | nil => rw [hdt] at h; simp at h
  | cons a as =>
    rw [hdt] at h ht
    simp at h
    rw [ht]
    simp [h]

theorem dropWhile_eq_self_of_head (p : Char → Bool) (l : List Char)
    (h : ∀ c, l.head? = some c → p c = false) : l.dropWhile p = l := by
  cases l with
  | nil => rfl
  | cons c cs =>
    have := h c (by simp)
    rw [List.dropWhile_cons_of_neg (by simp [this])]

theorem dropTrailing_idem (p : Char → Bool) (l : List Char) :
    dropTrailing p (dropTrailing p l) = dropTrailing p l := by
  induction l with
  | nil => rfl
  | cons c cs ih =>
    simp only [dropTrailing]
    by_cases hcond : (dropTrailing p cs).isEmpty && p c
    · rw [if_pos hcond]; rfl
    · rw [if_neg hcond]
      simp only [dropTrailing, ih]
      rw [if_neg hcond]

theorem pyStripChars_idem (l : List Char) :
    pyStripChars (pyStripChars l) = pyStripChars l := by
  show dropTrailing pyIsSpace ((pyStripChars l).dropWhile pyIsSpace) = pyStripChars l
  have hdw : (pyStripChars l).dropWhile pyIsSpace = pyStripChars l := by
    apply dropWhile_eq_self_of_head
    intro c hc
    have h₁ := dropTrailing_head? pyIsSpace _ c hc
    exact head?_dropWhile_not pyIsSpace l c h₁
  rw [hdw]
  exact dropTrailing_idem pyIsSpace _

theorem stripMarkdownChars_eq_of_free (l : List Char)
    (h : ∀ c ∈ l, c ≠ '#' ∧ c ≠ '*' ∧ c ≠ '_' ∧ c ≠ '\\') :
    stripMarkdownChars l = pyStripChars (collapseNl l) := by
  have h₁ : '#' ∉ l := fun hm => (h _ hm).1 rfl
  have h₂ : '*' ∉ l := fun hm => (h _ hm).2.1 rfl
  have h₃ : '_' ∉ l := fun hm => (h _ hm).2.2.1 rfl
  have h₄ : '\\' ∉ l := fun hm => (h _ hm).2.2.2 rfl
  unfold stripMarkdownChars
  rw [show stripHeading l = l from stripHeadingF_id l h₁ _ _]
  rw [show replaceEmph '*' l = l from replaceEmphF_id '*' l h₂ _]
  rw [show replaceEmph '_' l = l from replaceEmphF_id '_' l h₃ _]
  rw [replace2with1_id '\\' '#' '#' l h₄]
  rw [replace2with1_id '\\' '*' '*' l h₄]
  rw [replace2with1_id '\\' '_' '_' l h₄]

theorem stripMarkdownChars_idem_of_free (l : List Char)
    (h : ∀ c ∈ l, c ≠ '#' ∧ c ≠ '*' ∧ c ≠ '_' ∧ c ≠ '\\') :
    stripMarkdownChars (stripMarkdownChars l) = stripMarkdownChars l := by
  have e₁ : stripMarkdownChars l = pyStripChars (collapseNl l) :=
    stripMarkdownChars_eq_of_free l h
  have hz : ∀ c ∈ pyStripChars (collapseNl l), c ≠ '#' ∧ c ≠ '*' ∧ c ≠ '_' ∧ c ≠ '\\' := by
    intro c hc
    have hc₁ : c ∈ collapseNl l := mem_pyStripChars _ _ hc
    rcases mem_collapseNlAux c l 0 hc₁ with hm | hnl
    · exact h c hm
    · subst hnl
      refine ⟨by decide, by decide, by decide, by decide⟩
  have e₂ : stripMarkdownChars (pyStripChars (collapseNl l)) =
      pyStripChars (collapseNl (pyStripChars (collapseNl l))) :=
    stripMarkdownChars_eq_of_free _ hz
  have hnz : hasNNN (pyStripChars (collapseNl l)) = false := by
    cases hcase : hasNNN (pyStripChars (collapseNl l)) with
    | false => rfl
    | true =>
      have h₁ := hasNNN_pyStripChars _ hcase
      rw [collapseNl_noNNN l] at h₁
      exact Bool.noConfusion h₁
  have e₃ : collapseNl (pyStripChars (collapseNl l)) = pyStripChars (collapseNl l) :=
    collapseNl_of_noNNN _ hnz
  rw [e₁, e₂, e₃, pyStripChars_idem]

/-- C2 (counterexample): `_strip_markdown` is not idempotent. On
`"\\#x"` the escaped-character replacement rewrites `\#` to `#` at the
start of a line; a second pass then treats that `#` as a heading marker
and removes it: one pass gives `"#x"`, two passes give `"x"`. -/
theorem strip_markdown_not_idempotent :
    _strip_markdown (_strip_markdown "\\#x") ≠ _strip_markdown "\\#x" := by decide

/-- C2 (amended): `_strip_markdown` is idempotent on every string free of
the four marker characters `#`, `*`, `_`, `\` (on such strings the pass
reduces to blank-line collapsing plus `strip()`, which is idempotent); on
strings containing markers a second pass can differ, because the
escaped-character replacement and the emphasis pass can expose new
heading/emphasis markers (see `strip_markdown_not_idempotent`). -/
theorem strip_markdown_idempotent_marker_free (s : String)
    (h : ∀ c ∈ s.data, c ≠ '#' ∧ c ≠ '*' ∧ c ≠ '_' ∧ c ≠ '\\') :
    _strip_markdown (_strip_markdown s) = _strip_markdown s := by
  show String.mk (stripMarkdownChars (String.mk (stripMarkdownChars s.data)).data) =
    String.mk (stripMarkdownChars s.data)
  exact congrArg String.mk (stripMarkdownChars_idem_of_free s.data h)

/-- Witness for `strip_markdown_idempotent_marker_free` at a concrete
marker-free string with a long blank-line run. -/
theorem strip_markdown_idempotent_marker_free_witness :
    (∀ c ∈ ("line one\n\n\n\n\nline two  ").data,
      c ≠ '#' ∧ c ≠ '*' ∧ c ≠ '_' ∧ c ≠ '\\') ∧
    _strip_markdown (_strip_markdown "line one\n\n\n\n\nline two  ") =
      _strip_markdown "line one\n\n\n\n\nline two  " :=
  ⟨by decide, strip_markdown_idempotent_marker_free _ (by decide)⟩

/-! ## Template-safety: `escape_jinja_syntax` on strings (src/main.py lines 70-83)

The string branch of `escape_jinja_syntax` is
`obj.replace('\x7b\x7b', '\x7b \x7b').replace('\x7d\x7d', '\x7d \x7d')
    .replace('\x7b%', '\x7b %').replace('%\x7d', '% \x7d')`
— four sequential two-character replacements, each inserting a space
inside the delimiter pair. Brace characters are written `lbrace`/`rbrace`
below. -/

/-- The left brace character. -/
def lbrace : Char := Char.ofNat 123

/-- The right brace character. -/
def rbrace : Char := Char.ofNat 125

/-- Python `s.replace(ab, a + ' ' + b)` for a two-character pattern:
left-to-right, non-overlapping, inserting a space inside the pair. -/
def replacePair (a b : Char) : List Char → List Char
  | x :: y :: rest =>
    if x = a ∧ y = b then a :: ' ' :: b :: replacePair a b rest
    else x :: replacePair a b (y :: rest)
  | l => l

/-- The string branch of `escape_jinja_syntax`: the four replacements in
source order. -/
def escapeJinjaChars (l : List Char) : List Char :=
  replacePair '%' rbrace
    (replacePair lbrace '%'
      (replacePair rbrace rbrace
        (replacePair lbrace lbrace l)))

/-- `escape_jinja_syntax` restricted to a string value. -/
def escape_jinja_syntax_str (s : String) : String :=
  String.mk (escapeJinjaChars s.data)

/-- Scanner: does the two-character sequence `c d` occur as a substring? -/
def hasPair (c d : Char) : List Char → Bool
  | x :: y :: rest => (x = c && y = d) || hasPair c d (y :: rest)
  | _ => false

/-- Scanner: does the three-character sequence `u v w` occur as a substring? -/
def hasTriple (u v w : Char) : List Char → Bool
  | x :: y :: z :: rest => (x = u && y = v && z = w) || hasTriple u v w (y :: z :: rest)
  | _ => false

theorem hasPair_cons_of (c d x : Char) (t : List Char) (h : hasPair c d t = true) :
    hasPair c d (x :: t) = true := by
  match t with
  | [] => simp [hasPair] at h
  | y :: r => simp only [hasPair]; rw [h]; simp

theorem hasPair_cons_elim (c d x : Char) (t : List Char) (h : hasPair c d (x :: t) = true) :
    (x = c ∧ t.head? = some d) ∨ hasPair c d t = true := by
  match t with
  | [] => simp [hasPair] at h
  | y :: r =>
    simp only [hasPair, Bool.or_eq_true, Bool.and_eq_true, decide_eq_true_eq] at h
    rcases h with ⟨h₁, h₂⟩ | h
    · exact Or.inl ⟨h₁, by simp [h₂]⟩
    · exact Or.inr h

theorem hasTriple_cons_of (u v w x : Char) (t : List Char) (h : hasTriple u v w t = true) :
    hasTriple u v w (x :: t) = true := by
  match t with
  | [] => simp [hasTriple] at h
  | [y] => simp [hasTriple] at h
  | y :: z :: r => simp only [hasTriple]; rw [h]; simp

theorem hasTriple_cons_elim (u v w x : Char) (t : List Char)
    (h : hasTriple u v w (x :: t) = true) :
    (x = u ∧ t.head? = some v ∧ t.tail.head? = some w) ∨ hasTriple u v w t = true := by
  match t with
  | [] => simp [hasTriple] at h
  | [y] => simp [hasTriple] at h
  | y :: z :: r =>
    simp only [hasTriple, Bool.or_eq_true, Bool.and_eq_true, decide_eq_true_eq] at h
    rcases h with ⟨⟨h₁, h₂⟩, h₃⟩ | h
    · exact Or.inl ⟨h₁, by simp [h₂], by simp [h₃]⟩
    · exact Or.inr h

theorem replacePair_head? (a b : Char) (l : List Char) :
    (replacePair a b l).head? = l.head? := by
  induction l using replacePair.induct a b with
  | case1 x y rest hxy ih =>
    rw [replacePair, if_pos hxy]
    simp [hxy.1]
  | case2 x y rest hxy ih => rw [replacePair, if_neg hxy]; rfl
  | case3 l h =>
    cases l with
    | nil => rfl
    | cons c cs =>
      cases cs with
      | nil => rfl
      | cons d ds => exact absurd rfl (h c d ds)

theorem replacePair_sublist (a b : Char) (l : List Char) : l.Sublist (replacePair a b l) := by
  induction l using replacePair.induct a b with
  | case1 x y rest hxy ih =>
    rw [replacePair, if_pos hxy]
    obtain ⟨hx, hy⟩ := hxy
    subst hx; subst hy
    exact List.Sublist.cons₂ _ (List.Sublist.cons _ (List.Sublist.cons₂ _ ih))
  | case2 x y rest hxy ih =>
    rw [replacePair, if_neg hxy]
    exact List.Sublist.cons₂ _ ih
  | case3 l h =>
    cases l with
    | nil => exact List.Sublist.refl _
    | cons c cs =>
      cases cs with
      | nil => exact List.Sublist.refl _
      | cons d ds => exact absurd rfl (h c d ds)

theorem replacePair_id (a b : Char) (l : List Char) (h : hasPair a b l = false) :
    replacePair a b l = l := by
  induction l using replacePair.induct a b with
  | case1 x y rest hxy ih =>
    exfalso
    simp only [hasPair, hxy.1, hxy.2, Bool.or_eq_true] at h
    simp at h
  | case2 x y rest hxy ih =>
    rw [replacePair, if_neg hxy]
    congr 1
    apply ih
    cases hcase : hasPair a b (y :: rest) with
    | false => rfl
    | true => rw [hasPair_cons_of a b x _ hcase] at h; exact Bool.noConfusion h
  | case3 l hother =>
    cases l with
    | nil => rfl
    | cons c cs =>
      cases cs with
      | nil => rfl
      | cons d ds => exact absurd rfl (hother c d ds)

theorem replacePair_pair_preserve (a b c d : Char) (hc : c ≠ ' ') (hd : d ≠ ' ')
    (l : List Char) (h : hasPair c d (replacePair a b l) = true) : hasPair c d l = true := by
  induction l using replacePair.induct a b with
  | case1 x y rest hxy ih =>
    rw [replacePair, if_pos hxy] at h
    obtain ⟨hx, hy⟩ := hxy
    rcases hasPair_cons_elim _ _ _ _ h with ⟨_, hhd⟩ | h₂
    · simp at hhd; exact absurd hhd.symm hd
    rcases hasPair_cons_elim _ _ _ _ h₂ with ⟨hsp, _⟩ | h₃
    · exact absurd hsp.symm hc
    rcases hasPair_cons_elim _ _ _ _ h₃ with ⟨hbc, hhd⟩ | h₄
    · rw [replacePair_head?] at hhd
      cases rest with
      | nil => simp at hhd
      | cons z r =>
        simp at hhd
        subst hx; subst hy; subst hbc; subst hhd
        apply hasPair_cons_of
        simp [hasPair]
    · have := ih h₄
      subst hx; subst hy
      exact hasPair_cons_of _ _ _ _ (hasPair_cons_of _ _ _ _ this)
  | case2 x y rest hxy ih =>
    rw [replacePair, if_neg hxy] at h
    rcases hasPair_cons_elim _ _ _ _ h with ⟨hxc, hhd⟩ | h₂
    · rw [replacePair_head?] at hhd
      simp at hhd
      subst hxc; subst hhd
      simp [hasPair]
    · exact hasPair_cons_of _ _ _ _ (ih h₂)
  | case3 l hother =>
    cases l with
    | nil => exact h
    | cons p ps =>
      cases ps with
      | nil => exact h
      | cons q qs => exact absurd rfl (hother p q qs)

theorem replacePair_no_pair (a b : Char) (hab : a ≠ b) (ha : a ≠ ' ') (hb : b ≠ ' ')
    (l : List Char) : hasPair a b (replacePair a b l) = false := by
  induction l using replacePair.induct a b with
  | case1 x y rest hxy ih =>
    rw [replacePair, if_pos hxy]
    apply Bool.eq_false_iff.mpr
    intro htrue
    rcases hasPair_cons_elim _ _ _ _ htrue with ⟨_, hhd⟩ | h₂
    · simp at hhd; exact hb hhd.symm
    rcases hasPair_cons_elim _ _ _ _ h₂ with ⟨hsp, _⟩ | h₃
    · exact ha hsp.symm
    rcases hasPair_cons_elim _ _ _ _ h₃ with ⟨hba, _⟩ | h₄
    · exact hab hba.symm
    · rw [ih] at h₄; exact Bool.noConfusion h₄
  | case2 x y rest hxy ih =>
    rw [replacePair, if_neg hxy]
    apply Bool.eq_false_iff.mpr
    intro htrue
    rcases hasPair_cons_elim _ _ _ _ htrue with ⟨hxa, hhd⟩ | h₂
    · rw [replacePair_head?] at hhd
      simp at hhd
      exact hxy ⟨hxa, hhd⟩
    · rw [ih] at h₂; exact Bool.noConfusion h₂
  | case3 l hother =>
    cases l with
    | nil => rfl
    | cons p ps =>
      cases ps with
      | nil => rfl
      | cons q qs => exact absurd rfl (hother p q qs)

theorem replacePair_no_pair_self (a : Char) (ha : a ≠ ' ') (l : List Char)
    (htri : hasTriple a a a l = false) : hasPair a a (replacePair a a l) = false := by
  induction l using replacePair.induct a a with
  | case1 x y rest hxy ih =>
    rw [replacePair, if_pos hxy]
    obtain ⟨hx, hy⟩ := hxy
    apply Bool.eq_false_iff.mpr
    intro htrue
    rcases hasPair_cons_elim _ _ _ _ htrue with ⟨_, hhd⟩ | h₂
    · simp at hhd; exact ha hhd.symm
    rcases hasPair_cons_elim _ _ _ _ h₂ with ⟨hsp, _⟩ | h₃
    · exact ha hsp.symm
    rcases hasPair_cons_elim _ _ _ _ h₃ with ⟨_, hhd⟩ | h₄
    · rw [replacePair_head?] at hhd
      cases rest with
      | nil => simp at hhd
      | cons z r =>
        simp at hhd
        have : hasTriple a a a (x :: y :: z :: r) = true := by
          simp [hasTriple, hx, hy, hhd]
        rw [this] at htri; exact Bool.noConfusion htri
    · have hrest : hasTriple a a a rest = false := by
        cases hcase : hasTriple a a a rest with
        | false => rfl
        | true =>
          have := hasTriple_cons_of a a a x _ (hasTriple_cons_of a a a y _ hcase)
          rw [this] at htri; exact Bool.noConfusion htri
      rw [ih hrest] at h₄; exact Bool.noConfusion h₄
  | case2 x y rest hxy ih =>
    rw [replacePair, if_neg hxy]
    apply Bool.eq_false_iff.mpr
    intro htrue
    rcases hasPair_cons_elim _ _ _ _ htrue with ⟨hxa, hhd⟩ | h₂
    · rw [replacePair_head?] at hhd
      simp at hhd
      exact hxy ⟨hxa, hhd⟩
    · have hrest : hasTriple a a a (y :: rest) = false := by
        cases hcase : hasTriple a a a (y :: rest) with
        | false => rfl
        | true =>
          have := hasTriple_cons_of a a a x _ hcase
          rw [this] at htri; exact Bool.noConfusion htri
      rw [ih hrest] at h₂; exact Bool.noConfusion h₂
  | case3 l hother =>
    cases l with
    | nil => rfl
    | cons p ps =>
      cases ps with
      | nil => rfl
      | cons q qs => exact absurd rfl (hother p q qs)

theorem replacePair_triple_preserve (a b u v w : Char)
    (hu : u ≠ ' ') (hv : v ≠ ' ') (hw : w ≠ ' ') (hub : u ≠ b)
    (l : List Char) (h : hasTriple u v w (replacePair a b l) = true) :
    hasTriple u v w l = true := by
  induction l using replacePair.induct a b with
  | case1 x y rest hxy ih =>
    rw [replacePair, if_pos hxy] at h
    obtain ⟨hx, hy⟩ := hxy
    rcases hasTriple_cons_elim _ _ _ _ _ h with ⟨_, hh₂, _⟩ | h₂
    · simp at hh₂; exact absurd hh₂.symm hv
    rcases hasTriple_cons_elim _ _ _ _ _ h₂ with ⟨hsp, _, _⟩ | h₃
    · exact absurd hsp.symm hu
    rcases hasTriple_cons_elim _ _ _ _ _ h₃ with ⟨hbu, _, _⟩ | h₄
    · exact absurd hbu.symm hub
    · have := ih h₄
      subst hx; subst hy
      exact hasTriple_cons_of _ _ _ _ _ (hasTriple_cons_of _ _ _ _ _ this)
  | case2 x y rest hxy ih =>
    rw [replacePair, if_neg hxy] at h
    rcases hasTriple_cons_elim _ _ _ _ _ h with ⟨hxu, hh₂, hh₃⟩ | h₂
    · rw [replacePair_head?] at hh₂
      simp at hh₂
      subst hxu; subst hh₂
      -- analyze the second element of `replacePair a b (y :: rest)`
      cases rest with
      | nil =>
        simp [replacePair] at hh₃
      | cons z r =>
        by_cases hyz : y = a ∧ z = b
        · rw [replacePair, if_pos hyz] at hh₃
          simp at hh₃
          exact absurd hh₃.symm hw
        · rw [replacePair, if_neg hyz] at hh₃
          simp only [List.tail_cons] at hh₃
          rw [replacePair_head?] at hh₃
          simp at hh₃
          subst hh₃
          simp [hasTriple]
    · exact hasTriple_cons_of _ _ _ _ _ (ih h₂)
  | case3 l hother =>
    cases l with
    | nil => exact h
    | cons p ps =>
      cases ps with
      | nil => exact h
      | cons q qs => exact absurd rfl (hother p q qs)

/-- C3 (counterexample): for the string `"\x7b\x7b\x7b"` (three left
braces), which contains the delimiter pair `\x7b\x7b`, the escaped output
`"\x7b \x7b\x7b"` still contains that exact pair: the first replacement
consumes the first two braces and the inserted text together with the
third brace forms a new unescaped pair. -/
theorem escape_jinja_syntax_leaves_pair_cex :
    hasPair lbrace lbrace ("\x7b\x7b\x7b" : String).data = true ∧
    hasPair lbrace lbrace (escape_jinja_syntax_str "\x7b\x7b\x7b").data = true := by
  constructor <;> decide

/-- C3 (amended): for every string containing no run of three identical
braces (`\x7b\x7b\x7b` or `\x7d\x7d\x7d`), the escaped output contains no
occurrence of any of the four delimiter pairs; for every string
whatsoever, escaping (once or twice) never loses any original character
(the input is a subsequence of the doubly-escaped output); and a string
containing no delimiter pair is returned unchanged. On strings with a run
of three or more identical braces an unescaped pair can survive (see
`escape_jinja_syntax_leaves_pair_cex`). -/
theorem escape_jinja_syntax_escapes_no_runs (s : String)
    (h₁ : hasTriple lbrace lbrace lbrace s.data = false)
    (h₂ : hasTriple rbrace rbrace rbrace s.data = false) :
    (hasPair lbrace lbrace (escape_jinja_syntax_str s).data = false ∧
     hasPair rbrace rbrace (escape_jinja_syntax_str s).data = false ∧
     hasPair lbrace '%' (escape_jinja_syntax_str s).data = false ∧
     hasPair '%' rbrace (escape_jinja_syntax_str s).data = false) ∧
    s.data.Sublist (escape_jinja_syntax_str (escape_jinja_syntax_str s)).data ∧
    ((hasPair lbrace lbrace s.data = false ∧ hasPair rbrace rbrace s.data = false ∧
      hasPair lbrace '%' s.data = false ∧ hasPair '%' rbrace s.data = false) →
      escape_jinja_syntax_str s = s) := by
  have hdata : (escape_jinja_syntax_str s).data = escapeJinjaChars s.data := rfl
  set l := s.data with hl
  set r₁ := replacePair lbrace lbrace l with hr₁
  set r₂ := replacePair rbrace rbrace r₁ with hr₂
  set r₃ := replacePair lbrace '%' r₂ with hr₃
  have he : escapeJinjaChars l = replacePair '%' rbrace r₃ := rfl
  -- no `\x7b\x7b` pair anywhere in the output
  have n₁ : hasPair lbrace lbrace r₁ = false :=
    replacePair_no_pair_self lbrace (by decide) l h₁
  have p₁ : hasPair lbrace lbrace (escapeJinjaChars l) = false := by
    cases hcase : hasPair lbrace lbrace (escapeJinjaChars l) with
    | false => rfl
    | true =>
      rw [he] at hcase
      have s₃ := replacePair_pair_preserve '%' rbrace lbrace lbrace (by decide) (by decide) _ hcase
      have s₂ := replacePair_pair_preserve lbrace '%' lbrace lbrace (by decide) (by decide) _ s₃
      have s₁ := replacePair_pair_preserve rbrace rbrace lbrace lbrace (by decide) (by decide) _ s₂
      rw [n₁] at s₁
      exact Bool.noConfusion s₁
  -- no `\x7d\x7d` pair anywhere in the output
  have htr₁ : hasTriple rbrace rbrace rbrace r₁ = false := by
    cases hcase : hasTriple rbrace rbrace rbrace r₁ with
    | false => rfl
    | true =>
      have := replacePair_triple_preserve lbrace lbrace rbrace rbrace rbrace
        (by decide) (by decide) (by decide) (by decide) l hcase
      rw [h₂] at this
      exact Bool.noConfusion this
  have n₂ : hasPair rbrace rbrace r₂ = false :=
    replacePair_no_pair_self rbrace (by decide) r₁ htr₁
  have p₂ : hasPair rbrace rbrace (escapeJinjaChars l) = false := by
    cases hcase : hasPair rbrace rbrace (escapeJinjaChars l) with
    | false => rfl
    | true =>
      rw [he] at hcase
      have s₃ := replacePair_pair_preserve '%' rbrace rbrace rbrace (by decide) (by decide) _ hcase
      have s₂ := replacePair_pair_preserve lbrace '%' rbrace rbrace (by decide) (by decide) _ s₃
      rw [n₂] at s₂
      exact Bool.noConfusion s₂
  -- no `\x7b%` pair anywhere in the output
  have n₃ : hasPair lbrace '%' r₃ = false :=
    replacePair_no_pair lbrace '%' (by decide) (by decide) (by decide) r₂
  have p₃ : hasPair lbrace '%' (escapeJinjaChars l) = false := by
    cases hcase : hasPair lbrace '%' (escapeJinjaChars l) with
    | false => rfl
    | true =>
      rw [he] at hcase
      have s₃ := replacePair_pair_preserve '%' rbrace lbrace '%' (by decide) (by decide) _ hcase
      rw [n₃] at s₃
      exact Bool.noConfusion s₃
  -- no `%\x7d` pair anywhere in the output
  have p₄ : hasPair '%' rbrace (escapeJinjaChars l) = false := by
    rw [he]
    exact replacePair_no_pair '%' rbrace (by decide) (by decide) (by decide) r₃
  refine ⟨⟨by rw [hdata]; exact p₁, by rw [hdata]; exact p₂,
           by rw [hdata]; exact p₃, by rw [hdata]; exact p₄⟩, ?_, ?_⟩
  · -- the input is a subsequence of the doubly-escaped output
    have sub₁ : ∀ t : List Char, t.Sublist (escapeJinjaChars t) := by
      intro t
      have a₁ := replacePair_sublist lbrace lbrace t
      have a₂ := replacePair_sublist rbrace rbrace (replacePair lbrace lbrace t)
      have a₃ := replacePair_sublist lbrace '%'
        (replacePair rbrace rbrace (replacePair lbrace lbrace t))
      have a₄ := replacePair_sublist '%' rbrace
        (replacePair lbrace '%' (replacePair rbrace rbrace (replacePair lbrace lbrace t)))
      exact ((a₁.trans a₂).trans a₃).trans a₄
    show l.Sublist (escapeJinjaChars (escapeJinjaChars l))
    exact (sub₁ l).trans (sub₁ _)
  · -- a string with no delimiter pair is returned unchanged
    rintro ⟨q₁, q₂, q₃, q₄⟩
    have e₁ : r₁ = l := replacePair_id _ _ _ q₁
    have e₂ : r₂ = l := by rw [hr₂, e₁]; exact replacePair_id _ _ _ q₂
    have e₃ : r₃ = l := by rw [hr₃, e₂]; exact replacePair_id _ _ _ q₃
    have e₄ : escapeJinjaChars l = l := by rw [he, e₃]; exact replacePair_id _ _ _ q₄
    show String.mk (escapeJinjaChars s.data) = s
    have e₅ : escapeJinjaChars s.data = s.data := e₄
    rw [e₅]

/-- Witness for `escape_jinja_syntax_escapes_no_runs` at a concrete string
containing each delimiter pair once. -/
theorem escape_jinja_syntax_escapes_no_runs_witness :
    (hasTriple lbrace lbrace lbrace ("a\x7b\x7bb\x7d\x7dc\x7b%d%\x7de" : String).data = false ∧
     hasTriple rbrace rbrace rbrace ("a\x7b\x7bb\x7d\x7dc\x7b%d%\x7de" : String).data = false) ∧
    (hasPair lbrace lbrace (escape_jinja_syntax_str "a\x7b\x7bb\x7d\x7dc\x7b%d%\x7de").data = false ∧
     hasPair rbrace rbrace (escape_jinja_syntax_str "a\x7b\x7bb\x7d\x7dc\x7b%d%\x7de").data = false ∧
     hasPair lbrace '%' (escape_jinja_syntax_str "a\x7b\x7bb\x7d\x7dc\x7b%d%\x7de").data = false ∧
     hasPair '%' rbrace (escape_jinja_syntax_str "a\x7b\x7bb\x7d\x7dc\x7b%d%\x7de").data = false) :=
  ⟨⟨by decide, by decide⟩,
   (escape_jinja_syntax_escapes_no_runs "a\x7b\x7bb\x7d\x7dc\x7b%d%\x7de"
     (by decide) (by decide)).1⟩

/-! ## Context flattener: `flatten_schema_for_template` copy and alias steps
(src/main.py lines 1656-1667)

`flat = dict(data)`, `sections = flat.pop("sections", None) or \x7b\x7d`;
then every dict-valued section's sub-fields are copied into `flat` only
where the key is absent, and each `TEMPLATE_ALIASES` entry is written only
where the template name is absent and the schema key present. -/

theorem dgetOpt_dset_ne (d : List (String × Val)) (k' k : String) (v : Val) (h : k' ≠ k) :
    dgetOpt (dset d k' v) k = dgetOpt d k := by
  induction d with
  | nil => simp [dset, dgetOpt, h]
  | cons kv rest ih =>
    obtain ⟨k₁, v₁⟩ := kv
    by_cases hk : k₁ = k'
    · subst hk
      simp only [dset, if_pos rfl]
      simp [dgetOpt, h]
    · simp only [dset, if_neg hk]
      simp only [dgetOpt]
      by_cases hk₂ : k₁ = k
      · simp [hk₂]
      · simp [hk₂, ih]

theorem dgetOpt_dset_self (d : List (String × Val)) (k : String) (v : Val) :
    dgetOpt (dset d k v) k = some v := by
  induction d with
  | nil => simp [dset, dgetOpt]
  | cons kv rest ih =>
    obtain ⟨k₁, v₁⟩ := kv
    by_cases hk : k₁ = k
    · subst hk
      simp [dset, dgetOpt]
    · simp [dset, hk, dgetOpt, ih]

theorem dgetOpt_dremove_ne (d : List (String × Val)) (k' k : String) (h : k' ≠ k) :
    dgetOpt (dremove d k') k = dgetOpt d k := by
  induction d with
  | nil => simp [dremove]
  | cons kv rest ih =>
    obtain ⟨k₁, v₁⟩ := kv
    by_cases hk : k₁ = k'
    · subst hk
      simp only [dremove, if_pos rfl]
      simp [dgetOpt, h]
    · simp only [dremove, if_neg hk]
      simp only [dgetOpt]
      by_cases hk₂ : k₁ = k
      · simp [hk₂]
      · simp [hk₂, ih]

theorem dmem_false_of_some (d : List (String × Val)) (k : String) (v : Val)
    (hmem : dmem d k = false) (hget : dgetOpt d k = some v) : False := by
  unfold dmem at hmem
  rw [hget] at hmem
  simp at hmem

/-- The inner copy loop: `for k, v in section_data.items(): if k not in
flat: flat[k] = v`. -/
def copySectionEntries (flat : List (String × Val)) :
    List (String × Val) → List (String × Val)
  | [] => flat
  | (k, v) :: rest =>
    copySectionEntries (if dmem flat k then flat else dset flat k v) rest

/-- The outer copy loop over the sections mapping: only dict-valued
sections contribute. -/
def copySections (flat : List (String × Val)) :
    List (String × Val) → List (String × Val)
  | [] => flat
  | (_, sv) :: rest =>
    match sv with
    | .dict d => copySections (copySectionEntries flat d) rest
    | _ => copySections flat rest

/-- `TEMPLATE_ALIASES` (src/main.py lines 1651-1653): template placeholder
name → schema key. -/
def TEMPLATE_ALIASES : List (String × String) := [("leverage", "leverage_metrics")]

/-- The alias loop: `if template_name not in flat and schema_key in flat:
flat[template_name] = flat[schema_key]`. -/
def applyAliasesFold (flat : List (String × Val)) :
    List (String × String) → List (String × Val)
  | [] => flat
  | (tname, skey) :: rest =>
    applyAliasesFold
      (if dmem flat tname = false ∧ dmem flat skey = true
       then dset flat tname (dget flat skey) else flat) rest

/-- The copy-and-alias prefix of `flatten_schema_for_template`
(src/main.py lines 1656-1667): copy `data`, pop `"sections"` (defaulting a
falsy value to an empty mapping), copy section sub-fields first-writer-wins,
then apply the alias table. A truthy non-mapping `sections` value raises
(`.items()` on a non-dict), as in the source. -/
def flattenCopyAliasStage (data : List (String × Val)) :
    Except String (List (String × Val)) :=
  let flat := dremove data "sections"
  match pyOr (dget data "sections") (.dict []) with
  | .dict sd => .ok (applyAliasesFold (copySections flat sd) TEMPLATE_ALIASES)
  | _ => .error "AttributeError"

theorem copySectionEntries_preserve (entries : List (String × Val)) :
    ∀ flat k v, dgetOpt flat k = some v →
      dgetOpt (copySectionEntries flat entries) k = some v := by
  induction entries with
  | nil => intro flat k v h; exact h
  | cons kv rest ih =>
    intro flat k v h
    obtain ⟨kk, vv⟩ := kv
    simp only [copySectionEntries]
    apply ih
    by_cases hmem : dmem flat kk
    · simp [hmem, h]
    · simp only [Bool.not_eq_true] at hmem
      rw [if_neg (by simp [hmem])]
      by_cases hkk : kk = k
      · subst hkk
        exact absurd h (fun hh => dmem_false_of_some flat kk v hmem hh)
      · rw [dgetOpt_dset_ne flat kk k vv hkk]
        exact h

theorem copySections_preserve (sections : List (String × Val)) :
    ∀ flat k v, dgetOpt flat k = some v →
      dgetOpt (copySections flat sections) k = some v := by
  induction sections with
  | nil => intro flat k v h; exact h
  | cons kv rest ih =>
    intro flat k v h
    obtain ⟨_, sv⟩ := kv
    cases sv with
    | dict d => exact ih _ k v (copySectionEntries_preserve d flat k v h)
    | none => exact ih _ k v h
    | bool b => exact ih _ k v h
    | int n => exact ih _ k v h
    | float q => exact ih _ k v h
    | str s => exact ih _ k v h
    | list l => exact ih _ k v h

theorem applyAliasesFold_preserve (aliases : List (String × String)) :
    ∀ flat k v, dgetOpt flat k = some v →
      dgetOpt (applyAliasesFold flat aliases) k = some v := by
  induction aliases with
  | nil => intro flat k v h; exact h
  | cons ts rest ih =>
    intro flat k v h
    obtain ⟨tname, skey⟩ := ts
    simp only [applyAliasesFold]
    apply ih
    by_cases hcond : dmem flat tname = false ∧ dmem flat skey = true
    · rw [if_pos hcond]
      by_cases htk : tname = k
      · subst htk
        exact absurd h (fun hh => dmem_false_of_some flat tname v hcond.1 hh)
      · rw [dgetOpt_dset_ne flat tname k _ htk]
        exact h
    · rw [if_neg hcond]
      exact h

/-- C7: flattening is first-writer-wins. For every input mapping whose
`sections` value is a mapping, the copy-and-alias steps of
`flatten_schema_for_template` (src/main.py lines 1656-1667) succeed, and
every root key of the input other than `sections` keeps its original value
(a section sub-field never overwrites an existing root key, and an
alias-table name is written only when absent — stated generally by the
last conjunct for any flat mapping). -/
theorem flatten_copy_alias_first_writer_wins (data : List (String × Val))
    (sd : List (String × Val)) (hsec : dget data "sections" = Val.dict sd) :
    (∃ flat', flattenCopyAliasStage data = .ok flat' ∧
      ∀ k v, k ≠ "sections" → dgetOpt data k = some v → dgetOpt flat' k = some v) ∧
    (∀ flat k v, dgetOpt flat k = some v →
      dgetOpt (applyAliasesFold flat TEMPLATE_ALIASES) k = some v) := by
  constructor
  · have hpres : ∀ sd' k v, k ≠ "sections" → dgetOpt data k = some v →
        dgetOpt (applyAliasesFold (copySections (dremove data "sections") sd')
          TEMPLATE_ALIASES) k = some v := by
      intro sd' k v hk h
      apply applyAliasesFold_preserve
      apply copySections_preserve
      rw [dgetOpt_dremove_ne data "sections" k (Ne.symm hk)]
      exact h
    unfold flattenCopyAliasStage
    rw [hsec]
    by_cases hsd : (Val.dict sd).truthy
    · rw [show pyOr (Val.dict sd) (Val.dict []) = Val.dict sd from if_pos hsd]
      exact ⟨_, rfl, hpres sd⟩
    · rw [show pyOr (Val.dict sd) (Val.dict []) = Val.dict [] from if_neg hsd]
      exact ⟨_, rfl, hpres []⟩
  · exact fun flat k v h => applyAliasesFold_preserve TEMPLATE_ALIASES flat k v h

/-- Witness for `flatten_copy_alias_first_writer_wins` at a concrete input
whose root already binds `narrative` and `leverage` and whose sections
would otherwise supply both. -/
theorem flatten_copy_alias_first_writer_wins_witness :
    dget [("narrative", Val.int 1), ("leverage", Val.int 7),
          ("sections", Val.dict [("market", Val.dict [("narrative", Val.str "m")]),
                                 ("transaction_overview",
                                  Val.dict [("leverage_metrics", Val.int 9)])])]
        "sections" =
      Val.dict [("market", Val.dict [("narrative", Val.str "m")]),
                ("transaction_overview", Val.dict [("leverage_metrics", Val.int 9)])] ∧
    ((∃ flat', flattenCopyAliasStage
        [("narrative", Val.int 1), ("leverage", Val.int 7),
         ("sections", Val.dict [("market", Val.dict [("narrative", Val.str "m")]),
                                ("transaction_overview",
                                 Val.dict [("leverage_metrics", Val.int 9)])])] = .ok flat' ∧
      ∀ k v, k ≠ "sections" →
        dgetOpt [("narrative", Val.int 1), ("leverage", Val.int 7),
                 ("sections", Val.dict [("market", Val.dict [("narrative", Val.str "m")]),
                                        ("transaction_overview",
                                         Val.dict [("leverage_metrics", Val.int 9)])])] k =
          some v →
        dgetOpt flat' k = some v) ∧
    (∀ flat k v, dgetOpt flat k = some v →
      dgetOpt (applyAliasesFold flat TEMPLATE_ALIASES) k = some v)) :=
  ⟨rfl, flatten_copy_alias_first_writer_wins _ _ rfl⟩

/-! ## The Deal-Input schema mapper: `DealInputToSchemaMapper`
(src/main.py lines 110-1427)

The mapper is embedded monadically over `PyM := Except String`: an
`AttributeError`/`TypeError` raised by the source (e.g. `.get` on a
non-mapping, iteration over a non-iterable) is an `Except.error`. Python's
lazy `x or y` over fallible sub-expressions is translated with explicit
`if truthy` tests so that the right operand is only evaluated when the
source evaluates it. `print` calls are no-ops and are omitted;
`datetime.now().strftime("%B %d, %Y")` is the explicit `today` argument. -/

/-- The exception monad for the embedding. -/
abbrev PyM := Except String

/-- `v.get(k)` — `AttributeError` unless `v` is a mapping. -/
def vget (v : Val) (k : String) : PyM Val :=
  match v with
  | .dict d => .ok (dget d k)
  | _ => .error "AttributeError"

/-- `v.get(k, default)`. -/
def vgetD (v : Val) (k : String) (dflt : Val) : PyM Val :=
  match v with
  | .dict d => .ok (dgetD d k dflt)
  | _ => .error "AttributeError"

/-- Lazy `a or <fallible b>`: evaluate `b` only when `a` is falsy. -/
def orElseM (a : Val) (b : PyM Val) : PyM Val :=
  if a.truthy then .ok a else b

/-- `for x in v`: lists yield elements, strings yield characters, dicts
yield their keys; other values raise `TypeError`. -/
def pyIter (v : Val) : PyM (List Val) :=
  match v with
  | .list l => .ok l
  | .str s => .ok (s.data.map (fun c => .str (String.mk [c])))
  | .dict d => .ok (d.map (fun kv => .str kv.1))
  | _ => .error "TypeError"

/-- `v[:n]` — slicing is defined for lists and strings only. -/
def pySlice (v : Val) (n : Nat) : PyM Val :=
  match v with
  | .list l => .ok (.list (l.take n))
  | .str s => .ok (.str (String.mk (s.data.take n)))
  | _ => .error "TypeError"

/-- `v.strip()` — `AttributeError` unless `v` is a string. -/
def vstrip (v : Val) : PyM String :=
  match v with
  | .str s => .ok (pyStrip s)
  | _ => .error "AttributeError"

/-- CPython float repr, approximated over the exact rational model
(integral values as `x.0`, others by num/den — the exact shortest-roundtrip
decimal of a binary double is not representable here and no theorem below
depends on this rendering). -/
def pyFloatRepr (q : ℚ) : String :=
  if q.den = 1 then toString q.num ++ ".0" else toString q.num ++ "/" ++ toString q.den

/-- Insert thousands separators into a reversed digit string
(`f"{n:,}"`), least-significant digit first. -/
def group3rev : List Char → List Char
  | d₁ :: d₂ :: d₃ :: d₄ :: rest => d₁ :: d₂ :: d₃ :: ',' :: group3rev (d₄ :: rest)
  | l => l

/-- Comma-grouped rendering of an integer. -/
def commaGroupInt (n : Int) : String :=
  let digits := (toString n.natAbs).data
  (if n < 0 then "-" else "") ++ String.mk (group3rev digits.reverse).reverse

/-- Round half to even (banker's rounding, as used by `format`), exactly
over rationals; the source formats binary doubles, whose half-way cases no
theorem below exercises. -/
def roundHalfEven (q : ℚ) : Int :=
  let f := Int.floor q
  let r := q - (f : ℚ)
  if r < 1 / 2 then f
  else if 1 / 2 < r then f + 1
  else if f % 2 = 0 then f else f + 1

/-- `f"{q:,.0f}"`: comma-grouped, zero decimals. -/
def commaFmt0 (q : ℚ) : String := commaGroupInt (roundHalfEven q)

/-- `f"{q:,.2f}"`: comma-grouped, two decimals. -/
def commaFmt2 (q : ℚ) : String :=
  let m := roundHalfEven (q * 100)
  let sign := if m < 0 then "-" else ""
  let a := m.natAbs
  sign ++ commaGroupInt (a / 100) ++ "." ++
    (if a % 100 < 10 then "0" else "") ++ toString (a % 100)

/-- `f"{q:.2f}"`: two decimals, no grouping. -/
def plainFmt2 (q : ℚ) : String :=
  let m := roundHalfEven (q * 100)
  let sign := if m < 0 then "-" else ""
  let a := m.natAbs
  sign ++ toString (a / 100) ++ "." ++
    (if a % 100 < 10 then "0" else "") ++ toString (a % 100)

/-- `f"{q:.1f}"`: one decimal, no grouping. -/
def plainFmt1 (q : ℚ) : String :=
  let m := roundHalfEven (q * 10)
  let sign := if m < 0 then "-" else ""
  let a := m.natAbs
  sign ++ toString (a / 10) ++ "." ++ toString (a % 10)

/-- The apostrophe character (for CPython container reprs). -/
def sqt : String := String.mk [Char.ofNat 39]

mutual
/-- Python `str(v)`. Container reprs follow CPython's shape; no theorem
below depends on the rendering of a container or float. -/
def pyStr : Val → String
  | .none => "None"
  | .bool b => if b then "True" else "False"
  | .int n => toString n
  | .float q => pyFloatRepr q
  | .str s => s
  | .list l => "[" ++ pyStrList l ++ "]"
  | .dict d => String.mk [lbrace] ++ pyStrDict d ++ String.mk [rbrace]

/-- `repr(v)` as used for elements inside container reprs. -/
def pyRepr : Val → String
  | .str s => sqt ++ s ++ sqt
  | .none => "None"
  | .bool b => if b then "True" else "False"
  | .int n => toString n
  | .float q => pyFloatRepr q
  | .list l => "[" ++ pyStrList l ++ "]"
  | .dict d => String.mk [lbrace] ++ pyStrDict d ++ String.mk [rbrace]

/-- Comma-joined element reprs of a list. -/
def pyStrList : List Val → String
  | [] => ""
  | [v] => pyRepr v
  | v :: rest => pyRepr v ++ ", " ++ pyStrList rest

/-- Comma-joined `key: value` reprs of a dict. -/
def pyStrDict : List (String × Val) → String
  | [] => ""
  | [(k, v)] => sqt ++ k ++ sqt ++ ": " ++ pyRepr v
  | (k, v) :: rest => sqt ++ k ++ sqt ++ ": " ++ pyRepr v ++ ", " ++ pyStrDict rest
end

/-- Embedding of `DealInputToSchemaMapper._str_or_empty` (src/main.py
lines 220-235): `None` and the sentinel strings normalize to the empty
string; strings are stripped; numbers are stringified; lists are
comma-joined over their truthy elements; dicts are stringified. -/
def _str_or_empty (v : Val) : String :=
  match v with
  | .none => ""
  | .str s =>
    let low := pyLower (pyStrip s)
    if low = "none" ∨ low = "null" ∨ low = "undefined" ∨
       low = "[not available]" ∨ low = "n/a" then ""
    else pyStrip s
  | .bool b => if b then "True" else "False"
  | .int n => toString n
  | .float q => pyFloatRepr q
  | .list l => String.intercalate ", " ((l.filter Val.truthy).map pyStr)
  | .dict d => pyStr (.dict d)

/-- Embedding of `DealInputToSchemaMapper._fmt_currency` (src/main.py
lines 192-203). -/
def _fmt_currency (v : Val) : String :=
  let fmtNum : ℚ → String := fun q =>
    if 1000000 ≤ q then "$" ++ commaFmt2 (q / 1000000) ++ "M" else "$" ++ commaFmt0 q
  match v with
  | .none => "N/A"
  | .str s =>
    if s.startsWith "$" then s
    else
      match pyFloatOfString? s with
      | some q => fmtNum q
      | Option.none => s
  | .int n => fmtNum n
  | .float q => fmtNum q
  | .bool b => fmtNum (if b then 1 else 0)
  | .list l => pyStr (.list l)
  | .dict d => pyStr (.dict d)

/-- Embedding of `DealInputToSchemaMapper._fmt_pct` (src/main.py lines
205-213). -/
def _fmt_pct (v : Val) : String :=
  match v with
  | .none => "N/A"
  | .str s =>
    if '%' ∈ s.data then s
    else
      match pyFloatOfString? s with
      | some q => plainFmt2 q ++ "%"
      | Option.none => s
  | .int n => plainFmt2 n ++ "%"
  | .float q => plainFmt2 q ++ "%"
  | .bool b => plainFmt2 (if b then 1 else 0) ++ "%"
  | .list l => pyStr (.list l)
  | .dict d => pyStr (.dict d)

/-- `float(v)` under `try/except (TypeError, ValueError)`, as an
`Option`. -/
def floatParse? (v : Val) : Option ℚ :=
  match v with
  | .int n => some n
  | .float q => some q
  | .bool b => some (if b then 1 else 0)
  | .str s => pyFloatOfString? s
  | _ => Option.none

/-- `self._str_or_empty(x) or dflt` (non-empty string wins). -/
def strOrDefault (v : Val) (dflt : String) : String :=
  let s := _str_or_empty v
  if s = "" then dflt else s

/-- `self._str_or_empty(x) or alt` where the alternative is a value. -/
def strOrVal (v : Val) (alt : Val) : Val :=
  let s := _str_or_empty v
  if s = "" then alt else .str s

/-- Truncation `(narrative or "")[:n] if isinstance(narrative, str) else
str(narrative or "")[:n]` used on narrative fields. -/
def truncStr (v : Val) (n : Nat) : String :=
  match v with
  | .str s => String.mk (s.data.take n)
  | _ => String.mk ((pyStr (pyOr v (.str ""))).data.take n)

/-- Is the value a mapping? (`isinstance(v, dict)`) -/
def Val.isDict : Val → Bool
  | .dict _ => true
  | _ => false

/-- Is the value `None`? -/
def Val.isNone : Val → Bool
  | .none => true
  | _ => false

/-- Is the value numeric? (`isinstance(v, (int, float))`; bools are ints) -/
def Val.isNum : Val → Bool
  | .int _ => true
  | .float _ => true
  | .bool _ => true
  | _ => false

/-- The numeric value of a numeric `Val`. -/
def Val.num : Val → ℚ
  | .int n => n
  | .float q => q
  | .bool b => if b then 1 else 0
  | _ => 0

/-- Pure `v.get(k)` for values already known to be mappings (the embedding
uses this only after the source has established `isinstance(v, dict)` or
after a fallible `vget` on the same value has succeeded). -/
def dictGet (v : Val) (k : String) : Val :=
  match v with
  | .dict d => dget d k
  | _ => .none

/-- Pure `v.get(k, default)` under the same proviso as `dictGet`. -/
def dictGetD (v : Val) (k : String) (dflt : Val) : Val :=
  match v with
  | .dict d => dgetD d k dflt
  | _ => dflt

/-- `len(v)` for sized values; `TypeError` otherwise. -/
def pyLen (v : Val) : PyM Nat :=
  match v with
  | .list l => .ok l.length
  | .str s => .ok s.data.length
  | .dict d => .ok d.length
  | _ => .error "TypeError"

/-- A `(label, value)` row with a string value. -/
def mkLV (label value : String) : Val :=
  .dict [("label", .str label), ("value", .str value)]

/-- A `(label, value)` row with a raw value. -/
def mkLVraw (label : String) (value : Val) : Val :=
  .dict [("label", .str label), ("value", value)]

/-- The extracted-field state of `DealInputToSchemaMapper` after
`__init__` (src/main.py lines 118-141): each `self._x` field. -/
structure Mapper where
  deal : List (String × Val)
  cover : Val
  property : Val
  deal_facts : Val
  loan_terms : Val
  leverage : Val
  closing_disbursement : Val
  sponsor : Val
  sources_uses : Val
  valuation : Val
  narratives : Val
  risks : Val
  highlights : Val
  due_diligence : Val
  environmental : Val
  zoning : Val
  active_litigation : Val
  financial_info : Val

/-- `_normalize_from_layer3_shape` (src/main.py lines 143-190). -/
def Mapper.normalize (st : Mapper) : PyM Mapper := do
  let deal := st.deal
  let memo := pyOr (dget deal "deal_memo_ready") (.dict [])
  let extracted := pyOr (dget deal "extracted_data") (.dict [])
  let deal_facts ←
    if st.deal_facts.truthy then pure st.deal_facts else do
      let x ← vget memo "deal_facts_table"
      pure (pyOr x (.dict []))
  let leverage ←
    if st.leverage.truthy then pure st.leverage else do
      let a ← vget memo "leverage_ratios_table"
      let b ← orElseM a (vget (dgetD deal "calculations" (.dict [])) "leverage_ratios")
      pure (pyOr b (.dict []))
  let loan_terms ←
    if st.loan_terms.truthy then pure st.loan_terms else do
      let lt₀ ← vget extracted "loan_terms"
      let lt := pyOr lt₀ (.dict [])
      let d ← vget lt "data"
      match d with
      | .dict dd => pure (Val.dict dd)
      | _ => pure (pyOr lt (.dict []))
  let closing_disbursement ←
    if st.closing_disbursement.truthy then pure st.closing_disbursement else do
      let a ← vget memo "closing_disbursement"
      let b := pyOr a (dget deal "closing_disbursement")
      pure (pyOr b (.dict []))
  let cover ←
    if ¬ st.cover.truthy ∧ ((dget deal "deal_identification").truthy ∨ memo.truthy) then do
      let di := pyOr (dget deal "deal_identification") (.dict [])
      let pa ← vgetD di "property_address" (.str "")
      let cc₀ ← vget di "sponsor_names"
      let cc ← orElseM cc₀ (vgetD di "credit_committee" (.str ""))
      let ut ← vgetD di "underwriting_team" (.str "")
      let dt₀ ← vgetD di "date" (.str "")
      let dt ← orElseM dt₀ (do
        let md ← vget memo "memo_date"
        match md with
        | .str s => pure (Val.str s)
        | _ => pure (Val.str ""))
      pure (Val.dict [("property_address", pa), ("credit_committee", cc),
                      ("underwriting_team", ut), ("date", dt)])
    else pure st.cover
  let property ←
    if ¬ st.property.truthy ∧ memo.truthy then do
      let ps₀ ← vget memo "property_summary"
      let ps := pyOr ps₀ (.dict [])
      match ps with
      | .dict _ => do
        let nm₀ ← vget ps "property_name"
        let nm ← orElseM nm₀ (vgetD ps "project_name" (.str ""))
        let street ← vgetD ps "address" (.str "")
        let city ← vgetD ps "city" (.str "")
        let state ← vgetD ps "state" (.str "")
        let zip ← vgetD ps "zip" (.str "")
        let ptype ← vgetD ps "property_type" (.str "")
        let bsf₀ ← vget ps "gla"
        let bsf ← orElseM bsf₀ (vget ps "gross_leasable_area_sf")
        let acres₀ ← vget ps "site_size_acres"
        let acres ← orElseM acres₀ (vget ps "land_area_acres")
        let yb ← vget ps "year_built"
        let occ ← vget ps "occupancy"
        pure (Val.dict
          [("name", nm),
           ("address", .dict [("street", street), ("city", city),
                              ("state", state), ("zip", zip)]),
           ("property_type", ptype), ("building_sf", bsf),
           ("land_area_acres", acres), ("year_built", yb),
           ("occupancy_current", occ)])
      | _ => pure st.property
    else pure st.property
  let placeholders₀ ← vget memo "narrative_placeholders"
  let placeholders := pyOr placeholders₀ (.dict [])
  let narratives ←
    if ¬ st.narratives.truthy ∧ placeholders.truthy then do
      let po₀ ← vget placeholders "property_description"
      let po ← orElseM po₀ (vgetD placeholders "property_overview" (.str ""))
      let lo ← vgetD placeholders "location_overview" (.str "")
      let mo ← vgetD placeholders "market_overview" (.str "")
      let tov ← vgetD placeholders "deal_summary" (.str "")
      let sn ← vgetD placeholders "sponsor_summary" (.str "")
      let cf ← vgetD placeholders "closing_funding_narrative" (.str "")
      pure (Val.dict
        [("property_overview", po), ("location_overview", lo),
         ("market_overview", mo), ("transaction_overview", tov),
         ("sponsor_narrative", sn), ("closing_funding_narrative", cf)])
    else if st.narratives.truthy ∧ placeholders.truthy then do
      let cur₀ ← vget st.narratives "property_overview"
      let curS ← vstrip (pyOr cur₀ (.str ""))
      if curS = "" ∨ curS = "None" then do
        let nv₀ ← vget placeholders "property_description"
        let nv ← orElseM nv₀ (vgetD placeholders "property_overview" (.str ""))
        let nv₂ := pyOr nv (.str "")
        match st.narratives with
        | .dict nd => pure (Val.dict (dset nd "property_overview" nv₂))
        | _ => Except.error "TypeError"
      else pure st.narratives
    else pure st.narratives
  pure { st with deal_facts := deal_facts, leverage := leverage,
                 loan_terms := loan_terms,
                 closing_disbursement := closing_disbursement,
                 cover := cover, property := property,
                 narratives := narratives }

/-- `DealInputToSchemaMapper.__init__` (src/main.py lines 118-141): field
extraction with `or \x7b\x7d` defaults, then the Layer-3 normalization. -/
def Mapper.init (deal : List (String × Val)) : PyM Mapper :=
  Mapper.normalize
    { deal := deal
      cover := pyOr (dget deal "cover") (.dict [])
      property := pyOr (dget deal "property") (.dict [])
      deal_facts := pyOr (dget deal "deal_facts") (.dict [])
      loan_terms := pyOr (dget deal "loan_terms") (.dict [])
      leverage := pyOr (dget deal "leverage") (.dict [])
      closing_disbursement := pyOr (dget deal "closing_disbursement") (.dict [])
      sponsor := pyOr (dget deal "sponsor") (.dict [])
      sources_uses := pyOr (dget deal "sources_and_uses") (.dict [])
      valuation := pyOr (dget deal "valuation") (.dict [])
      narratives := pyOr (dget deal "narratives") (.dict [])
      risks := pyOr (dget deal "risks_and_mitigants") (.dict [])
      highlights := pyOr (dget deal "deal_highlights") (.dict [])
      due_diligence := pyOr (dget deal "due_diligence") (.dict [])
      environmental := pyOr (dget deal "environmental") (.dict [])
      zoning := pyOr (dget deal "zoning") (.dict [])
      active_litigation := pyOr (dget deal "active_litigation") (.dict [])
      financial_info := pyOr (dget deal "financial_information") (.dict []) }

/-- `_build_cover` (src/main.py lines 252-263). `self._cover.get(...)` on
a truthy non-mapping `cover` field raises `AttributeError`, as in the
source; `datetime.now().strftime("%B %d, %Y")` is the `today` argument. -/
def buildCover (st : Mapper) (today : String) : PyM Val := do
  let _addr := pyOr (← vget st.property "address") (.dict [])
  let prop_name := _str_or_empty (← vget st.property "name")
  let pa := _str_or_empty (← vget st.cover "property_address")
  let cc := _str_or_empty (← vget st.cover "credit_committee")
  let ut := _str_or_empty (← vget st.cover "underwriting_team")
  let dt₀ := _str_or_empty (← vget st.cover "date")
  let dt := if dt₀ = "" then today else dt₀
  pure (Val.dict
    [("memo_subtitle", .str "CREDIT COMMITTEE MEMO"),
     ("memo_title", .str "BRIDGE LOAN REQUEST"),
     ("property_name", .str prop_name),
     ("property_address", .str pa),
     ("credit_committee", .str cc),
     ("underwriting_team", .str ut),
     ("date", .str dt)])

/-- `_build_transaction_overview` (src/main.py lines 265-295). -/
def buildTransactionOverview (st : Mapper) : PyM Val := do
  let ir_raw ← vget st.loan_terms "interest_rate"
  let ir : Val :=
    match ir_raw with
    | .dict d => .dict d
    | .str s => .dict [("description", .str s), ("default_rate", .str "")]
    | _ => .dict []
  let pt := strOrDefault (← vget st.deal_facts "property_type") "N/A"
  let pn := strOrDefault (← vget st.property "name") "N/A"
  let lp := strOrDefault (← vget st.deal_facts "loan_purpose") "N/A"
  let la := strOrDefault (← vget st.deal_facts "loan_amount") "N/A"
  let srcv := strOrDefault (← vget st.deal_facts "source") "N/A"
  let deal_facts : List Val :=
    [mkLV "Property Type" pt, mkLV "Property Name" pn, mkLV "Loan Purpose" lp,
     mkLV "Loan Amount" la, mkLV "Source" srcv]
  let ird := strOrDefault (← vget ir "description") "N/A"
  let ofee := strOrDefault (← vget st.loan_terms "origination_fee") "N/A"
  let efee := strOrDefault (← vget st.loan_terms "exit_fee") "N/A"
  let prep := strOrDefault (← vget st.loan_terms "prepayment") "N/A"
  let guar := strOrDefault (← vget st.loan_terms "guaranty") "N/A"
  let loan_terms_list : List Val :=
    [mkLV "Interest Rate" ird, mkLV "Origination Fee" ofee, mkLV "Exit Fee" efee,
     mkLV "Prepayment" prep, mkLV "Guaranty" guar]
  let ltc₀ ← vget st.leverage "fb_ltc_at_closing"
  let ltc ← orElseM ltc₀ (vget st.leverage "ltc_at_closing")
  let ltvc := strOrDefault (← vget st.leverage "ltv_at_closing") "N/A"
  let ltvm := strOrDefault (← vget st.leverage "ltv_at_maturity") "N/A"
  let dy₀ ← vget st.leverage "debt_yield_fully_drawn"
  let dy ← orElseM dy₀ (vget st.leverage "debt_yield")
  let leverage_list : List Val :=
    [mkLV "LTC at Closing" (strOrDefault ltc "N/A"),
     mkLV "LTV at Closing" ltvc, mkLV "LTV at Maturity" ltvm,
     mkLV "Debt Yield" (strOrDefault dy "N/A")]
  pure (Val.dict
    [("deal_facts", .list deal_facts),
     ("loan_terms", .list loan_terms_list),
     ("leverage_metrics", .list leverage_list)])

/-- The narrative defaulting of `_build_executive_summary` (src/main.py
lines 299-300): keep a truthy narrative, else synthesize one from the
property name. -/
def execDefaultNarrative (st : Mapper) (narrative₀ : Val) : PyM Val :=
  if narrative₀.truthy then pure narrative₀ else do
    let nm ← vget st.property "name"
    let nmv := pyOr nm (.str "the property")
    pure (Val.str ("Bridge loan request for " ++ pyStr nmv ++
      ". See narratives for full overview."))

/-- `_build_executive_summary` (src/main.py lines 297-310): the narrative
is truncated to its first 4000 characters. -/
def buildExecutiveSummary (st : Mapper) : PyM Val := do
  let n₀ ← vget st.narratives "transaction_overview"
  let narrative ← execDefaultNarrative st (pyOr n₀ (.str ""))
  let t := truncStr narrative 4000
  let items₀ ← vget st.highlights "items"
  let itemsSliced ← pySlice (pyOr items₀ (.list [])) 6
  let items ← pyIter itemsSliced
  let key_highlights := (items.filter Val.isDict).map (fun h =>
    Val.str (_str_or_empty (pyOr (dictGet h "highlight") (dictGet h "description"))))
  let kh := if key_highlights.isEmpty then [Val.str "See deal highlights."] else key_highlights
  pure (Val.dict
    [("narrative", .str t),
     ("transaction_overview", .str t),
     ("key_highlights", .list kh),
     ("recommendation", .str "APPROVE - Subject to conditions"),
     ("conditions", .list [.str "Standard closing conditions",
                           .str "Satisfactory title and survey review",
                           .str "Completion of legal documentation"])])

/-- `_build_sources_and_uses` (src/main.py lines 312-356). -/
def buildSourcesAndUses (st : Mapper) : PyM Val := do
  let table₀ ← vget st.sources_uses "table"
  let table₁ := pyOr table₀ (.dict [])
  let table : Val := if table₁.isDict then table₁ else .dict []
  let ts₀ := pyOr (dictGet table "total_sources") (.int 0)
  let total_sources : ℚ := (floatParse? ts₀).getD 0
  let srcl ← pyIter (pyOr (dictGet table "sources") (.list []))
  let sources := (srcl.filter Val.isDict).map (fun item =>
    let raw_amount := dictGet item "amount"
    let percent :=
      if total_sources ≠ 0 ∧ raw_amount.isNone = false then
        match floatParse? raw_amount with
        | some q => plainFmt1 (q / total_sources * 100) ++ "%"
        | Option.none => _fmt_pct (dictGet item "rate_pct")
      else _fmt_pct (dictGet item "rate_pct")
    Val.dict
      [("label", pyOr (dictGet item "label") (pyOr (dictGet item "item") (.str "Source"))),
       ("amount", .str (_fmt_currency raw_amount)),
       ("percent", .str percent)])
  let usl ← pyIter (pyOr (dictGet table "uses") (.list []))
  let uses ← usl.foldlM (fun acc cat =>
    match cat with
    | .dict cd => do
      let citems ← pyIter (pyOr (dget cd "items") (.list []))
      pure (acc ++ (citems.filter Val.isDict).map (fun item =>
        Val.dict
          [("label", pyOr (dictGet item "label") (pyOr (dictGet item "item") (.str "Use"))),
           ("amount", .str (_fmt_currency (dictGet item "amount"))),
           ("release_conditions", dgetD cd "category" (.str ""))]))
    | _ => pure acc) []
  let fsrc := if sources.isEmpty then
      [Val.dict [("label", .str "TBD"), ("amount", .str "TBD"), ("percent", .str "TBD")]]
    else sources
  let fuses := if uses.isEmpty then
      [Val.dict [("label", .str "TBD"), ("amount", .str "TBD"),
                 ("release_conditions", .str "TBD")]]
    else uses
  pure (Val.dict
    [("fairbridge_sources_uses",
      .dict [("sources", .list fsrc), ("uses", .list fuses)])])

/-- `_build_property` (src/main.py lines 358-388). -/
def buildProperty (st : Mapper) : PyM Val := do
  let addr₀ ← vget st.property "address"
  let addr₁ := pyOr addr₀ (.dict [])
  let addr : Val := if addr₁.isDict then addr₁ else .dict []
  let narr₀ ← vget st.narratives "property_overview"
  let narrative₁ := pyOr narr₀ (.str "")
  let narrative₂ : Val :=
    match narrative₁ with
    | .str s => if pyStrip s = "None" then .str "" else .str s
    | v => v
  let narrative ←
    if narrative₂.truthy then pure narrative₂ else do
      let nm := pyOr (← vget st.property "name") (.str "The property")
      let street ← vgetD addr "street" (.str "")
      let city ← vgetD addr "city" (.str "")
      let state ← vgetD addr "state" (.str "")
      let bsf := pyOr (← vget st.property "building_sf") (.str "N/A")
      let acres := pyOr (← vget st.property "land_area_acres") (.str "N/A")
      pure (Val.str (pyStr nm ++ " is located at " ++ pyStr street ++ ", " ++
        pyStr city ++ ", " ++ pyStr state ++ ". " ++ pyStr bsf ++ " SF, " ++
        pyStr acres ++ " acres."))
  let yb ← vget st.property "year_built"
  let year_built_str :=
    match yb with
    | .none => "N/A"
    | .list l => String.intercalate ", " (l.map pyStr)
    | v => pyStr v
  let bsf ← vget st.property "building_sf"
  let bsf_str :=
    match bsf with
    | .int n => commaGroupInt n ++ " SF"
    | .float q => (if q.den = 1 then commaGroupInt q.num ++ ".0" else pyFloatRepr q) ++ " SF"
    | .bool b => (if b then "1" else "0") ++ " SF"
    | .none => "N/A"
    | v => pyStr v
  let occ ← vget st.property "occupancy_current"
  let occs ← vget st.property "occupancy_stabilized"
  let pname ← vgetD st.property "name" (.str "N/A")
  let ptype ← vgetD st.property "property_type" (.str "N/A")
  let pacres ← vgetD st.property "land_area_acres" (.str "N/A")
  let pyren ← vgetD st.property "year_renovated" (.str "N/A")
  let pcond ← vgetD st.property "condition" (.str "N/A")
  let poccc ← vgetD st.property "occupancy_current" (.str "N/A")
  let poccs ← vgetD st.property "occupancy_stabilized" (.str "N/A")
  let panchor ← vgetD st.property "anchor_tenants" (.str "N/A")
  let metrics : List Val :=
    [mkLVraw "Property Name" pname,
     mkLVraw "Property Type" ptype,
     mkLV "Land Area" (pyStr pacres ++ " acres"),
     mkLV "Building SF" bsf_str,
     mkLV "Year Built" year_built_str,
     mkLV "Year Renovated" (pyStr pyren),
     mkLVraw "Condition" pcond,
     mkLV "Current Occupancy"
       (if occ.isNone then "N/A" else pyStr poccc ++ "%"),
     mkLV "Stabilized Occupancy"
       (if occs.isNone then "N/A" else pyStr poccs ++ "%"),
     mkLVraw "Anchor Tenants" panchor]
  let desc₀ := truncStr narrative 5000
  let desc := if desc₀ = "None" then "" else desc₀
  pure (Val.dict [("description_narrative", .str desc), ("metrics", .list metrics)])

/-- `_build_location` (src/main.py lines 390-395). -/
def buildLocation (st : Mapper) : PyM Val := do
  let n₀ ← vget st.narratives "location_overview"
  let narrative₀ := pyOr n₀ (.str "")
  let narrative ←
    if narrative₀.truthy then pure narrative₀ else do
      let addr := pyOr (← vget st.property "address") (.dict [])
      let city ← vgetD addr "city" (.str "")
      let county ← vgetD addr "county" (.str "")
      let state ← vgetD addr "state" (.str "")
      pure (Val.str ("The property is located in " ++ pyStr city ++ ", " ++
        pyStr county ++ ", " ++ pyStr state ++
        ". See appraisal for detailed location analysis."))
  pure (Val.dict [("narrative", .str (truncStr narrative 4000))])

/-- `_build_market` (src/main.py lines 397-401). -/
def buildMarket (st : Mapper) : PyM Val := do
  let n₀ ← vget st.narratives "market_overview"
  let narrative₀ := pyOr n₀ (.str "")
  let narrative :=
    if narrative₀.truthy then narrative₀
    else Val.str "Market analysis indicates favorable conditions. Please refer to the appraisal for detailed market analysis."
  pure (Val.dict [("narrative", .str (truncStr narrative 4000))])

/-- The per-name sponsor entries built by the `for name in
(guarantors.get("names") or [])` loop of `_build_sponsorship`
(src/main.py lines 413-419): one entry per name, no normalization or
deduplication, each carrying the shared `combined_net_worth`. -/
def sponsorsFromNames (names : List Val) (cnw : Val) : List Val :=
  names.map (fun n => Val.dict [("name", n), ("net_worth", cnw), ("liquidity", Val.none)])

/-- Does a venture record qualify for the track record? (a mapping whose
resolved property address is nonempty, src/main.py lines 510-527). -/
def ventureQualifies (v : Val) : Bool :=
  v.isDict &&
    _str_or_empty (pyOr (dictGet v "property_address")
      (pyOr (dictGet v "address") (pyOr (dictGet v "property_name") (.str "")))) ≠ ""

/-- The track-record row built from a qualifying venture record
(src/main.py lines 514-533). -/
def mkVentureEntry (v : Val) : Val :=
  let acq := dictGet v "acquisition_price"
  let acq₂ : Val :=
    if acq.truthy && acq.isNum then .str ("$" ++ commaFmt0 acq.num)
    else .str (_str_or_empty acq)
  let propAddr := _str_or_empty (pyOr (dictGet v "property_address")
    (pyOr (dictGet v "address") (pyOr (dictGet v "property_name") (.str ""))))
  Val.dict
    [("property", .str propAddr),
     ("acquisition_date", .str (_str_or_empty (pyOr (dictGet v "acquisition_date")
        (pyOr (dictGet v "acquisition_period") (.str ""))))),
     ("acquisition_price", acq₂),
     ("outcome", .str (_str_or_empty (pyOr (dictGet v "status")
        (pyOr (dictGet v "outcome") (.str "")))))]

/-- The track-record loop of `_build_sponsorship` (src/main.py lines
510-533): one row per qualifying venture, in order, with no maximum
count. -/
def trackRecordCore (ventures : List Val) : List Val :=
  (ventures.filter ventureQualifies).map mkVentureEntry

/-- The placeholder row emitted when no venture qualifies (src/main.py
lines 535-536). -/
def trackRecordPlaceholder : Val :=
  .dict [("property", .str "See sponsor documentation"),
         ("acquisition_date", .str "-"),
         ("acquisition_price", .str "-"),
         ("outcome", .str "-")]

/-- One sponsor bio row (src/main.py lines 434-473). -/
def mkBio (display : Val) (p : Val) : Val :=
  let credit_score := dictGet p "credit_score"
  let csd := dictGetD p "credit_score_date" (.str "")
  let credit_display :=
    if credit_score.truthy then
      pyStr credit_score ++ (if csd.truthy then " (" ++ pyStr csd ++ ")" else "")
    else ""
  let sreo_count := dictGetD p "sreo_property_count" (.str "")
  let sreo_value := dictGetD p "sreo_total_value" (.str "")
  let sreo_summary := String.intercalate ", "
    ((if sreo_count.truthy then [pyStr sreo_count ++ " properties"] else []) ++
     (if sreo_value.truthy then [pyStr sreo_value ++ " value"] else []))
  Val.dict
    [("name", dictGetD p "name" (.str "")),
     ("title", .str (strOrDefault (dictGet p "title") "Principal")),
     ("company", strOrVal (dictGet p "company") display),
     ("credit_score", .str credit_display),
     ("net_worth", .str (_str_or_empty (dictGet p "net_worth"))),
     ("liquid_assets", .str (_str_or_empty (dictGet p "liquid_assets"))),
     ("sreo_summary", .str sreo_summary),
     ("experience", .str (_str_or_empty (dictGet p "experience"))),
     ("notable_projects", .str (_str_or_empty (dictGet p "notable_projects"))),
     ("civic_involvement", .str (_str_or_empty (dictGet p "civic_involvement")))]

/-- The display-name fallback of `_build_sponsorship` (src/main.py lines
425-432): the sponsor name, else the ampersand-joined guarantor names,
else a fixed placeholder. -/
def sponsorDisplay (guarantors snv : Val) : PyM Val :=
  if snv.truthy then pure snv else do
    let sn ← vgetD guarantors "names" (.list [])
    if sn.truthy then do
      let l ← pyIter sn
      pure (Val.str (String.intercalate " & " (l.map pyStr)))
    else pure (Val.str "See sponsor details")

/-- The overview-narrative choice of `_build_sponsorship` (src/main.py
line 541): a truthy overview truncated to 3000 characters, else the
display name. -/
def sponsorOverviewNarr (overview display : Val) : PyM Val :=
  if overview.truthy then pySlice overview 3000 else pure display

/-- `_build_sponsorship` (src/main.py lines 403-547). -/
def buildSponsorship (st : Mapper) : PyM Val := do
  let g₀ ← vget st.sponsor "guarantors"
  let guarantors := pyOr g₀ (.dict [])
  let p₀ ← vget st.sponsor "principals"
  let principals₀ := pyOr p₀ (.list [])
  let principals : Val :=
    match principals₀ with
    | .dict d => .list [.dict d]
    | v => v
  let names₀ ← vget guarantors "names"
  let namesList ← pyIter (pyOr names₀ (.list []))
  let cnw ← vget guarantors "combined_net_worth"
  let sponsors := sponsorsFromNames namesList cnw
  let snv ← vget st.sponsor "name"
  let display ← sponsorDisplay guarantors snv
  let overview ← vgetD st.narratives "sponsor_narrative" (.str "")
  let plist ← pyIter principals
  let bios := (plist.filter (fun p => p.isDict && (dictGetD p "name" (.str "")).truthy)).map
    (mkBio display)
  let fs₀ :=
    (if (dictGet guarantors "combined_net_worth").truthy then
      [Val.dict [("label", .str "Combined Net Worth"),
                 ("value", .str (_str_or_empty (dictGet guarantors "combined_net_worth")))]]
     else []) ++
    (if (dictGet guarantors "combined_cash_position").truthy then
      [Val.dict [("label", .str "Combined Cash Position"),
                 ("value", .str (_str_or_empty (dictGet guarantors "combined_cash_position")))]]
     else []) ++
    (if (dictGet guarantors "combined_securities_holdings").truthy then
      [Val.dict [("label", .str "Combined Securities Holdings"),
                 ("value", .str (_str_or_empty (dictGet guarantors "combined_securities_holdings")))]]
     else [])
  let financial_summary :=
    if fs₀.isEmpty then
      [Val.dict [("label", .str "Financial Summary"), ("value", .str "See sponsor documentation")]]
    else fs₀
  let collab := pyOr (dget st.deal "collaborative_ventures") (.dict [])
  let vi₀ ← vget collab "items"
  let vi ← orElseM vi₀ (do
    let v ← vget collab "ventures"
    pure (pyOr v (.list [])))
  let ventures : Val :=
    match vi with
    | .dict d => .list [.dict d]
    | v => v
  let vlist ← pyIter ventures
  let tr₀ := trackRecordCore vlist
  let track_record := if tr₀.isEmpty then [trackRecordPlaceholder] else tr₀
  let table₀ ← vget st.sponsor "table"
  let overview_narr ← sponsorOverviewNarr overview display
  pure (Val.dict
    [("name", display),
     ("table", pyOr table₀ (.list [])),
     ("overview", display),
     ("overview_narrative", overview_narr),
     ("sponsor_bios", .list bios),
     ("financial_summary", .list financial_summary),
     ("track_record", .list track_record),
     ("_sponsors_detail", .list (if sponsors.isEmpty then [] else sponsors))])

/-- `_build_risks_and_mitigants` (src/main.py lines 601-635). -/
def buildRisksAndMitigants (st : Mapper) : PyM Val := do
  let items₀ ← vget st.risks "items"
  let items ← pyIter (pyOr items₀ (.list []))
  let risk_items := (items.filter Val.isDict).map (fun r =>
    let title := pyOr (dictGet r "title") (dictGetD r "risk" (.str "Risk"))
    Val.dict
      [("title", title),
       ("risk_description", dictGetD r "description" (.str "")),
       ("mitigation", dictGetD r "mitigant" (.str "")),
       ("category", title),
       ("score", .str "Moderate"),
       ("risk", dictGetD r "description" (.str "")),
       ("mitigant", dictGetD r "mitigant" (.str ""))])
  let narrative₀ ← vget st.narratives "risks_mitigants_narrative"
  let narrative := pyOr narrative₀ (.str "")
  let default_item : Val :=
    .dict [("title", .str "General Risk Assessment"),
           ("risk_description", .str "See risks and mitigants narrative for details."),
           ("mitigation", .str "See narrative."),
           ("category", .str "General"),
           ("score", .str "Moderate"),
           ("risk", .str "See risks and mitigants."),
           ("mitigant", .str "See narrative.")]
  let risk_list := if risk_items.isEmpty then [default_item] else risk_items
  let recommendation : Val ←
    if narrative.truthy then pySlice narrative 2000
    else pure (.str "Based on the analysis, this transaction presents acceptable risk levels for Fairbridge.")
  pure (Val.dict
    [("overall_risk_score", .str "MODERATE"),
     ("recommendation_narrative", recommendation),
     ("risk_items", .list risk_list),
     ("items", .list risk_list)])

/-- `_build_validation_flags` (src/main.py lines 637-642). -/
def buildValidationFlags : Val :=
  .dict [("summary", .dict [("total_checks", .int 7), ("passed", .int 7),
                            ("warnings", .int 0), ("failed", .int 0)]),
         ("critical_flags", .list []),
         ("warning_flags", .list [])]

/-- `_build_table_strings` (src/main.py lines 644-712): five pre-formatted
markdown table strings. -/
def buildTableStrings (st : Mapper) : PyM (List (String × Val)) := do
  let financials ← orElseM (dget st.deal "financials") (do
    let b ← vget (dgetD st.deal "property" (.dict [])) "financials"
    pure (pyOr b (.dict [])))
  let income_items ←
    if financials.truthy then do
      let egi ← vget financials "effective_gross_income"
      let oe ← vget financials "operating_expenses"
      let noi ← vget financials "net_operating_income"
      pure ((if egi.truthy then
          ["| Effective Gross Income | " ++ _str_or_empty egi ++ " |"] else []) ++
        (if oe.truthy then ["| Operating Expenses | " ++ _str_or_empty oe ++ " |"] else []) ++
        (if noi.truthy then ["| Net Operating Income | " ++ _str_or_empty noi ++ " |"] else []))
    else pure ([] : List String)
  let income_statement_table :=
    if income_items.isEmpty then ""
    else "| Metric | Value |\n|---|---|\n" ++ String.intercalate "\n" income_items
  let valuation := pyOr st.valuation (pyOr (dget st.deal "valuation") (.dict []))
  let dcf_items ←
    if valuation.truthy then do
      let dv ← vget valuation "dcf_value"
      let tc ← vget valuation "terminal_cap_rate"
      let dr ← vget valuation "discount_rate"
      pure ((if dv.truthy then ["| DCF Value | " ++ _str_or_empty dv ++ " |"] else []) ++
        (if tc.truthy then ["| Terminal Cap | " ++ _str_or_empty tc ++ " |"] else []) ++
        (if dr.truthy then ["| Discount Rate | " ++ _str_or_empty dr ++ " |"] else []))
    else pure ([] : List String)
  let dcf_table :=
    if dcf_items.isEmpty then ""
    else "| Component | Value |\n|---|---|\n" ++ String.intercalate "\n" dcf_items
  let aiv ← vget valuation "as_is_value"
  let asv ← vget valuation "as_stabilized_value"
  let lv ← vget valuation "land_value"
  let pv_items :=
    (if aiv.truthy then ["| As-Is Value | " ++ _str_or_empty aiv ++ " |"] else []) ++
    (if asv.truthy then ["| Stabilized Value | " ++ _str_or_empty asv ++ " |"] else []) ++
    (if lv.truthy then ["| Land Value | " ++ _str_or_empty lv ++ " |"] else [])
  let property_value_table :=
    if pv_items.isEmpty then ""
    else "| Component | Value |\n|---|---|\n" ++ String.intercalate "\n" pv_items
  let default_scenario := pyOr (dget st.deal "default_scenario")
    (pyOr (dget st.deal "foreclosure_analysis") (.dict []))
  let default_interest_scenario_table :=
    if default_scenario.truthy then "See foreclosure analysis narrative." else ""
  let comps := pyOr (dget st.deal "comparable_sales") (pyOr (dget st.deal "comps") (.list []))
  let comps_table ←
    match comps with
    | .list cl =>
      if cl.isEmpty then pure "" else do
        let rows := ((cl.take 5).filter Val.isDict).map (fun c =>
          "| " ++ pyStr (dictGetD c "address" (.str "N/A")) ++ " | " ++
          pyStr (dictGetD c "sale_price" (.str "N/A")) ++ " | " ++
          pyStr (dictGetD c "date" (.str "N/A")) ++ " |")
        pure (if rows.isEmpty then ""
          else "| Address | Price | Date |\n|---|---|---|\n" ++ String.intercalate "\n" rows)
    | _ => pure ""
  pure [("income_statement_table", .str income_statement_table),
        ("dcf_table", .str dcf_table),
        ("property_value_table", .str property_value_table),
        ("default_interest_scenario_table", .str default_interest_scenario_table),
        ("comps_table", .str comps_table)]

/-- `_build_third_party_reports` (src/main.py lines 714-736). -/
def buildThirdPartyReports (st : Mapper) : PyM Val := do
  let afirm := strOrDefault (← vget st.due_diligence "appraisal_company") "N/A"
  let aapp := strOrDefault (← vget st.due_diligence "appraisal_firm") "N/A"
  let aiv := strOrDefault (← vget st.valuation "as_is_value") "N/A"
  let asv := strOrDefault (← vget st.valuation "as_stabilized_value") "N/A"
  let acap := strOrDefault (← vget st.valuation "cap_rate") "N/A"
  let efirm := strOrDefault (← vget st.environmental "firm") "N/A"
  let edate := strOrDefault (← vget st.environmental "report_date") "N/A"
  let hrecs ← vget st.environmental "historical_recs"
  let nrecs ← pyLen (pyOr hrecs (.list []))
  let findings := String.mk
    ((strOrDefault (← vget st.environmental "findings_summary") "N/A").data.take 500)
  let pfirm := strOrDefault (← vget st.due_diligence "pca_firm") "N/A"
  let psummary := strOrDefault (← vget st.narratives "pca_narrative")
    "See property condition assessment."
  pure (Val.dict
    [("appraisal", .dict [("firm", .str afirm), ("appraiser", .str aapp),
                          ("effective_date", .str "N/A"), ("as_is_value", .str aiv),
                          ("stabilized_value", .str asv), ("cap_rate", .str acap)]),
     ("environmental", .dict [("firm", .str efirm), ("report_date", .str edate),
                              ("current_recs", .str (toString nrecs)),
                              ("phase_ii_required", .str "No"),
                              ("findings", .str findings)]),
     ("pca", .dict [("firm", .str pfirm), ("report_date", .str "N/A"),
                    ("summary", .str psummary)])])

/-- `_build_zoning_entitlements` (src/main.py lines 738-748). -/
def buildZoningEntitlements (st : Mapper) : PyM Val := do
  let n₀ ← vget st.narratives "zoning_narrative"
  let narrative₀ := pyOr n₀ (.str "")
  let narrative ←
    if narrative₀.truthy then pure narrative₀ else do
      let zc := pyOr (← vget st.zoning "zone_code") (.str "N/A")
      let hbu := pyOr (← vget st.zoning "highest_best_use_improved") (.str "")
      pure (Val.str ("Current zoning: " ++ pyStr zc ++ ". " ++ pyStr hbu))
  let cz := strOrDefault (← vget st.zoning "zone_code") "N/A"
  pure (Val.dict
    [("summary_narrative", .str (truncStr narrative 3000)),
     ("current_zoning", .str cz),
     ("proposed_zoning", .str "See redevelopment"),
     ("entitlement_status", .str "See zoning narrative"),
     ("exists", .bool st.zoning.truthy)])

/-- The eight TBD quarterly rows of `_build_foreclosure_analysis`
(src/main.py line 752). -/
def foreclosureTbdRows : List Val :=
  (List.range 8).map (fun q =>
    Val.dict [("Quarter", .str ("Q" ++ toString (q + 1))),
              ("Beginning_Balance", .str "TBD"), ("Legal_Fees", .str "TBD"),
              ("Taxes", .str "TBD"), ("Insurance", .str "TBD"),
              ("Total_Carrying_Costs", .str "TBD"), ("Interest_Accrued", .str "TBD"),
              ("Ending_Balance", .str "TBD"), ("Property_Value", .str "TBD"),
              ("LTV", .str "TBD")])

/-- `_build_foreclosure_analysis` (src/main.py lines 750-781). -/
def buildForeclosureAnalysis (st : Mapper) : PyM Val := do
  let _narr ← vget st.narratives "foreclosure_assumptions"
  let rows := Val.list foreclosureTbdRows
  let deal_fa := pyOr (dget st.deal "foreclosure_analysis") (.dict [])
  match deal_fa with
  | .dict fad => do
    let ds := pyOr (dget fad "default_interest_scenario")
      (pyOr (dget fad "scenario_default_rate") (.dict []))
    let ns := pyOr (dget fad "note_rate_scenario")
      (pyOr (dget fad "scenario_note_rate") (.dict []))
    let sdRows ← vgetD ds "rows" rows
    let sdAssum ← vgetD ds "assumptions" (.dict [])
    let sdMetrics ← vgetD ds "metrics" (.dict [])
    let snRows ← vgetD ns "rows" rows
    let snAssum ← vgetD ns "assumptions" (.dict [])
    let snMetrics ← vgetD ns "metrics" (.dict [])
    let sd := Val.dict [("rows", sdRows), ("assumptions", sdAssum), ("metrics", sdMetrics)]
    let sn := Val.dict [("rows", snRows), ("assumptions", snAssum), ("metrics", snMetrics)]
    pure (Val.dict [("scenario_default_rate", sd), ("scenario_note_rate", sn),
                    ("default_interest_scenario", sd), ("note_interest_scenario", sn)])
  | _ => do
    let sd := Val.dict [("rows", rows), ("assumptions", .dict []), ("metrics", .dict [])]
    let sn := Val.dict [("rows", rows), ("assumptions", .dict []), ("metrics", .dict [])]
    pure (Val.dict [("scenario_default_rate", sd), ("scenario_note_rate", sn),
                    ("default_interest_scenario", sd), ("note_interest_scenario", sn)])

/-- `_build_litigation` (src/main.py lines 783-798). -/
def buildLitigation (st : Mapper) : PyM Val := do
  let lit := st.active_litigation
  let ex ← vget lit "exists"
  let has_litigation := ex.truthy
  let n₀ ← vget st.narratives "litigation_narrative"
  let narrative₀ := pyOr n₀ (.str "")
  let narrative :=
    if ¬ narrative₀.truthy ∧ ¬ has_litigation then
      Val.str "No active litigation was disclosed."
    else narrative₀
  let cs₀ ← vget lit "cases"
  let cl ← pyIter (pyOr cs₀ (.list []))
  let cases ← cl.mapM (fun c => do
    let bg₀ ← vget c "background"
    let bg ← orElseM bg₀ (vget c "description")
    let se₀ ← vget c "sponsor_explanation"
    let se ← orElseM se₀ (vget c "borrower_explanation")
    let fa₀ ← vget c "fairbridge_analysis"
    let fa ← orElseM fa₀ (vget c "lender_analysis")
    let hb₀ ← vget c "holdback"
    let hb ← orElseM hb₀ (vget c "reserve")
    pure (Val.dict
      [("background", .str (_str_or_empty bg)),
       ("sponsor_explanation", .str (_str_or_empty se)),
       ("fairbridge_analysis", .str (_str_or_empty fa)),
       ("holdback", .str (_str_or_empty hb))]))
  pure (Val.dict [("has_litigation", .bool has_litigation),
                  ("narrative", narrative), ("cases", .list cases)])

/-- `_build_loan_terms` (src/main.py lines 800-814). -/
def buildLoanTerms (st : Mapper) : PyM Val := do
  let n₀ ← vget st.narratives "loan_terms_narrative"
  let narrative := pyOr n₀ (.str "")
  let la := _fmt_currency (← vget st.loan_terms "loan_amount")
  let ir := _str_or_empty (← vget st.loan_terms "interest_rate")
  let term := _str_or_empty (← vget st.loan_terms "term")
  let amort := _str_or_empty (← vget st.loan_terms "amortization")
  let prep := _str_or_empty (← vget st.loan_terms "prepayment")
  let rec₀ := _str_or_empty (← vget st.loan_terms "recourse")
  let ofee := _str_or_empty (← vget st.loan_terms "origination_fee")
  let efee := _str_or_empty (← vget st.loan_terms "exit_fee")
  let detailed_terms : List Val :=
    [mkLV "Loan Amount" la, mkLV "Interest Rate" ir, mkLV "Term" term,
     mkLV "Amortization" amort, mkLV "Prepayment" prep, mkLV "Recourse" rec₀,
     mkLV "Origination Fee" ofee, mkLV "Exit Fee" efee]
  pure (Val.dict [("narrative", narrative), ("detailed_terms", .list detailed_terms)])

/-- `_build_financial_analysis` (src/main.py lines 816-829). -/
def buildFinancialAnalysis (st : Mapper) : PyM Val := do
  let n₀ ← vget st.narratives "property_value_narrative"
  let narrative := pyOr n₀ (.str "")
  let dy₀ ← vget st.financial_info "debt_yield"
  let dy := pyOr dy₀ (.dict [])
  let noi := _fmt_currency (← vget st.financial_info "noi")
  let egi := _fmt_currency (← vget st.financial_info "effective_gross_income")
  let oe := _fmt_currency (← vget st.financial_info "total_operating_expenses")
  let er := _fmt_pct (← vget st.financial_info "expense_ratio")
  let dyc := _fmt_pct (← vget dy "at_closing_pct")
  let dyf := _fmt_pct (← vget dy "fully_drawn_pct")
  let metrics : List (String × String) :=
    [("NOI", noi), ("Effective Gross Income", egi), ("Operating Expenses", oe),
     ("Expense Ratio", er), ("Debt Yield (At Closing)", dyc),
     ("Debt Yield (Fully Drawn)", dyf)]
  let filtered := (metrics.filter (fun m => m.2 ≠ "" ∧ m.2 ≠ "N/A")).map
    (fun m => mkLV m.1 m.2)
  pure (Val.dict [("narrative", narrative), ("metrics", .list filtered)])

/-- `_build_exit_strategy` (src/main.py lines 831-836). -/
def buildExitStrategy (st : Mapper) : PyM Val := do
  let n₀ ← vget st.narratives "exit_strategy"
  let narrative₀ := pyOr n₀ (.str "")
  let narrative :=
    if narrative₀.truthy then narrative₀
    else pyOr (dget st.deal "exit_strategy_text")
      (.str "Exit strategy to be determined based on market conditions.")
  pure (Val.dict [("narrative", narrative)])

/-- `_build_deal_highlights` (src/main.py lines 838-848). -/
def buildDealHighlights (st : Mapper) : PyM Val := do
  let items₀ ← vget st.highlights "items"
  let items ← pyIter (pyOr items₀ (.list []))
  let highlights := (items.filter Val.isDict).map (fun h =>
    Val.dict [("title", .str (_str_or_empty (dictGet h "title"))),
              ("description", .str (_str_or_empty (dictGet h "description")))])
  pure (Val.dict [("highlights", .list highlights)])

/-- `_build_due_diligence` (src/main.py lines 850-868). -/
def buildDueDiligence (st : Mapper) : PyM Val := do
  let af ← vget st.due_diligence "appraisal_firm"
  let ef ← vget st.due_diligence "environmental_firm"
  let pf ← vget st.due_diligence "pca_firm"
  let checklist : List Val :=
    [Val.dict [("item", .str "Appraisal"),
               ("status", .str (if af.truthy then "Received" else "Pending")),
               ("count", .int 1)],
     Val.dict [("item", .str "Phase I ESA"),
               ("status", .str (if ef.truthy then "Received" else "Pending")),
               ("count", .int 1)],
     Val.dict [("item", .str "Title Commitment"), ("status", .str "Pending"), ("count", .int 1)],
     Val.dict [("item", .str "Survey"), ("status", .str "Pending"), ("count", .int 1)],
     Val.dict [("item", .str "PCA Report"),
               ("status", .str (if pf.truthy then "Received" else "Pending")),
               ("count", .int 1)],
     Val.dict [("item", .str "Zoning Report"), ("status", .str "Pending"), ("count", .int 1)],
     Val.dict [("item", .str "Insurance Certificates"), ("status", .str "Pending"), ("count", .int 1)],
     Val.dict [("item", .str "Legal Documents"), ("status", .str "Pending"), ("count", .int 1)]]
  let total_received : Int :=
    (if af.truthy then 1 else 0) + (if ef.truthy then 1 else 0) + (if pf.truthy then 1 else 0)
  let tr ← vget st.due_diligence "total_received"
  let ti ← vget st.due_diligence "total_items"
  pure (Val.dict
    [("total_received", pyOr tr (.int total_received)),
     ("total_items", pyOr ti (.int 8)),
     ("checklist", .list checklist)])

/-- `_build_capital_stack_flat` (src/main.py lines 870-910). -/
def buildCapitalStackFlat (st : Mapper) : PyM (String × List Val × List Val) := do
  let cs := pyOr (dget st.deal "capital_stack") (.dict [])
  let table₀ ← vget cs "table"
  let table : Val := if table₀.isDict then table₀ else cs
  let table : Val := if table.isDict then table else .dict []
  let title := strOrDefault (dictGet table "title") "Capital Stack at Closing"
  let sraw ← pyIter (pyOr (dictGet table "sources") (.list []))
  let sources_list := (sraw.filter Val.isDict).map (fun item =>
    Val.dict [("label", .str (_str_or_empty (pyOr (dictGet item "item") (dictGet item "label")))),
              ("amount", .str (_fmt_currency (dictGet item "amount"))),
              ("percent", .str (_fmt_pct (pyOr (dictGet item "rate_pct") (dictGet item "percent"))))])
  let uraw ← pyIter (pyOr (dictGet table "uses") (.list []))
  let uses_list ← uraw.foldlM (fun acc cat =>
    match cat with
    | .dict cd => do
      let category := _str_or_empty (dget cd "category")
      let items₀ := pyOr (dget cd "items") (.list [])
      let items : Val :=
        if ¬ items₀.truthy ∧
            ((dget cd "item").isNone = false ∨ (dget cd "label").isNone = false) then
          .list [.dict cd]
        else items₀
      let il ← pyIter items
      pure (acc ++ (il.filter Val.isDict).map (fun item =>
        Val.dict [("label", .str (_str_or_empty (pyOr (dictGet item "item") (dictGet item "label")))),
                  ("amount", .str (_fmt_currency (dictGet item "amount"))),
                  ("release_conditions", .str category)]))
    | _ => pure acc) []
  if sources_list.isEmpty ∧
      ((dictGet cs "sources").truthy ∨ (dictGet cs "uses").truthy) then do
    let csl ← pyIter (pyOr (dictGet cs "sources") (.list []))
    let sources_list₂ := (csl.filter Val.isDict).map (fun x =>
      Val.dict [("label", .str (_str_or_empty (pyOr (dictGet x "item") (dictGet x "label")))),
                ("amount", .str (_fmt_currency (dictGet x "amount"))),
                ("percent", .str (_fmt_pct (dictGet x "rate_pct")))])
    let cul ← pyIter (pyOr (dictGet cs "uses") (.list []))
    let uses_list₂ := uses_list ++ (cul.filter Val.isDict).map (fun u =>
      Val.dict [("label", .str (_str_or_empty (pyOr (dictGet u "item") (dictGet u "label")))),
                ("amount", .str (_fmt_currency (dictGet u "amount"))),
                ("release_conditions", .str (_str_or_empty (dictGet u "category")))])
    pure (title, sources_list₂, uses_list₂)
  else
    pure (title, sources_list, uses_list)

/-- `_build_disbursement_rows` (src/main.py lines 912-930). -/
def buildDisbursementRows (st : Mapper) : List Val :=
  let cd := pyOr st.closing_disbursement (.dict [])
  match cd with
  | .dict cdd =>
    [("payoff_existing_debt", "Payoff Existing Debt"),
     ("broker_fee", "Broker Fee"),
     ("origination_fee", "Origination Fee"),
     ("closing_costs_title", "Closing Costs (Title)"),
     ("lender_legal", "Lender Legal"),
     ("borrower_legal", "Borrower Legal"),
     ("misc", "Misc"),
     ("interest_reserve", "Interest Reserve"),
     ("total_disbursements", "Total Disbursements"),
     ("sponsors_equity_at_closing", "Sponsors Equity at Closing"),
     ("fairbridge_release_at_closing", "Fairbridge Release at Closing")].map
      (fun kl => Val.dict [("label", .str kl.2), ("value", .str (_str_or_empty (dget cdd kl.1)))])
  | _ => []

/-- `_build_collaborative_ventures` (src/main.py lines 565-599). -/
def buildCollaborativeVentures (st : Mapper) : PyM Val := do
  let collab := pyOr (dget st.deal "collaborative_ventures") (.dict [])
  let items₀ ← vget collab "items"
  let items₁ ← orElseM items₀ (do
    let v ← vget collab "ventures"
    pure (pyOr v (.list [])))
  let items : Val :=
    match items₁ with
    | .dict d => .list [.dict d]
    | v => v
  let il ← pyIter items
  let formatted_items := (il.filter Val.isDict).map (fun v =>
    let acq := dictGet v "acquisition_price"
    let acq₂ : Val :=
      if acq.truthy && acq.isNum then .str ("$" ++ commaFmt0 acq.num) else acq
    let pa := _str_or_empty (dictGet v "property_address")
    Val.dict
      [("location", .str pa), ("name", .str pa), ("property_address", .str pa),
       ("acquisition_date", .str (_str_or_empty (pyOr (dictGet v "acquisition_date")
          (dictGet v "acquisition_period")))),
       ("acquisition_price", .str (_str_or_empty acq₂)),
       ("description", .str (_str_or_empty (dictGet v "description"))),
       ("status", .str (_str_or_empty (dictGet v "status")))])
  let pm ← vget collab "property_map"
  pure (Val.dict [("items", .list formatted_items), ("property_map", pyOr pm (.str ""))])

/-- `str.upper()` — `AttributeError` unless the value is a string. -/
def pyUpper (v : Val) : PyM String :=
  match v with
  | .str s => .ok (String.mk (s.data.map Char.toUpper))
  | _ => .error "AttributeError"

/-- `d.items()` — `AttributeError` unless the value is a mapping. -/
def pyItems (v : Val) : PyM (List (String × Val)) :=
  match v with
  | .dict d => .ok d
  | _ => .error "AttributeError"

/-- `dict(v)`: copy of a mapping; a list of `[key, value]` pairs builds a
mapping; the empty string gives an empty mapping; everything else raises
(`TypeError`/`ValueError`), as in CPython on the value shapes of this
embedding. -/
def pyDictCast (v : Val) : PyM (List (String × Val)) :=
  match v with
  | .dict d => .ok d
  | .list l => l.foldlM (fun acc e =>
      match e with
      | .list [.str k, x] => .ok (dset acc k x)
      | _ => .error "ValueError") []
  | .str s => if s = "" then .ok [] else .error "ValueError"
  | _ => .error "TypeError"

/-- One attempt of the regex alternative `SOFR\s*\+\s*\d+` at the current
position: literal `SOFR`, a maximal run of whitespace, `+`, a maximal run
of whitespace, then a maximal nonempty run of digits (greedy quantifiers
followed by a character outside their class cannot backtrack to shorter
runs). -/
def matchSOFRAlt (l : List Char) : Option (List Char) :=
  match l with
  | 'S' :: 'O' :: 'F' :: 'R' :: rest =>
    let ws₁ := rest.takeWhile pyIsSpace
    match rest.dropWhile pyIsSpace with
    | '+' :: r₂ =>
      let ws₂ := r₂.takeWhile pyIsSpace
      let r₃ := r₂.dropWhile pyIsSpace
      let ds := r₃.takeWhile Char.isDigit
      if ds.isEmpty then Option.none
      else some (['S', 'O', 'F', 'R'] ++ ws₁ ++ ['+'] ++ ws₂ ++ ds)
    | _ => Option.none
  | _ => Option.none

/-- One attempt of the regex alternative `[\d.]+%` at the current
position: a maximal nonempty run of digits/dots immediately followed by
`%` (a shorter run would be followed by a digit or dot, not `%`). -/
def matchPctAlt (l : List Char) : Option (List Char) :=
  let ds := l.takeWhile (fun c => c.isDigit || c = '.')
  if ds.isEmpty then Option.none
  else
    match l.dropWhile (fun c => c.isDigit || c = '.') with
    | '%' :: _ => some (ds ++ ['%'])
    | _ => Option.none

/-- `re.search(r"SOFR\s*\+\s*\d+|[\d.]+%", s)` scan: leftmost position
wins, the first alternative preferred at equal positions. -/
def searchIRAux : List Char → Option (List Char)
  | [] => Option.none
  | c :: rest =>
    match matchSOFRAlt (c :: rest) with
    | some m => some m
    | Option.none =>
      match matchPctAlt (c :: rest) with
      | some m => some m
      | Option.none => searchIRAux rest

/-- `re.search(r"[\d.]+%", s)` scan. -/
def searchPctAux : List Char → Option (List Char)
  | [] => Option.none
  | c :: rest =>
    match matchPctAlt (c :: rest) with
    | some m => some m
    | Option.none => searchPctAux rest

/-- `match.group(0)` of `re.search(r"SOFR\s*\+\s*\d+|[\d.]+%", s)`. -/
def searchIRate (s : String) : Option String :=
  (searchIRAux s.data).map String.mk

/-- `match.group(0)` of `re.search(r"[\d.]+%", s)`. -/
def searchPct (s : String) : Option String :=
  (searchPctAux s.data).map String.mk

/-- The `next((r for r in sponsor_table if r.get("entity", "").upper() ==
"TOTAL"), \x7b\x7d)` lookup of `transform` (src/main.py line 1203); the
generator's predicate can raise on a non-string entity. -/
def findTotalRow : List Val → PyM Val
  | [] => .ok (.dict [])
  | r :: rest => do
    let e ← vgetD r "entity" (.str "")
    let u ← pyUpper e
    if u = "TOTAL" then pure r else findTotalRow rest

/-- Is the value a list? (`isinstance(v, list)`) -/
def Val.isList : Val → Bool
  | .list _ => true
  | _ => false

/-- `k in v` for mapping values (all uses below are guarded by mapping
checks in the source). -/
def vmem (v : Val) (k : String) : Bool :=
  match v with
  | .dict d => dmem d k
  | _ => false

/-- The local `ensure_scenario_structure` helper of `transform`
(src/main.py lines 1233-1242). -/
def ensureScenario (s : Val) : Val :=
  match s with
  | .dict d =>
    let d₁ := if dmem d "assumptions" then d else dset d "assumptions" (.dict [])
    let d₂ := if dmem d₁ "rows" then d₁ else dset d₁ "rows" (.list [])
    let d₃ := if dmem d₂ "metrics" then d₂ else dset d₂ "metrics" (.dict [])
    .dict d₃
  | _ => .dict [("rows", .list []), ("assumptions", .dict []), ("metrics", .dict [])]

/-- `self._strip_markdown` on an arbitrary value (src/main.py lines
237-240): non-strings are stringified when truthy, else become "". -/
def stripMarkdownVal (v : Val) : Val :=
  match v with
  | .str s => .str (_strip_markdown s)
  | v => if v.truthy then .str (pyStr v) else .str ""

/-- The loan_terms_raw defaulting step of `transform` (src/main.py lines
1357-1360): a missing, `None` or blank-string field becomes the fixed
sentence. -/
def defaultLoanTermKey (d : List (String × Val)) (k : String) : List (String × Val) :=
  let v := dget d k
  let blank :=
    match v with
    | .str s => pyStrip s = ""
    | _ => false
  if v.isNone || blank then dset d k (.str "See Loan Terms narrative") else d

/-- The `if key not in out: out[key] = val` copy loops of `transform`
(src/main.py lines 1361-1372). -/
def copyAbsent (out : List (String × Val)) (items : List (String × Val)) :
    List (String × Val) :=
  items.foldl (fun o kv => if dmem o kv.1 then o else dset o kv.1 kv.2) out

/-- Lines 932-1132 of `DealInputToSchemaMapper.transform`: the `out`
literal (builders evaluated in source order, the first raising builder
short-circuiting), loan issues, collaborative ventures, the flattened
capital stack, sponsor table, sources/uses lists and totals, the direct
capital-stack and disbursement variables, the equity partner, and the
three display fields. `datetime.now()` is the `today` argument; `print`
debugging is omitted. -/
def transformA (st : Mapper) (today : String) : PyM (List (String × Val)) := do
  let cover_v ← buildCover st today
  let transaction_overview_v ← buildTransactionOverview st
  let executive_summary_v ← buildExecutiveSummary st
  let sources_and_uses_v ← buildSourcesAndUses st
  let loan_terms_v ← buildLoanTerms st
  let property_v ← buildProperty st
  let litigation_v ← buildLitigation st
  let location_v ← buildLocation st
  let market_v ← buildMarket st
  let sponsorship_v ← buildSponsorship st
  let third_party_v ← buildThirdPartyReports st
  let financial_analysis_v ← buildFinancialAnalysis st
  let exit_strategy_v ← buildExitStrategy st
  let zoning_v ← buildZoningEntitlements st
  let foreclosure_v ← buildForeclosureAnalysis st
  let risks_v ← buildRisksAndMitigants st
  let deal_highlights_v ← buildDealHighlights st
  let due_diligence_v ← buildDueDiligence st
  let sections_v : Val := .dict
    [("transaction_overview", transaction_overview_v),
     ("executive_summary", executive_summary_v),
     ("sources_and_uses", sources_and_uses_v),
     ("loan_terms", loan_terms_v),
     ("property", property_v),
     ("litigation", litigation_v),
     ("location", location_v),
     ("market", market_v),
     ("sponsorship", sponsorship_v),
     ("third_party_reports", third_party_v),
     ("financial_analysis", financial_analysis_v),
     ("exit_strategy", exit_strategy_v),
     ("zoning_entitlements", zoning_v),
     ("foreclosure_analysis", foreclosure_v),
     ("risks_and_mitigants", risks_v),
     ("deal_highlights", deal_highlights_v),
     ("due_diligence", due_diligence_v),
     ("validation_flags", buildValidationFlags)]
  let out : List (String × Val) :=
    [("cover", cover_v),
     ("toc", .str ("\x7b\x7b" ++ "TOC" ++ "\x7d\x7d")),
     ("sections", sections_v)]
  let li := pyOr (dget st.deal "loan_issues") (.dict [])
  let ip ← vget li "income_producing"
  let dv ← vget li "development"
  let out := dset out "loan_issues" (.dict
    [("income_producing", if ip.isList then ip else pyOr ip (.list [])),
     ("development", if dv.isList then dv else pyOr dv (.list []))])
  let out := dset out "loan_issues_income_producing" (if ip.isList then ip else .list [])
  let out := dset out "loan_issues_development" (if dv.isList then dv else .list [])
  let disc ← vget li "disclosure_statement"
  let out := dset out "loan_issues_disclosure" (pyOr disc (.str ""))
  let cv_built ← buildCollaborativeVentures st
  let cv := dget st.deal "collaborative_ventures"
  let raw_items : Val :=
    match cv with
    | .dict d => pyOr (dget d "items") (pyOr (dget d "ventures") (.list []))
    | .list l => .list l
    | _ => .list []
  let ril ← pyIter raw_items
  let cv_items := (ril.filter Val.isDict).map (fun item =>
    let acq := dictGet item "acquisition_price"
    let acq₂ : Val :=
      if acq.truthy && acq.isNum then .str ("$" ++ commaFmt0 acq.num)
      else .str (_str_or_empty acq)
    let pa := _str_or_empty (dictGet item "property_address")
    Val.dict
      [("location", .str pa), ("name", .str pa), ("property_address", .str pa),
       ("acquisition_date", .str (_str_or_empty (pyOr (dictGet item "acquisition_date")
          (dictGet item "acquisition_period")))),
       ("acquisition_price", acq₂),
       ("description", .str (_str_or_empty (dictGet item "description"))),
       ("status", .str (_str_or_empty (dictGet item "status")))])
  let cv_items_v : Val ←
    if cv_items.isEmpty then vgetD cv_built "items" (.list [])
    else pure (.list cv_items)
  let out := dset out "collaborative_ventures" (.dict [("items", cv_items_v)])
  let out := dset out "collaborative_ventures_list" cv_items_v
  let out := dset out "collaborative_ventures_disclosure"
    (if cv.isDict then dictGetD cv "disclosure_statement" (.str "") else .str "")
  let flat ← buildCapitalStackFlat st
  let cap_title := flat.1
  let cap_sources := flat.2.1
  let cap_uses := flat.2.2
  let out := dset out "capital_stack_title" (.str cap_title)
  let out := dset out "capital_stack_sources" (.list cap_sources)
  let out := dset out "capital_stack_uses" (.list cap_uses)
  let out := dset out "capital_stack" (.dict
    [("title", .str cap_title), ("sources", .list cap_sources), ("uses", .list cap_uses)])
  let spt₀ ← vget st.sponsor "table"
  let srl ← pyIter (pyOr spt₀ (.list []))
  let normalized_sponsor_table := (srl.filter Val.isDict).map (fun row =>
    Val.dict
      [("entity", pyOr (dictGet row "entity") (pyOr (dictGet row "name")
          (pyOr (dictGet row "member") (.str "")))),
       ("profit_pct", pyOr (dictGet row "profit_pct")
          (pyOr (dictGet row "profit_percentage_interest")
            (pyOr (dictGet row "profit_percentage") (.str "")))),
       ("membership_interest", pyOr (dictGet row "membership_interest")
          (pyOr (dictGet row "membership_units") (.str ""))),
       ("capital_interest", pyOr (dictGet row "capital_interest")
          (pyOr (dictGet row "capital_contribution") (.str ""))),
       ("capital_pct", pyOr (dictGet row "capital_pct")
          (pyOr (dictGet row "capital_interest_percentage")
            (pyOr (dictGet row "capital_percentage") (.str ""))))])
  let out := dset out "sponsor_table" (.list normalized_sponsor_table)
  let spp₀ ← vget st.sponsor "principals"
  let out := dset out "sponsors" (pyOr spp₀ (.list []))
  let sut₀ ← vget st.sources_uses "table"
  let sources_table := pyOr sut₀ (.dict [])
  let rs₀ ← vget sources_table "sources"
  let rs₁ ← orElseM rs₀ (vget st.sources_uses "sources")
  let rsl ← pyIter (pyOr rs₁ (.list []))
  let sources_list := rsl.map (fun src =>
    if src.isDict then
      Val.dict
        [("name", pyOr (dictGet src "item") (pyOr (dictGet src "name")
            (pyOr (dictGet src "label") (.str "")))),
         ("amount", .str (if (dictGet src "amount").isNum then
            _fmt_currency (dictGet src "amount") else _str_or_empty (dictGet src "amount"))),
         ("percent", pyOr (dictGet src "percent") (.str "")),
         ("item", pyOr (dictGet src "item") (.str ""))]
    else src)
  let out := dset out "sources_list" (.list sources_list)
  let ru₀ ← vget sources_table "uses"
  let ru₁ ← orElseM ru₀ (vget st.sources_uses "uses")
  let rul ← pyIter (pyOr ru₁ (.list []))
  let uses_list ← rul.foldlM (fun acc ue =>
    if ue.isDict then do
      let nested := pyOr (dictGet ue "items") (.list [ue])
      let nl ← pyIter nested
      pure (acc ++ (nl.filter Val.isDict).map (fun ui =>
        Val.dict
          [("name", pyOr (dictGet ui "item") (pyOr (dictGet ui "name")
              (pyOr (dictGet ui "label") (.str "")))),
           ("amount", .str (if (dictGet ui "amount").isNum then
              _fmt_currency (dictGet ui "amount") else _str_or_empty (dictGet ui "amount"))),
           ("item", pyOr (dictGet ui "item") (.str ""))]))
    else pure (acc ++ [ue])) []
  let out := dset out "uses_list" (.list uses_list)
  let ts₀ ← vget st.sources_uses "total_sources"
  let ts₁ ← orElseM ts₀ (vget st.sources_uses "sources_total")
  let total_sources ← orElseM ts₁ (vget sources_table "total_sources")
  let tu₀ ← vget st.sources_uses "total_uses"
  let tu₁ ← orElseM tu₀ (vget st.sources_uses "uses_total")
  let total_uses ← orElseM tu₁ (vget sources_table "total_uses")
  let out := dset out "sources_total" (.str (if total_sources.isNum then
    _fmt_currency total_sources else _str_or_empty total_sources))
  let out := dset out "uses_total" (.str (if total_uses.isNum then
    _fmt_currency total_uses else _str_or_empty total_uses))
  let out := dset out "sources_uses_max_rows"
    (.int (max (max sources_list.length uses_list.length) 1))
  let cap_stack := pyOr (dget st.deal "capital_stack") (.dict [])
  let ct₀ ← vget cap_stack "table"
  let cap_table := if ct₀.isDict then ct₀ else cap_stack
  let out := dset out "capital_stack_sources"
    (if cap_table.isDict then
      pyOr (dictGet cap_table "sources") (pyOr (dictGet cap_stack "sources") (.list []))
     else .list [])
  let out := dset out "capital_stack_uses"
    (if cap_table.isDict then
      pyOr (dictGet cap_table "uses") (pyOr (dictGet cap_stack "uses") (.list []))
     else .list [])
  let ctot₀ ← vget cap_stack "total"
  let ctot₁ ← orElseM ctot₀ (vget cap_stack "sources_total")
  let out := dset out "capital_stack_total" (pyOr ctot₁ (.str ""))
  let cd := pyOr st.closing_disbursement (.dict [])
  let out := dset out "disbursement_payoff" (pyOr (← vget cd "payoff_existing_debt") (.str ""))
  let out := dset out "disbursement_broker_fee" (pyOr (← vget cd "broker_fee") (.str ""))
  let out := dset out "disbursement_origination_fee" (pyOr (← vget cd "origination_fee") (.str ""))
  let out := dset out "disbursement_closing_costs" (pyOr (← vget cd "closing_costs_title") (.str ""))
  let out := dset out "disbursement_lender_legal" (pyOr (← vget cd "lender_legal") (.str ""))
  let out := dset out "disbursement_borrower_legal" (pyOr (← vget cd "borrower_legal") (.str ""))
  let out := dset out "disbursement_misc" (pyOr (← vget cd "misc") (.str ""))
  let out := dset out "disbursement_interest_reserve" (pyOr (← vget cd "interest_reserve") (.str ""))
  let out := dset out "disbursement_total" (pyOr (← vget cd "total_disbursements") (.str ""))
  let out := dset out "disbursement_sponsor_equity" (pyOr (← vget cd "sponsors_equity_at_closing") (.str ""))
  let out := dset out "disbursement_fairbridge_release" (pyOr (← vget cd "fairbridge_release_at_closing") (.str ""))
  let equity_partner := pyOr (dget st.deal "equity_partner") (.str "")
  let out := dset out "equity_partner"
    (match equity_partner with
     | .dict d => .dict d
     | .str s => .str s
     | _ => .str "")
  let lt := pyOr st.loan_terms (.dict [])
  let ir₀ ← vget lt "interest_rate"
  let ir₁ ← orElseM ir₀ (vget st.deal_facts "interest_rate")
  let ir_raw := pyOr ir₁ (.str "")
  let ir_raw₂ := if ir_raw.isDict then pyOr (dictGet ir_raw "description") (.str "") else ir_raw
  let out := dset out "interest_rate_display"
    (match ir_raw₂ with
     | .str s =>
       if 50 < s.length then
         match searchIRate s with
         | some m => .str m
         | Option.none => .str "See Loan Terms"
       else if s ≠ "" then .str s else .str "See Loan Terms"
     | _ => .str "See Loan Terms")
  let of₀ ← vget lt "origination_fee"
  let orig_fee_raw := pyOr of₀ (.str "")
  let out := dset out "origination_fee_display"
    (match orig_fee_raw with
     | .str s =>
       if 20 < s.length then
         match searchPct s with
         | some m => .str m
         | Option.none => .str "See Loan Terms"
       else pyOr (.str s) (.str "")
     | v => pyOr v (.str ""))
  let ef₀ ← vget lt "exit_fee"
  let exit_fee_raw := pyOr ef₀ (.str "")
  let out := dset out "exit_fee_display"
    (match exit_fee_raw with
     | .str s =>
       if 20 < s.length then
         match searchPct s with
         | some m => .str m
         | Option.none => .str "See Loan Terms"
       else pyOr (.str s) (.str "")
     | v => pyOr v (.str ""))
  pure out

/-- Lines 1135-1210 of `transform`: root aliases for section variables,
`deal_facts`/`leverage` as dicts, the loan-issues guard, the
financial-info alias, guarantor financials from sponsorship, the empty
`images` placeholder, `active_litigation`, closing funding, and the
sponsor totals. -/
def transformB (st : Mapper) (out : List (String × Val)) : PyM (List (String × Val)) := do
  let sections_v := dgetD out "sections" (.dict [])
  let out := if vmem sections_v "transaction_overview" then
    dset out "transaction_overview" (dictGet sections_v "transaction_overview") else out
  let out := if vmem sections_v "loan_terms" then
    dset out "loan_terms" (dictGet sections_v "loan_terms") else out
  let out := if vmem sections_v "sources_and_uses" then
    dset out "sources_and_uses" (dictGet sections_v "sources_and_uses") else out
  let out := if vmem sections_v "sponsorship" then
    dset out "sponsor" (dictGet sections_v "sponsorship") else out
  let out ←
    if vmem sections_v "property" then do
      let property_v := dictGet sections_v "property"
      let pn₀ ← vget property_v "description_narrative"
      let pn₁ ← orElseM pn₀ (vget property_v "narrative")
      let prop_narrative := pyOr pn₁ (.str "")
      pure (dset (dset (dset out "property" property_v) "property_overview" property_v)
        "property_overview_narrative" prop_narrative)
    else pure out
  let out := if vmem sections_v "location" then
    dset (dset out "location" (dictGet sections_v "location"))
      "location_overview" (dictGet sections_v "location") else out
  let out := if vmem sections_v "market" then
    dset (dset out "market" (dictGet sections_v "market"))
      "market_overview" (dictGet sections_v "market") else out
  let out := if vmem sections_v "risks_and_mitigants" then
    dset out "risks_and_mitigants" (dictGet sections_v "risks_and_mitigants") else out
  let out := if vmem sections_v "validation_flags" then
    dset out "validation_flags" (dictGet sections_v "validation_flags") else out
  let out := if vmem sections_v "third_party_reports" then
    dset out "third_party_reports" (dictGet sections_v "third_party_reports") else out
  let out := if vmem sections_v "foreclosure_analysis" then
    dset out "foreclosure_analysis" (dictGet sections_v "foreclosure_analysis") else out
  let out := if vmem sections_v "zoning_entitlements" then
    dset out "zoning_entitlements" (dictGet sections_v "zoning_entitlements") else out
  let out ←
    if st.deal_facts.truthy then do
      let d ← pyDictCast st.deal_facts
      pure (dset out "deal_facts" (.dict d))
    else pure (dset out "deal_facts" (.dict []))
  let out ←
    if st.leverage.truthy then do
      let d ← pyDictCast st.leverage
      pure (dset out "leverage" (.dict d))
    else pure (dset out "leverage" (.dict []))
  let out := if dmem out "loan_issues" then out
    else dset out "loan_issues" (.dict [("income_producing", .list []), ("development", .list [])])
  let out ←
    if dmem out "financial_information" then
      pure (dset out "financial_info" (dget out "financial_information"))
    else if st.financial_info.truthy then do
      let d ← pyDictCast st.financial_info
      pure (dset out "financial_info" (.dict d))
    else pure out
  let out ←
    if vmem sections_v "sponsorship" then do
      let gf ← vgetD (dictGet sections_v "sponsorship") "financial_summary" (.list [])
      pure (dset out "guarantor_financials" gf)
    else pure (dset out "guarantor_financials" (.list []))
  let out := dset out "images" (.dict [])
  let out ←
    if st.active_litigation.truthy then do
      let d ← pyDictCast st.active_litigation
      pure (dset out "active_litigation" (.dict d))
    else pure (dset out "active_litigation" (.dict []))
  let cfv := dgetD out "closing_disbursement" (.dict [])
  let cf ← pyDictCast cfv
  let cn₀ ← vget st.narratives "closing_funding_narrative"
  let closing_narrative := pyOr cn₀ (.str "")
  let cf := if closing_narrative.truthy then dset cf "narrative" closing_narrative else cf
  let out := dset out "closing_funding_and_reserves" (.dict cf)
  let stv := dgetD out "sponsor_table" (.list [])
  let out ←
    if stv.truthy then do
      let stl ← pyIter stv
      let total_row ← findTotalRow stl
      let pp ← vgetD total_row "profit_pct" (.str "")
      let mi ← vgetD total_row "membership_interest" (.str "")
      let cp ← vgetD total_row "capital_pct" (.str "")
      pure (dset (dset (dset out "sponsor_total_profit_pct" pp)
        "sponsor_total_membership" mi) "sponsor_total_capital_pct" cp)
    else
      pure (dset (dset (dset out "sponsor_total_profit_pct" (.str ""))
        "sponsor_total_membership" (.str "")) "sponsor_total_capital_pct" (.str ""))
  pure out

/-- Lines 1213-1320 of `transform`: credit report, principal financials
from `sponsors`, the interest scenarios, disbursement rows, the sanitized
closing disbursement, the four raw deal keys, due diligence, sanitized
active litigation, deal highlights, closing funding and reserves, LTC/LTV,
property value, exit and foreclosure assumption narratives, stripped
narratives, and the stripped loan-terms section narrative (whose root
alias shares the section object in the source). -/
def transformC (st : Mapper) (out : List (String × Val)) : PyM (List (String × Val)) := do
  let out := dset out "credit_report" (pyOr (dget st.deal "credit_report") (.dict []))
  let sl ← pyIter (dgetD out "sponsors" (.list []))
  let out := dset out "principal_financials" (.list ((sl.filter Val.isDict).map (fun s =>
    Val.dict [("name", dictGetD s "name" (.str "")),
              ("net_worth", dictGet s "net_worth"),
              ("liquidity", dictGet s "liquidity")])))
  let sections_v := dgetD out "sections" (.dict [])
  let fa := pyOr (if vmem sections_v "foreclosure_analysis" then
    dictGet sections_v "foreclosure_analysis" else Val.none) (.dict [])
  let deal_fa := pyOr (dget st.deal "foreclosure_analysis") (.dict [])
  let out := dset out "default_interest_scenario"
    (if vmem fa "scenario_default_rate" then ensureScenario (dictGet fa "scenario_default_rate")
     else if vmem fa "default_interest_scenario" then
       ensureScenario (dictGet fa "default_interest_scenario")
     else if deal_fa.isDict && vmem deal_fa "default_interest_scenario" then
       ensureScenario (dictGet deal_fa "default_interest_scenario")
     else .dict [("rows", .list []), ("assumptions", .dict []), ("metrics", .dict [])])
  let out := dset out "note_interest_scenario"
    (if vmem fa "scenario_note_rate" then ensureScenario (dictGet fa "scenario_note_rate")
     else if vmem fa "note_rate_scenario" then
       ensureScenario (dictGet fa "note_rate_scenario")
     else if deal_fa.isDict && vmem deal_fa "note_rate_scenario" then
       ensureScenario (dictGet deal_fa "note_rate_scenario")
     else .dict [("rows", .list []), ("assumptions", .dict []), ("metrics", .dict [])])
  let cd₀ := pyOr st.closing_disbursement (.dict [])
  let cd := if cd₀.isDict then cd₀ else .dict []
  let out := dset out "disbursement_rows" (.list (buildDisbursementRows st))
  let cdItems ← pyItems cd
  let out := dset out "closing_disbursement"
    (.dict (cdItems.map (fun kv => (kv.1, .str (_str_or_empty kv.2)))))
  let out := ["rent_roll", "construction_budget", "comps", "redevelopment"].foldl
    (fun o k =>
      let v := dget st.deal k
      dset o k (if v.isNone then .dict [] else v)) out
  let dd₀ := pyOr (dget st.deal "due_diligence") (.dict [])
  let dd := if dd₀.isDict then dd₀ else .dict []
  let out := dset out "due_diligence" (.dict
    [("lenders_counsel", .str (_str_or_empty (dictGet dd "lenders_counsel"))),
     ("borrowers_counsel", .str (_str_or_empty (dictGet dd "borrowers_counsel"))),
     ("pca_firm", .str (_str_or_empty (dictGet dd "pca_firm"))),
     ("background_check", .str (_str_or_empty (pyOr (dictGet dd "background_check")
        (dictGet dd "background_check_firm")))),
     ("site_visit", .str (_str_or_empty (pyOr (dictGet dd "site_visit")
        (dictGet dd "site_visit_team")))),
     ("appraisal_firm", .str (_str_or_empty (dictGet dd "appraisal_firm"))),
     ("appraisal_company", .str (_str_or_empty (dictGet dd "appraisal_company"))),
     ("environmental_firm", .str (_str_or_empty (dictGet dd "environmental_firm")))])
  let al₀ := pyOr (dget st.deal "active_litigation") (.dict [])
  let out ←
    match al₀ with
    | .dict d => do
      let lcases := dget d "cases"
      let d₁ :=
        match lcases with
        | .dict cdd => dset d "cases" (.list (cdd.map Prod.snd))
        | .none => dset d "cases" (.list [])
        | _ => d
      let cases_list := pyOr (dget d₁ "cases") (.list [])
      let cl ← pyIter cases_list
      let sanitized := cl.map (fun c =>
        match c with
        | .dict cdd => Val.dict (cdd.map (fun kv => (kv.1, Val.str (_str_or_empty kv.2))))
        | _ => Val.dict [])
      pure (dset out "active_litigation" (.dict (dset d₁ "cases" (.list sanitized))))
    | v => pure (dset out "active_litigation" v)
  let dh := pyOr (dget st.deal "deal_highlights") (.dict [])
  let dhd :=
    match dh with
    | .dict d => d
    | _ => []
  let dhd := if dmem dhd "items" then dhd else dset dhd "items" (.list [])
  let out := dset out "deal_highlights" (.dict dhd)
  let cfn₀ ← vget st.narratives "closing_funding_narrative"
  let narrative := pyOr cfn₀ (.str "")
  let cfr ← pyItems (pyOr st.closing_disbursement (.dict []))
  let cfr₂ := cfr.map (fun kv => (kv.1, Val.str (_str_or_empty kv.2)))
  let cfr₃ := if narrative.truthy then dset cfr₂ "narrative" narrative else cfr₂
  let out := dset out "closing_funding_and_reserves" (.dict cfr₃)
  let lev := st.leverage
  let ltc₀ ← vget lev "fb_ltc_at_closing"
  let ltc₁ ← orElseM ltc₀ (vget lev "ltc_at_closing")
  let ltc₂ ← orElseM ltc₁ (vget lev "ltc_at_maturity")
  let out := dset out "LTC" (pyOr ltc₂ (.str "N/A"))
  let ltv₀ ← vget lev "ltv_at_closing"
  let ltv₁ ← orElseM ltv₀ (vget lev "ltv_at_maturity")
  let out := dset out "LTV" (pyOr ltv₁ (.str "N/A"))
  let out := dset out "property_value" (if st.valuation.truthy then st.valuation else .dict [])
  let exn₀ ← vget st.narratives "exit_strategy"
  let exit_narr := pyOr exn₀ (.str "")
  let out := dset out "exit_strategy"
    (match exit_narr with
     | .str s => .dict [("narrative", .str s)]
     | .dict d => .dict d
     | _ => .dict [("narrative", .str "")])
  let fan₀ ← vget st.narratives "foreclosure_assumptions"
  let fa_narr := pyOr fan₀ (.str "")
  let out := dset out "foreclosure_assumptions"
    (match fa_narr with
     | .str s => .dict [("narrative", .str s)]
     | .dict d => .dict d
     | _ => .dict [("narrative", .str "")])
  let nitems ← pyItems st.narratives
  let out := dset out "narratives" (.dict (nitems.map (fun kv =>
    (kv.1, match kv.2 with
           | .str s => Val.str (_strip_markdown s)
           | v => v))))
  let sections₂ := dgetD out "sections" (.dict [])
  let out ←
    if vmem sections₂ "loan_terms" then do
      let lt_section := dictGet sections₂ "loan_terms"
      match lt_section with
      | .dict d =>
        if dmem d "narrative" then do
          let lt_section₂ := Val.dict
            (dset d "narrative" (stripMarkdownVal (dget d "narrative")))
          let sections₃ :=
            match sections₂ with
            | .dict sd => Val.dict (dset sd "loan_terms" lt_section₂)
            | v => v
          let out := dset out "sections" sections₃
          pure (if dmem out "loan_terms" then dset out "loan_terms" lt_section₂ else out)
        else pure out
      | _ => pure out
    else pure out
  pure out

/-- Lines 1323-1427 of `transform`: pre-formatted table strings merged
into their carriers (in the source the scenario table mutation is visible
through the shared object inside `foreclosure_analysis` as well), cover
aliases, sponsor bios, raw Layer-3 fields with loan-term defaulting, the
absent-key copy loops, guarantor/principal financials, and the fixed
equity-partner and financial-information values. -/
def transformD (st : Mapper) (out : List (String × Val)) : PyM (List (String × Val)) := do
  let table_strings ← buildTableStrings st
  let out := dset out "financial_info" (dgetD out "financial_info" (.dict []))
  let out :=
    match dget out "financial_info" with
    | .dict d => dset out "financial_info" (.dict
        (dset (dset d "income_statement_table"
          (dgetD table_strings "income_statement_table" (.str "")))
          "dcf_table" (dgetD table_strings "dcf_table" (.str ""))))
    | _ => out
  let out := dset out "property_value" (dgetD out "property_value" (.dict []))
  let out :=
    match dget out "property_value" with
    | .dict d => dset out "property_value"
        (.dict (dset d "table" (dgetD table_strings "property_value_table" (.str ""))))
    | _ => out
  let out := dset out "default_interest_scenario" (dgetD out "default_interest_scenario" (.dict []))
  let out :=
    match dget out "default_interest_scenario" with
    | .dict d => dset out "default_interest_scenario"
        (.dict (dset d "table" (dgetD table_strings "default_interest_scenario_table" (.str ""))))
    | _ => out
  let out := dset out "comps" (dgetD out "comps" (.dict []))
  let out :=
    match dget out "comps" with
    | .dict d => dset out "comps"
        (.dict (dset d "table" (dgetD table_strings "comps_table" (.str ""))))
    | _ => out
  let out :=
    match dget out "default_interest_scenario" with
    | .dict disd =>
      match dgetD out "sections" (.dict []) with
      | .dict sd =>
        match dget sd "foreclosure_analysis" with
        | .dict fad =>
          if dmem fad "scenario_default_rate" then
            let fad₂ := dset (dset fad "scenario_default_rate" (.dict disd))
              "default_interest_scenario" (.dict disd)
            dset (dset out "sections" (.dict (dset sd "foreclosure_analysis" (.dict fad₂))))
              "foreclosure_analysis" (.dict fad₂)
          else if dmem fad "default_interest_scenario" then
            let fad₂ := dset fad "default_interest_scenario" (.dict disd)
            dset (dset out "sections" (.dict (dset sd "foreclosure_analysis" (.dict fad₂))))
              "foreclosure_analysis" (.dict fad₂)
          else out
        | _ => out
      | _ => out
    | _ => out
  let cover₂ := dgetD out "cover" (.dict [])
  let ccv ← vgetD cover₂ "credit_committee" (.str "")
  let out := dset out "credit_committee" ccv
  let utv ← vgetD cover₂ "underwriting_team" (.str "")
  let out := dset out "underwriting_team" utv
  let dtv ← vgetD cover₂ "date" (.str "")
  let out := dset out "memo_date" dtv
  let out := dset out "date" dtv
  let sponsorship₂ :=
    match dgetD out "sections" (.dict []) with
    | .dict sd => dgetD sd "sponsorship" (.dict [])
    | _ => .dict []
  let sb ← vgetD sponsorship₂ "sponsor_bios" (.list [])
  let out := dset out "sponsor_bios" sb
  let fsum ← vgetD sponsorship₂ "financial_summary" (.list [])
  let out := dset out "financial_summary" fsum
  let out := dset out "deal_facts_raw" st.deal_facts
  let out := dset out "leverage_raw" st.leverage
  let out := dset out "leverage" (pyOr st.leverage (.dict []))
  let out ←
    if st.loan_terms.truthy then do
      let d ← pyDictCast st.loan_terms
      pure (dset out "loan_terms_raw" (.dict d))
    else pure (dset out "loan_terms_raw" (.dict []))
  let out ←
    if st.financial_info.truthy then do
      let d ← pyDictCast st.financial_info
      pure (dset out "financial_information" (.dict d))
    else pure (dset out "financial_information" (.dict []))
  let out :=
    match dget out "loan_terms_raw" with
    | .dict d => dset out "loan_terms_raw" (.dict
        (["origination_fee", "exit_fee", "prepayment", "guaranty", "collateral"].foldl
          defaultLoanTermKey d))
    | _ => out
  let dfItems ← pyItems st.deal_facts
  let out := copyAbsent out dfItems
  let levItems ← pyItems (pyOr st.leverage (.dict []))
  let out := copyAbsent out levItems
  let ltItems ← pyItems (pyOr st.loan_terms (.dict []))
  let out := copyAbsent out ltItems
  let fiItems ← pyItems (pyOr st.financial_info (.dict []))
  let out := copyAbsent out fiItems
  let gu₀ ← vget st.sponsor "guarantors"
  let guarantors := pyOr gu₀ (.dict [])
  let gnw ← vget guarantors "combined_net_worth"
  let gcp ← vget guarantors "combined_cash_position"
  let gsh ← vget guarantors "combined_securities_holdings"
  let out := dset out "guarantor_financials" (.dict
    [("combined_net_worth", .str (_str_or_empty gnw)),
     ("combined_cash_position", .str (_str_or_empty gcp)),
     ("combined_securities", .str (_str_or_empty gsh)),
     ("lender_min_net_worth", .str ""),
     ("lender_min_liquidity", .str ""),
     ("guarantees", .str "")])
  let pr₀ ← vget st.sponsor "principals"
  let pl ← pyIter (pyOr pr₀ (.list []))
  let out := dset out "principal_financials" (.list ((pl.filter Val.isDict).map (fun p =>
    Val.dict
      [("name", dictGetD p "name" (.str "")),
       ("title", dictGetD p "title" (.str "")),
       ("company", dictGetD p "company" (.str "")),
       ("credit_score", dictGetD p "credit_score" (.str "")),
       ("credit_score_date", dictGetD p "credit_score_date" (.str "")),
       ("net_worth", dictGetD p "net_worth" (.str "")),
       ("liquid_assets", dictGetD p "liquid_assets" (.str "")),
       ("sreo_property_count", dictGetD p "sreo_property_count" (.str "")),
       ("sreo_total_value", dictGetD p "sreo_total_value" (.str ""))])))
  let out := dset out "equity_partner" (.dict
    [("name", .str ""), ("description", .str ""), ("partnership_history", .str "")])
  let out := dset out "financial_information" (.dict
    [("updated_income_statement", .dict
      [("effective_gross_income", .str ""),
       ("total_operating_expenses", .str ""),
       ("expense_ratio", .str ""),
       ("noi", .str "")])])
  pure out

/-- `DealInputToSchemaMapper.transform` (src/main.py lines 932-1427): the
four sequential stages above, in source order. -/
def Mapper.transform (st : Mapper) (today : String) : PyM (List (String × Val)) := do
  let out ← transformA st today
  let out ← transformB st out
  let out ← transformC st out
  transformD st out

/-- The full mapper pipeline on a deal record:
`DealInputToSchemaMapper(deal).transform()`. -/
def runTransform (deal : List (String × Val)) (today : String) :
    PyM (List (String × Val)) := do
  let st ← Mapper.init deal
  Mapper.transform st today

/-- The `ensure_scenario_has_assumptions` helper local to
`flatten_schema_for_template` (src/main.py lines 1681-1690): `None` and
non-mappings become the fixed skeleton; mappings gain missing
`assumptions`, then `metrics`, then `rows` members. -/
def ensureScenarioFlat (s : Val) : Val :=
  match s with
  | .dict d =>
    let d₁ := if dmem d "assumptions" then d else dset d "assumptions" (.dict [])
    let d₂ := if dmem d₁ "metrics" then d₁ else dset d₁ "metrics" (.dict [])
    let d₃ := if dmem d₂ "rows" then d₂ else dset d₂ "rows" (.list [])
    .dict d₃
  | _ => .dict [("rows", .list []), ("assumptions", .dict []), ("metrics", .dict [])]

/-- The `_scenario_with_items` helper local to
`flatten_schema_for_template` (src/main.py lines 1733-1742). -/
def scenarioWithItems (s₀ : Val) : Val :=
  let s := if s₀.truthy && s₀.isDict then s₀
    else .dict [("rows", .list []), ("assumptions", .dict []), ("metrics", .dict [])]
  match s with
  | .dict d =>
    let rows := if (dget d "rows").isList then dget d "rows" else .list []
    let d₁ := if dmem d "assumptions" then d else dset d "assumptions" (.dict [])
    let d₂ := if dmem d₁ "metrics" then d₁ else dset d₁ "metrics" (.dict [])
    .dict (dset (dset d₂ "rows" rows) "items" rows)
  | v => v

mutual
/-- Structural value equality, the embedding's stand-in for CPython
object identity where `flatten_schema_for_template` mutates a dict
reachable through several root bindings: a binding holding the same value
as the mutated one is updated alongside it. -/
def valBeq : Val → Val → Bool
  | .none, .none => true
  | .bool a, .bool b => a = b
  | .int a, .int b => a = b
  | .float a, .float b => a = b
  | .str a, .str b => a = b
  | .list a, .list b => valBeqL a b
  | .dict a, .dict b => valBeqD a b
  | _, _ => false

/-- Element-wise `valBeq` on lists. -/
def valBeqL : List Val → List Val → Bool
  | [], [] => true
  | a :: as, b :: bs => valBeq a b && valBeqL as bs
  | _, _ => false

/-- Pair-wise `valBeq` on mappings. -/
def valBeqD : List (String × Val) → List (String × Val) → Bool
  | [], [] => true
  | (k₁, v₁) :: as, (k₂, v₂) :: bs => k₁ = k₂ && valBeq v₁ v₂ && valBeqD as bs
  | _, _ => false
end

/-- Update a root binding when it holds the value that was mutated in
place in the source (identity approximated by `valBeq`). -/
def dsetIfEq (f : List (String × Val)) (k : String) (old new : Val) :
    List (String × Val) :=
  if valBeq (dget f k) old then dset f k new else f

/-- `flatten_schema_for_template` (src/main.py lines 1656-1813). The
source mutates dict objects shared between several bindings (the
foreclosure block at lines 1693-1720, the sponsorship overview-narrative
fix at lines 1773-1775 and the narrative fixes at lines 1791-1812); this
tree-valued embedding applies each such mutation to every binding holding
the mutated value, with `valBeq` standing in for object identity. -/
def flatten_schema_for_template (data : List (String × Val)) :
    PyM (List (String × Val)) := do
  let flat := dremove data "sections"
  let sections_v := pyOr (dget data "sections") (.dict [])
  match sections_v with
  | .dict sd => do
    let flat := copySections flat sd
    let flat := applyAliasesFold flat TEMPLATE_ALIASES
    let flat :=
      if ¬ dmem flat "sponsor" ∧ dmem sd "sponsorship" then
        dset flat "sponsor" (dget sd "sponsorship")
      else flat
    let flat ←
      if ¬ dmem flat "sponsors" ∧ dmem sd "sponsorship" then do
        let sdv ← vget (dget sd "sponsorship") "_sponsors_detail"
        pure (dset flat "sponsors" (pyOr sdv (.list [])))
      else pure flat
    let flat :=
      if ¬ dmem flat "sources_and_uses" ∧ dmem sd "sources_and_uses" then
        dset flat "sources_and_uses" (dget sd "sources_and_uses")
      else flat
    let flat :=
      if ¬ dmem flat "property_overview" ∧ dmem sd "property" then
        dset flat "property_overview" (dget sd "property")
      else flat
    let flat := ["zoning_entitlements", "risks_and_mitigants", "third_party_reports",
                 "validation_flags", "location", "market"].foldl
      (fun f n => if ¬ dmem f n ∧ dmem sd n then dset f n (dget sd n) else f) flat
    let fa₀ : Val :=
      if dmem flat "foreclosure_analysis" then dget flat "foreclosure_analysis"
      else if dmem sd "foreclosure_analysis" then dget sd "foreclosure_analysis"
      else Val.none
    let fad : List (String × Val) :=
      match fa₀ with
      | .dict d => d
      | _ => []
    let fad := dset fad "default_interest_scenario"
      (ensureScenarioFlat (dget fad "default_interest_scenario"))
    let fad := dset fad "note_interest_scenario"
      (ensureScenarioFlat (dget fad "note_interest_scenario"))
    let fad :=
      if dmem fad "scenario_default_rate" then
        dset fad "scenario_default_rate" (ensureScenarioFlat (dget fad "scenario_default_rate"))
      else dset fad "scenario_default_rate" (dget fad "default_interest_scenario")
    let fad :=
      if dmem fad "scenario_note_rate" then
        dset fad "scenario_note_rate" (ensureScenarioFlat (dget fad "scenario_note_rate"))
      else dset fad "scenario_note_rate" (dget fad "note_interest_scenario")
    let flat := dset flat "foreclosure_analysis" (.dict fad)
    let sd := if fa₀.isDict && valBeq (dget sd "foreclosure_analysis") fa₀ then
        dset sd "foreclosure_analysis" (.dict fad)
      else sd
    let flat :=
      if ¬ dmem flat "location_overview" ∧ dmem sd "location" then
        dset flat "location_overview" (dget sd "location")
      else flat
    let flat :=
      if ¬ dmem flat "market_overview" ∧ dmem sd "market" then
        dset flat "market_overview" (dget sd "market")
      else flat
    let flat ←
      if ¬ dmem flat "property_overview_narrative" ∧ dmem sd "property" then do
        let dn ← vget (dget sd "property") "description_narrative"
        pure (dset flat "property_overview_narrative" (pyOr dn (.str "")))
      else pure flat
    let flat ←
      if ¬ dmem flat "financial_info" ∧ dmem sd "sponsorship" then do
        let fs ← vgetD (dget sd "sponsorship") "financial_summary" (.list [])
        pure (dset flat "financial_info" fs)
      else pure flat
    let flat ←
      if ¬ dmem flat "guarantor_financials" ∧ dmem sd "sponsorship" then do
        let fs ← vgetD (dget sd "sponsorship") "financial_summary" (.list [])
        pure (dset flat "guarantor_financials" fs)
      else pure flat
    let fa₂ := pyOr (dget sd "foreclosure_analysis") (.dict [])
    let flat ←
      if ¬ dmem flat "default_interest_scenario" ∨
          (dget flat "default_interest_scenario").isNone then do
        let sdr ← vget fa₂ "scenario_default_rate"
        pure (dset flat "default_interest_scenario" (scenarioWithItems sdr))
      else
        match dget flat "default_interest_scenario" with
        | .dict d =>
          let d₁ := if dmem d "assumptions" then d else dset d "assumptions" (.dict [])
          let d₂ := if dmem d₁ "metrics" then d₁ else dset d₁ "metrics" (.dict [])
          pure (dset flat "default_interest_scenario" (.dict d₂))
        | _ => do
          let sdr ← vget fa₂ "scenario_default_rate"
          pure (dset flat "default_interest_scenario" (scenarioWithItems sdr))
    let flat ←
      if ¬ dmem flat "note_interest_scenario" ∨
          (dget flat "note_interest_scenario").isNone then do
        let snr ← vget fa₂ "scenario_note_rate"
        pure (dset flat "note_interest_scenario" (scenarioWithItems snr))
      else
        match dget flat "note_interest_scenario" with
        | .dict d =>
          let d₁ := if dmem d "assumptions" then d else dset d "assumptions" (.dict [])
          let d₂ := if dmem d₁ "metrics" then d₁ else dset d₁ "metrics" (.dict [])
          pure (dset flat "note_interest_scenario" (.dict d₂))
        | _ => do
          let snr ← vget fa₂ "scenario_note_rate"
          pure (dset flat "note_interest_scenario" (scenarioWithItems snr))
    let spOld := dget sd "sponsorship"
    let spNew : Option Val :=
      match spOld with
      | .dict spd =>
        if spOld.truthy then
          if ¬ (dget spd "overview_narrative").truthy then
            some (Val.dict (dset spd "overview_narrative"
              (dgetD spd "name" (.str "See Sponsor Details"))))
          else Option.none
        else Option.none
      | _ => Option.none
    let sd :=
      match spNew with
      | some nv => dset sd "sponsorship" nv
      | Option.none => sd
    let flat := dset flat "sections" (.dict sd)
    let flat :=
      match spNew with
      | some nv => dsetIfEq (dsetIfEq flat "sponsor" spOld nv) "sponsorship" spOld nv
      | Option.none => flat
    let flat := ["deal_facts_raw", "leverage_raw", "loan_terms_raw"].foldl
      (fun f rk =>
        match dget f rk with
        | .dict rd => if dmem f rk then copyAbsent f rd else f
        | _ => f) flat
    let flat := if dmem flat "deal_facts_raw" then
      dset flat "deal_facts" (pyOr (dget flat "deal_facts_raw") (.dict [])) else flat
    let flat := if dmem flat "leverage_raw" then
      dset flat "leverage" (pyOr (dget flat "leverage_raw") (.dict [])) else flat
    let flat := if dmem flat "loan_terms_raw" then
      dset flat "loan_terms" (pyOr (dget flat "loan_terms_raw") (.dict [])) else flat
    let flat :=
      match dget flat "loan_terms" with
      | .dict ltd =>
        let ir := dget ltd "interest_rate"
        if ir.isDict then
          let ltOld := Val.dict ltd
          let ltNew := Val.dict
            (dset ltd "interest_rate" (dictGetD ir "description" (.str (pyStr ir))))
          let flat := dset flat "loan_terms" ltNew
          let flat := dsetIfEq flat "loan_terms_raw" ltOld ltNew
          match dget flat "sections" with
          | .dict sd₂ =>
            if valBeq (dget sd₂ "loan_terms") ltOld then
              dset flat "sections" (.dict (dset sd₂ "loan_terms" ltNew))
            else flat
          | _ => flat
        else flat
      | _ => flat
    let flat :=
      match dget flat "property_overview" with
      | .dict pd =>
        if ¬ dmem pd "narrative" ∧ dmem pd "description_narrative" then
          let poOld := Val.dict pd
          let poNew := Val.dict (dset pd "narrative" (dget pd "description_narrative"))
          let flat := dsetIfEq (dset flat "property_overview" poNew) "property" poOld poNew
          match dget flat "sections" with
          | .dict sd₂ =>
            if valBeq (dget sd₂ "property") poOld then
              dset flat "sections" (.dict (dset sd₂ "property" poNew))
            else flat
          | _ => flat
        else flat
      | _ => flat
    let flat ←
      match dget flat "loan_terms" with
      | .dict ltd => do
        let nv := dgetD flat "narratives" (.dict [])
        let lt_narr ← vgetD nv "loan_terms_narrative" (.str "")
        if lt_narr.truthy then do
          let ltOld := Val.dict ltd
          let ltNew := Val.dict (dset ltd "narrative" lt_narr)
          let flat := dset flat "loan_terms" ltNew
          let flat := dsetIfEq flat "loan_terms_raw" ltOld ltNew
          match dget flat "sections" with
          | .dict sd₂ =>
            if valBeq (dget sd₂ "loan_terms") ltOld then
              pure (dset flat "sections" (.dict (dset sd₂ "loan_terms" ltNew)))
            else pure flat
          | _ => pure flat
        else pure flat
      | _ => pure flat
    let flat :=
      match dget flat "zoning_entitlements" with
      | .dict zd =>
        if ¬ dmem zd "narrative" ∧ dmem zd "summary_narrative" then
          let zOld := Val.dict zd
          let zNew := Val.dict (dset zd "narrative" (dget zd "summary_narrative"))
          let flat := dset flat "zoning_entitlements" zNew
          match dget flat "sections" with
          | .dict sd₂ =>
            if valBeq (dget sd₂ "zoning_entitlements") zOld then
              dset flat "sections" (.dict (dset sd₂ "zoning_entitlements" zNew))
            else flat
          | _ => flat
        else flat
      | _ => flat
    let flat ←
      match dget flat "active_litigation" with
      | .dict ad =>
        if ¬ dmem ad "narrative" then do
          let lcases := dgetD ad "cases" (.list [])
          if lcases.truthy then do
            let n ← pyLen lcases
            pure (dset flat "active_litigation" (.dict (dset ad "narrative"
              (.str (toString n ++ " active case(s). See details below.")))))
          else
            pure (dset flat "active_litigation"
              (.dict (dset ad "narrative" (.str "No active litigation."))))
        else pure flat
      | _ => pure flat
    pure flat
  | _ => .error "AttributeError"

mutual
/-- `escape_jinja_syntax` (src/main.py lines 70-83) over an arbitrary
context value: strings are escaped, mappings and lists rebuilt
recursively, everything else returned unchanged. -/
def escapeJinjaVal : Val → Val
  | .str s => .str (escape_jinja_syntax_str s)
  | .dict d => .dict (escapeJinjaDict d)
  | .list l => .list (escapeJinjaList l)
  | v => v

/-- The dict comprehension of `escape_jinja_syntax`. -/
def escapeJinjaDict : List (String × Val) → List (String × Val)
  | [] => []
  | (k, v) :: rest => (k, escapeJinjaVal v) :: escapeJinjaDict rest

/-- The list comprehension of `escape_jinja_syntax`. -/
def escapeJinjaList : List Val → List Val
  | [] => []
  | v :: rest => escapeJinjaVal v :: escapeJinjaList rest
end

/-- Lines 1878-1883 of `fill_template` with no supplied images
(`prepare_images_for_template` returns an empty mapping): flatten, escape,
merge, then default a missing `images` key to an empty list. The later
passes (lines 1884-1922) only synthesize `items` members on nested
mappings and wrap them for attribute access; they never replace a mapping
by a list. -/
def fillTemplateContext (data : List (String × Val)) :
    PyM (List (String × Val)) := do
  let flat ← flatten_schema_for_template data
  let flat := escapeJinjaDict flat
  let context := flat
  let context := if dmem context "images" then context else dset context "images" (.list [])
  pure context

set_option maxRecDepth 8192 in
/-- C1: the spec asserts that `transform()` returns for every mapping
input, however malformed its field values, with every canonical section
present. The code refutes this: a truthy non-mapping `cover` field
reaches `self._cover.get("property_address")` inside `_build_cover`
(src/main.py line 256) and raises `AttributeError`, which `transform`
(line 941) propagates. -/
theorem transform_raises_on_malformed_cover :
    runTransform [("cover", Val.int 5)] "January 01, 2025" =
      .error "AttributeError" := rfl

/-- Split a successful `Except` bind into its two successful stages. -/
theorem exceptBindOk {α β : Type} (x : Except String α) (f : α → Except String β) (b : β)
    (h : x >>= f = .ok b) : ∃ a, x = .ok a ∧ f a = .ok b := by
  cases x with
  | error e => simp [Bind.bind, Except.bind] at h
  | ok a => exact ⟨a, rfl, by simpa [Bind.bind, Except.bind] using h⟩

theorem strMkTakeLen (n : Nat) (l : List Char) :
    (String.mk (List.take n l)).length ≤ n := by
  show (List.take n l).length ≤ n
  simp [List.length_take]

theorem truncStr_length_le (v : Val) (n : Nat) : (truncStr v n).length ≤ n := by
  cases v <;> exact strMkTakeLen n _

/-- C10: for every mapper state on which `_build_executive_summary`
succeeds, the produced section's `narrative` is a string of at most 4000
characters and its `transaction_overview` field is that same string — the
narrative is silently truncated to 4000 characters (src/main.py line
301), a cap the spec never mentions. -/
theorem exec_summary_narrative_truncated (st : Mapper) (v : Val)
    (h : buildExecutiveSummary st = .ok v) :
    ∃ t : String, dictGet v "narrative" = .str t ∧
      dictGet v "transaction_overview" = .str t ∧ t.length ≤ 4000 := by
  unfold buildExecutiveSummary at h
  obtain ⟨n₀, hn₀, h⟩ := exceptBindOk _ _ _ h
  obtain ⟨narrative, hnar, h⟩ := exceptBindOk _ _ _ h
  obtain ⟨items₀, hitems, h⟩ := exceptBindOk _ _ _ h
  obtain ⟨itemsSliced, hsl, h⟩ := exceptBindOk _ _ _ h
  obtain ⟨items, hit, h⟩ := exceptBindOk _ _ _ h
  simp only [pure, Except.pure, Except.ok.injEq] at h
  subst h
  refine ⟨truncStr narrative 4000, ?_, ?_, truncStr_length_le _ _⟩ <;>
    simp [dictGet, dget, dgetOpt]

/-- The all-empty mapper state used to instantiate theorems about single
builders at a concrete input. -/
def mapperE : Mapper :=
  { deal := [], cover := .dict [], property := .dict [], deal_facts := .dict []
    loan_terms := .dict [], leverage := .dict [], closing_disbursement := .dict []
    sponsor := .dict [], sources_uses := .dict [], valuation := .dict []
    narratives := .dict [], risks := .dict [], highlights := .dict []
    due_diligence := .dict [], environmental := .dict [], zoning := .dict []
    active_litigation := .dict [], financial_info := .dict [] }

/-- A mapper state whose upstream transaction-overview narrative is 5000
characters long. -/
def mapperLong : Mapper :=
  { mapperE with
    narratives := Val.dict
      [("transaction_overview", Val.str (String.mk (List.replicate 5000 'a')))] }

/-- The executive-summary section built from `mapperLong`. -/
def execLongOut : Val :=
  match buildExecutiveSummary mapperLong with
  | .ok v => v
  | .error _ => .none

theorem exec_summary_narrative_truncated_witness :
    ∃ t : String, dictGet execLongOut "narrative" = .str t ∧
      dictGet execLongOut "transaction_overview" = .str t ∧ t.length ≤ 4000 :=
  exec_summary_narrative_truncated mapperLong execLongOut rfl

/-- Every successful `_build_sponsorship` result is the eight-key section
dict, with `track_record` the uncapped qualifying-venture rows (or the
placeholder when none qualify) and `_sponsors_detail` one verbatim entry
per guarantor name. -/
theorem buildSponsorship_shape (st : Mapper) (v : Val)
    (h : buildSponsorship st = .ok v) :
    ∃ names cnw ventures display table₀ bios fs ov,
      v = Val.dict
        [("name", display),
         ("table", pyOr table₀ (.list [])),
         ("overview", display),
         ("overview_narrative", ov),
         ("sponsor_bios", .list bios),
         ("financial_summary", .list fs),
         ("track_record", .list (if (trackRecordCore ventures).isEmpty
            then [trackRecordPlaceholder] else trackRecordCore ventures)),
         ("_sponsors_detail", .list (if (sponsorsFromNames names cnw).isEmpty
            then [] else sponsorsFromNames names cnw))] := by
  unfold buildSponsorship at h
  obtain ⟨g₀, h₁, h⟩ := exceptBindOk _ _ _ h
  obtain ⟨p₀, h₂, h⟩ := exceptBindOk _ _ _ h
  obtain ⟨names₀, h₃, h⟩ := exceptBindOk _ _ _ h
  obtain ⟨namesList, h₄, h⟩ := exceptBindOk _ _ _ h
  obtain ⟨cnw, h₅, h⟩ := exceptBindOk _ _ _ h
  obtain ⟨snv, h₆, h⟩ := exceptBindOk _ _ _ h
  obtain ⟨display, h₇, h⟩ := exceptBindOk _ _ _ h
  obtain ⟨overview, h₈, h⟩ := exceptBindOk _ _ _ h
  obtain ⟨plist, h₉, h⟩ := exceptBindOk _ _ _ h
  obtain ⟨vi₀, h₁₀, h⟩ := exceptBindOk _ _ _ h
  obtain ⟨vi, h₁₁, h⟩ := exceptBindOk _ _ _ h
  obtain ⟨vlist, h₁₂, h⟩ := exceptBindOk _ _ _ h
  obtain ⟨table₀, h₁₃, h⟩ := exceptBindOk _ _ _ h
  obtain ⟨ov, h₁₄, h⟩ := exceptBindOk _ _ _ h
  simp only [pure, Except.pure, Except.ok.injEq] at h
  exact ⟨namesList, cnw, vlist, display, table₀, _, _, ov, h.symm⟩

/-- A deal whose collaborative-ventures list holds eleven qualifying
records. -/
def c4deal : List (String × Val) :=
  [("collaborative_ventures", Val.dict [("items", Val.list
    ((List.range 11).map (fun i =>
      Val.dict [("property_address", Val.str ("Property " ++ toString i))])))])]

set_option maxRecDepth 8192 in
/-- C4 counterexample: on a deal with eleven qualifying ventures the
sponsorship section's `track_record` has eleven entries — the loop at
src/main.py lines 510-533 applies no maximum count, so the spec's cap of
10 does not exist in the code. -/
theorem transform_track_record_exceeds_ten :
    ∃ out tr, runTransform c4deal "January 01, 2025" = .ok out ∧
      dictGet (dictGet (dget out "sections") "sponsorship") "track_record" = .list tr ∧
      tr.length = 11 :=
  ⟨_, _, rfl, rfl, rfl⟩

/-- C4: for every mapper state on which `_build_sponsorship` succeeds,
`track_record` holds one row per qualifying venture with no maximum
count, and exactly the single placeholder row when no venture qualifies —
the placeholder half of the claim is code-true, the cap-of-10 half is
not. -/
theorem sponsorship_track_record_placeholder_uncapped (st : Mapper) (v : Val)
    (h : buildSponsorship st = .ok v) :
    ∃ ventures : List Val, dictGet v "track_record" =
      .list (if (trackRecordCore ventures).isEmpty then [trackRecordPlaceholder]
             else trackRecordCore ventures) := by
  obtain ⟨names, cnw, ventures, display, table₀, bios, fs, ov, hv⟩ :=
    buildSponsorship_shape st v h
  subst hv
  exact ⟨ventures, rfl⟩

/-- The sponsorship section built from the all-empty mapper state. -/
def spE : Val :=
  match buildSponsorship mapperE with
  | .ok v => v
  | .error _ => .none

theorem sponsorship_track_record_placeholder_uncapped_witness :
    ∃ ventures : List Val, dictGet spE "track_record" =
      .list (if (trackRecordCore ventures).isEmpty then [trackRecordPlaceholder]
             else trackRecordCore ventures) :=
  sponsorship_track_record_placeholder_uncapped mapperE spE rfl

/-- A deal naming the guarantors "Steve Hudson" and "Steve Hudson Jr.". -/
def c5deal : List (String × Val) :=
  [("sponsor", Val.dict [("guarantors", Val.dict
    [("names", Val.list [Val.str "Steve Hudson", Val.str "Steve Hudson Jr."]),
     ("combined_net_worth", Val.str "$10,000,000")])])]

set_option maxRecDepth 8192 in
/-- C5 counterexample: the guarantor names "Steve Hudson" and "Steve
Hudson Jr." yield two separate sponsor entries — the loop at src/main.py
lines 413-419 computes no normalized key and skips nothing, so the spec's
dedup-by-normalized-key algorithm does not exist in the code. -/
theorem transform_sponsors_not_deduplicated :
    ∃ out, runTransform c5deal "January 01, 2025" = .ok out ∧
      dictGet (dictGet (dget out "sections") "sponsorship") "_sponsors_detail" =
        .list (sponsorsFromNames [Val.str "Steve Hudson", Val.str "Steve Hudson Jr."]
          (Val.str "$10,000,000")) ∧
      (sponsorsFromNames [Val.str "Steve Hudson", Val.str "Steve Hudson Jr."]
        (Val.str "$10,000,000")).length = 2 :=
  ⟨_, rfl, rfl, rfl⟩

/-- C5: for every mapper state on which `_build_sponsorship` succeeds,
`_sponsors_detail` holds one verbatim entry per guarantor name — no
normalization and no deduplication of candidate names. -/
theorem sponsorship_sponsors_verbatim (st : Mapper) (v : Val)
    (h : buildSponsorship st = .ok v) :
    ∃ (names : List Val) (cnw : Val),
      dictGet v "_sponsors_detail" = .list (sponsorsFromNames names cnw) := by
  obtain ⟨names, cnw, ventures, display, table₀, bios, fs, ov, hv⟩ :=
    buildSponsorship_shape st v h
  subst hv
  refine ⟨names, cnw, ?_⟩
  have hlook : dictGet (Val.dict
      [("name", display),
       ("table", pyOr table₀ (.list [])),
       ("overview", display),
       ("overview_narrative", ov),
       ("sponsor_bios", .list bios),
       ("financial_summary", .list fs),
       ("track_record", .list (if (trackRecordCore ventures).isEmpty
          then [trackRecordPlaceholder] else trackRecordCore ventures)),
       ("_sponsors_detail", .list (if (sponsorsFromNames names cnw).isEmpty
          then [] else sponsorsFromNames names cnw))]) "_sponsors_detail" =
      .list (if (sponsorsFromNames names cnw).isEmpty then []
             else sponsorsFromNames names cnw) := rfl
  rw [hlook]
  by_cases he : (sponsorsFromNames names cnw).isEmpty
  · rw [if_pos he, List.isEmpty_iff.mp he]
  · rw [if_neg he]

/-- The mapper state of the `c5deal` record after initialization. -/
def mapperC5 : Mapper :=
  { mapperE with
    deal := c5deal
    sponsor := Val.dict [("guarantors", Val.dict
      [("names", Val.list [Val.str "Steve Hudson", Val.str "Steve Hudson Jr."]),
       ("combined_net_worth", Val.str "$10,000,000")])] }

/-- The sponsorship section built from `mapperC5`. -/
def spC5 : Val :=
  match buildSponsorship mapperC5 with
  | .ok v => v
  | .error _ => .none

theorem sponsorship_sponsors_verbatim_witness :
    ∃ (names : List Val) (cnw : Val),
      dictGet spC5 "_sponsors_detail" = .list (sponsorsFromNames names cnw) :=
  sponsorship_sponsors_verbatim mapperC5 spC5 rfl

theorem dmem_dset_self (d : List (String × Val)) (k : String) (v : Val) :
    dmem (dset d k v) k = true := by
  unfold dmem; rw [dgetOpt_dset_self]; rfl

theorem dget_dset_self (d : List (String × Val)) (k : String) (v : Val) :
    dget (dset d k v) k = v := by
  unfold dget; rw [dgetOpt_dset_self]; rfl

theorem escapeJinjaDict_dgetOpt (d : List (String × Val)) (k : String) :
    dgetOpt (escapeJinjaDict d) k = (dgetOpt d k).map escapeJinjaVal := by
  induction d with
  | nil => rfl
  | cons kv rest ih =>
    obtain ⟨k₁, v₁⟩ := kv
    simp only [escapeJinjaDict, dgetOpt]
    by_cases hk : k₁ = k
    · simp [hk]
    · simp [hk, ih]

theorem dmem_escapeJinjaDict (d : List (String × Val)) (k : String) :
    dmem (escapeJinjaDict d) k = dmem d k := by
  unfold dmem
  rw [escapeJinjaDict_dgetOpt]
  cases dgetOpt d k <;> rfl

theorem dget_escapeJinjaDict (d : List (String × Val)) (k : String) :
    dget (escapeJinjaDict d) k = escapeJinjaVal (dget d k) := by
  unfold dget
  rw [escapeJinjaDict_dgetOpt]
  cases dgetOpt d k
  · rfl
  · rfl

set_option maxRecDepth 8192 in
/-- C9 counterexample: `transform` always places an empty-mapping
`images` placeholder (src/main.py line 1188), and on data carrying that
placeholder the context construction of `fill_template` (flatten, escape,
merge, default at lines 1878-1883) hands the engine `images` as the empty
mapping — the spec's empty-list default never fires because the key is
always present, and a mapping is not a list. -/
theorem pipeline_images_empty_mapping_not_list :
    (match runTransform [] "January 01, 2025" with
     | .ok out => dget out "images"
     | .error e => .str e) = .dict [] ∧
    (match fillTemplateContext [("images", Val.dict []), ("sections", Val.dict [])] with
     | .ok ctx => dget ctx "images"
     | .error e => .str e) = .dict [] ∧
    (Val.dict []).isList = false := ⟨rfl, rfl, rfl⟩

/-- C9: the context built by `fill_template` with no supplied images
always has an `images` key, and its value is the empty list exactly when
the flattened data lacks the key — otherwise it is the escaped flattened
value (for this mapper, the empty mapping `transform` always writes). -/
theorem images_key_default_semantics (data ctx : List (String × Val))
    (h : fillTemplateContext data = .ok ctx) :
    dmem ctx "images" = true ∧
    ∀ flat, flatten_schema_for_template data = .ok flat →
      dget ctx "images" =
        (if dmem flat "images" then escapeJinjaVal (dget flat "images")
         else .list []) := by
  unfold fillTemplateContext at h
  obtain ⟨flat₀, hf, h⟩ := exceptBindOk _ _ _ h
  simp only [pure, Except.pure, Except.ok.injEq] at h
  subst h
  constructor
  · by_cases hm : dmem (escapeJinjaDict flat₀) "images"
    · simp only [if_pos hm]
      exact hm
    · simp only [Bool.not_eq_true] at hm
      simp only [hm, Bool.false_eq_true, if_false]
      exact dmem_dset_self _ _ _
  · intro flat hf₂
    rw [hf] at hf₂
    injection hf₂ with hf₂
    subst hf₂
    by_cases hm : dmem flat₀ "images"
    · rw [if_pos hm]
      have hm' : dmem (escapeJinjaDict flat₀) "images" = true := by
        rw [dmem_escapeJinjaDict]; exact hm
      rw [if_pos hm', dget_escapeJinjaDict]
    · simp only [Bool.not_eq_true] at hm
      have hm' : dmem (escapeJinjaDict flat₀) "images" = false := by
        rw [dmem_escapeJinjaDict]; exact hm
      rw [if_neg (by simp [hm']), if_neg (by simp [hm]), dget_dset_self]

/-- A minimal context-data mapping with no `images` key. -/
def c9data : List (String × Val) := []

/-- The fill context built from `c9data`. -/
def ctx9 : List (String × Val) :=
  match fillTemplateContext c9data with
  | .ok c => c
  | .error _ => []

theorem images_key_default_semantics_witness :
    dmem ctx9 "images" = true ∧
    ∀ flat, flatten_schema_for_template c9data = .ok flat →
      dget ctx9 "images" =
        (if dmem flat "images" then escapeJinjaVal (dget flat "images")
         else .list []) :=
  images_key_default_semantics c9data ctx9 rfl

/-- Object identity for the `_ensure_items_on_dicts` model (src/main.py
lines 1855-1869): the pass tracks objects by `id(obj)`, so the embedding
works over an explicit heap of addressed nodes. -/
abbrev Addr := Nat

/-- A heap node: a non-container scalar, a Python list of object
references, a dict of string-keyed references, or the fresh
list-of-key/value-tuples object that `list(obj.items())` allocates (never
a dict nor a plain list of plain objects, so the traversal never descends
into its tuples). -/
inductive HNode where
  | scalar : HNode
  | arr : List Addr → HNode
  | dict : List (String × Addr) → HNode
  | pairs : List (String × Addr) → HNode
deriving DecidableEq

/-- The traversal state: the mutable heap, the `seen` identity set, the
allocation counter for fresh `pairs` objects, and ghost visit traces (one
entry per dict entered, one per list entered) used to state the
once-per-object property. -/
structure HState where
  heap : List (Addr × HNode)
  seen : List Addr
  fresh : Addr
  dtrace : List Addr
  ltrace : List Addr
deriving DecidableEq

/-- Heap lookup. -/
def hLookup (h : List (Addr × HNode)) (a : Addr) : Option HNode :=
  match h with
  | [] => Option.none
  | (a₁, n) :: rest => if a₁ = a then some n else hLookup rest a

/-- Heap update (replace in place, else append). -/
def hSet (h : List (Addr × HNode)) (a : Addr) (n : HNode) : List (Addr × HNode) :=
  match h with
  | [] => [(a, n)]
  | (a₁, n₁) :: rest => if a₁ = a then (a₁, n) :: rest else (a₁, n₁) :: hSet rest a n

/-- `"items" in obj` over addressed dict entries. -/
def dmemA (d : List (String × Addr)) (k : String) : Bool :=
  match d with
  | [] => false
  | (k₁, _) :: rest => k₁ = k || dmemA rest k

/-- The references a node hands to the recursion: dict values and list
elements (src/main.py lines 1863-1864 and 1867-1869). -/
def hChildren : HNode → List Addr
  | .arr es => es
  | .dict d => d.map Prod.snd
  | _ => []

mutual
/-- `_ensure_items_on_dicts(obj, seen, root)` (src/main.py lines
1855-1869) over the heap model, with a fuel parameter standing in for
unbounded recursion (`none` = fuel exhausted; the theorems quantify over
all sufficiently large fuels). An address already in `seen` returns
immediately; a dict is added to `seen`, its values are traversed, and —
when it is not the root and has no `items` key at all — a fresh
`list(obj.items())` object is allocated and appended under `items`; a
list is traversed without ever being added to `seen`; everything else is
untouched. -/
def ensureItems (fuel : Nat) (a : Addr) (root : Bool) (s : HState) : Option HState :=
  match fuel with
  | 0 => Option.none
  | fuel + 1 =>
    if a ∈ s.seen then some s
    else
      match hLookup s.heap a with
      | some (.dict d) =>
        let s₁ : HState :=
          { s with seen := a :: s.seen, dtrace := s.dtrace ++ [a] }
        match ensureItemsList fuel (d.map Prod.snd) s₁ with
        | some s₂ =>
          match hLookup s₂.heap a with
          | some (.dict d₂) =>
            if root = false ∧ dmemA d₂ "items" = false then
              some { s₂ with
                heap := hSet (hSet s₂.heap s₂.fresh (.pairs d₂)) a
                  (.dict (d₂ ++ [("items", s₂.fresh)]))
                fresh := s₂.fresh + 1 }
            else some s₂
          | _ => some s₂
        | Option.none => Option.none
      | some (.arr es) =>
        ensureItemsList fuel es { s with ltrace := s.ltrace ++ [a] }
      | _ => some s

/-- The value/element loops of `_ensure_items_on_dicts` (src/main.py
lines 1863-1864 and 1868-1869), one fuel tick per element. -/
def ensureItemsList (fuel : Nat) (as : List Addr) (s : HState) : Option HState :=
  match fuel with
  | 0 => Option.none
  | fuel + 1 =>
    match as with
    | [] => some s
    | a :: rest =>
      match ensureItems fuel a false s with
      | some s' => ensureItemsList fuel rest s'
      | Option.none => Option.none
end

/-- The module-level entry point `_ensure_items_on_dicts(context)`:
fresh `seen`, `root=True`. -/
def ensure_items_on_dicts (fuel : Nat) (root : Addr)
    (heap : List (Addr × HNode)) (fresh : Addr) : Option HState :=
  ensureItems fuel root true ⟨heap, [], fresh, [], []⟩

/-- The counterexample heap: the root dict `0` holds the same list `1`
under two keys and a dict `2` whose `items` member is the non-list
scalar `4`; the list holds the scalar `3`. -/
def c6heap : List (Addr × HNode) :=
  [(0, .dict [("a", 1), ("b", 1), ("c", 2)]),
   (1, .arr [3]),
   (2, .dict [("items", 4)]),
   (3, .scalar),
   (4, .scalar)]

/-- C6 counterexample: the pass traverses the shared list `1` twice (its
visit trace is `[1, 1]` — only dicts enter `seen`, src/main.py lines
1861-1862 versus 1867-1869), refuting once-per-distinct-object; and dict
`2`, which lacks a list-valued `items` member (its `items` is a scalar),
is left completely unchanged — the synthesis at lines 1865-1866 fires
only when the key is absent altogether. -/
theorem ensure_items_shared_list_twice_nonlist_items_kept :
    ∃ s', ensure_items_on_dicts 10 0 c6heap 5 = some s' ∧
      s'.ltrace = [1, 1] ∧
      hLookup s'.heap 2 = some (.dict [("items", 4)]) ∧
      hLookup c6heap 2 = some (.dict [("items", 4)]) ∧
      hLookup s'.heap 4 = some .scalar :=
  ⟨_, rfl, rfl, rfl, rfl, rfl⟩

theorem hLookup_mem (h : List (Addr × HNode)) (a : Addr) (n : HNode)
    (hl : hLookup h a = some n) : (a, n) ∈ h := by
  induction h with
  | nil => simp [hLookup] at hl
  | cons p rest ih =>
    obtain ⟨a₁, n₁⟩ := p
    simp only [hLookup] at hl
    by_cases ha : a₁ = a
    · subst ha
      simp at hl
      subst hl
      exact List.mem_cons_self _ _
    · rw [if_neg ha] at hl
      exact List.mem_cons_of_mem _ (ih hl)

theorem hSet_self (h : List (Addr × HNode)) (a : Addr) (n : HNode) :
    hLookup (hSet h a n) a = some n := by
  induction h with
  | nil => simp [hSet, hLookup]
  | cons p rest ih =>
    obtain ⟨a₁, n₁⟩ := p
    simp only [hSet]
    by_cases ha : a₁ = a
    · simp [ha, hLookup]
    · simp [hLookup, ha, ih]

theorem hSet_ne (h : List (Addr × HNode)) (a b : Addr) (n : HNode) (hab : b ≠ a) :
    hLookup (hSet h a n) b = hLookup h b := by
  induction h with
  | nil =>
    simp only [hSet, hLookup]
    rw [if_neg (fun hh => hab hh.symm)]
  | cons p rest ih =>
    obtain ⟨a₁, n₁⟩ := p
    simp only [hSet]
    by_cases ha : a₁ = a
    · subst ha
      have : a₁ ≠ b := fun hh => hab hh.symm
      simp [hLookup, this]
    · simp only [if_neg ha, hLookup]
      by_cases hb : a₁ = b
      · simp [hb]
      · simp [hb, ih]

theorem hSet_mem (h : List (Addr × HNode)) (a : Addr) (n : HNode) (p : Addr × HNode)
    (hp : p ∈ hSet h a n) : p = (a, n) ∨ p ∈ h := by
  induction h with
  | nil => simpa [hSet] using hp
  | cons q rest ih =>
    obtain ⟨a₁, n₁⟩ := q
    simp only [hSet] at hp
    by_cases ha : a₁ = a
    · subst ha
      rcases List.mem_cons.mp (by simpa [if_pos rfl] using hp) with h₁ | h₁
      · exact Or.inl (by simpa using h₁)
      · exact Or.inr (List.mem_cons_of_mem _ h₁)
    · rcases List.mem_cons.mp (by simpa [if_neg ha] using hp) with h₁ | h₁
      · exact Or.inr (by simp [h₁])
      · rcases ih h₁ with h₂ | h₂
        · exact Or.inl h₂
        · exact Or.inr (List.mem_cons_of_mem _ h₂)

/-- Rank certificate for acyclicity: every reference handed to the
recursion strictly decreases the rank. -/
def RankOk (h : List (Addr × HNode)) (rk : Addr → Nat) : Prop :=
  ∀ p ∈ h, ∀ c ∈ hChildren p.2, rk c < rk p.1

/-- The traversal invariant, parametrized by the initial heap, the
initial allocation bound, and the ghost set `P` of dicts currently being
processed (entered but not yet finalized). -/
structure TravInv (heap₀ : List (Addr × HNode)) (fresh₀ : Addr) (P : List Addr)
    (s : HState) : Prop where
  nodup : s.dtrace.Nodup
  seen_trace : ∀ a, a ∈ s.seen ↔ a ∈ s.dtrace
  fresh_lb : fresh₀ ≤ s.fresh
  fresh_bound : ∀ p ∈ s.heap, p.1 < s.fresh
  unseen_frame : ∀ a, (hLookup heap₀ a).isSome → a ∉ s.seen →
    hLookup s.heap a = hLookup heap₀ a
  new_nodes : ∀ a, hLookup heap₀ a = Option.none →
    hLookup s.heap a = Option.none ∨ ∃ ps, hLookup s.heap a = some (.pairs ps)
  seen_evol : ∀ a ∈ s.seen, ∃ d₀, hLookup heap₀ a = some (.dict d₀) ∧
    (hLookup s.heap a = some (.dict d₀) ∨
     (dmemA d₀ "items" = false ∧ ∃ f, fresh₀ ≤ f ∧
       hLookup s.heap a = some (.dict (d₀ ++ [("items", f)])) ∧
       hLookup s.heap f = some (.pairs d₀)))
  frp : ∀ a ∈ s.seen, a ∉ P → ∀ d₀, hLookup heap₀ a = some (.dict d₀) →
    dmemA d₀ "items" = false → ∃ f, fresh₀ ≤ f ∧
      hLookup s.heap a = some (.dict (d₀ ++ [("items", f)])) ∧
      hLookup s.heap f = some (.pairs d₀)
  p_orig : ∀ p ∈ P, hLookup s.heap p = hLookup heap₀ p
  p_sub : ∀ p ∈ P, p ∈ s.seen

/-- Entering an unseen dict `a` (src/main.py lines 1861-1862) preserves
the invariant with `a` added to the in-progress set. -/
theorem inv_enter (heap₀ : List (Addr × HNode)) (fresh₀ : Addr) (P : List Addr)
    (s : HState) (a : Addr) (d₀ : List (String × Addr))
    (hI : TravInv heap₀ fresh₀ P s) (hns : a ∉ s.seen)
    (hd : hLookup heap₀ a = some (.dict d₀)) :
    TravInv heap₀ fresh₀ (a :: P)
      { s with seen := a :: s.seen, dtrace := s.dtrace ++ [a] } := by
  have hfr : hLookup s.heap a = hLookup heap₀ a :=
    hI.unseen_frame a (by simp [hd]) hns
  have hnt : a ∉ s.dtrace := fun hc => hns ((hI.seen_trace a).mpr hc)
  refine ⟨?_, ?_, hI.fresh_lb, hI.fresh_bound, ?_, hI.new_nodes, ?_, ?_, ?_, ?_⟩
  · rw [List.nodup_append]
    exact ⟨hI.nodup, List.nodup_singleton a,
      fun x hx hx' => hnt (by rwa [List.mem_singleton.mp hx'] at hx)⟩
  · intro x
    rw [List.mem_cons, List.mem_append, List.mem_singleton]
    constructor
    · rintro (rfl | hx)
      · exact Or.inr rfl
      · exact Or.inl ((hI.seen_trace x).mp hx)
    · rintro (hx | rfl)
      · exact Or.inr ((hI.seen_trace x).mpr hx)
      · exact Or.inl rfl
  · intro x hx hxs
    simp only [List.mem_cons, not_or] at hxs
    exact hI.unseen_frame x hx hxs.2
  · intro x hx
    simp only [List.mem_cons] at hx
    rcases hx with rfl | hx
    · exact ⟨d₀, hd, Or.inl (by rw [hfr, hd])⟩
    · exact hI.seen_evol x hx
  · intro x hx hxP d hd₂ hni
    simp only [List.mem_cons, not_or] at hxP
    simp only [List.mem_cons] at hx
    rcases hx with rfl | hx
    · exact absurd rfl hxP.1
    · exact hI.frp x hx hxP.2 d hd₂ hni
  · intro p hp
    simp only [List.mem_cons] at hp
    rcases hp with rfl | hp
    · exact hfr
    · exact hI.p_orig p hp
  · intro p hp
    simp only [List.mem_cons] at hp
    rcases hp with rfl | hp
    · exact List.mem_cons_self _ _
    · exact List.mem_cons_of_mem _ (hI.p_sub p hp)

theorem inv_dom_lt (heap₀ : List (Addr × HNode)) (fresh₀ : Addr) (P : List Addr)
    (s : HState) (hI : TravInv heap₀ fresh₀ P s) :
    ∀ x, (hLookup heap₀ x).isSome → x < s.fresh := by
  intro x hx
  by_cases hs : x ∈ s.seen
  · obtain ⟨d₀, _, hev⟩ := hI.seen_evol x hs
    rcases hev with h | ⟨_, f, _, h, _⟩ <;>
      exact hI.fresh_bound _ (hLookup_mem _ _ _ h)
  · have hfr := hI.unseen_frame x hx hs
    obtain ⟨n, hn⟩ := Option.isSome_iff_exists.mp hx
    exact hI.fresh_bound _ (hLookup_mem _ _ _ (hfr.trans hn))

/-- Leaving a processed dict whose original entries already contain an
`items` member (the synthesis at src/main.py lines 1865-1866 does not
fire) preserves the invariant with the dict removed from the in-progress
set. -/
theorem inv_exit_items_present (heap₀ : List (Addr × HNode)) (fresh₀ : Addr)
    (P : List Addr) (s₂ : HState) (a : Addr) (d₀ : List (String × Addr))
    (hI : TravInv heap₀ fresh₀ (a :: P) s₂)
    (hd : hLookup heap₀ a = some (.dict d₀))
    (hitems : dmemA d₀ "items" = true) :
    TravInv heap₀ fresh₀ P s₂ := by
  refine ⟨hI.nodup, hI.seen_trace, hI.fresh_lb, hI.fresh_bound, hI.unseen_frame,
    hI.new_nodes, hI.seen_evol, ?_, ?_, ?_⟩
  · intro x hx hxP d hd₂ hni
    by_cases hxa : x = a
    · subst hxa
      rw [hd] at hd₂
      injection hd₂ with h
      injection h with h
      subst h
      rw [hitems] at hni
      exact absurd hni (by simp)
    · refine hI.frp x hx ?_ d hd₂ hni
      simp only [List.mem_cons, not_or]
      exact ⟨hxa, hxP⟩
  · intro p hp
    exact hI.p_orig p (List.mem_cons_of_mem _ hp)
  · intro p hp
    exact hI.p_sub p (List.mem_cons_of_mem _ hp)

/-- The `obj["items"] = list(obj.items())` synthesis (src/main.py lines
1865-1866): appending the `items` member and allocating the fresh pairs
object preserves the invariant with the dict removed from the
in-progress set. -/
theorem inv_finalize (heap₀ : List (Addr × HNode)) (fresh₀ : Addr)
    (P : List Addr) (s₂ : HState) (a : Addr) (d₀ : List (String × Addr))
    (hI : TravInv heap₀ fresh₀ (a :: P) s₂)
    (hd : hLookup heap₀ a = some (.dict d₀))
    (hni : dmemA d₀ "items" = false)
    (haP : a ∉ P) :
    TravInv heap₀ fresh₀ P
      { s₂ with
        heap := hSet (hSet s₂.heap s₂.fresh (.pairs d₀)) a
          (.dict (d₀ ++ [("items", s₂.fresh)]))
        fresh := s₂.fresh + 1 } := by
  have haseen : a ∈ s₂.seen := hI.p_sub a (List.mem_cons_self _ _)
  have hcur : hLookup s₂.heap a = some (.dict d₀) := by
    rw [hI.p_orig a (List.mem_cons_self _ _), hd]
  have ha_lt : a < s₂.fresh := hI.fresh_bound _ (hLookup_mem _ _ _ hcur)
  have haf : a ≠ s₂.fresh := Nat.ne_of_lt ha_lt
  have hfa : s₂.fresh ≠ a := fun h => haf h.symm
  have L_a : hLookup (hSet (hSet s₂.heap s₂.fresh (.pairs d₀)) a
      (.dict (d₀ ++ [("items", s₂.fresh)]))) a =
      some (.dict (d₀ ++ [("items", s₂.fresh)])) := hSet_self _ _ _
  have L_fr : hLookup (hSet (hSet s₂.heap s₂.fresh (.pairs d₀)) a
      (.dict (d₀ ++ [("items", s₂.fresh)]))) s₂.fresh = some (.pairs d₀) := by
    rw [hSet_ne _ _ _ _ hfa, hSet_self]
  have L_other : ∀ x, x ≠ a → x ≠ s₂.fresh →
      hLookup (hSet (hSet s₂.heap s₂.fresh (.pairs d₀)) a
        (.dict (d₀ ++ [("items", s₂.fresh)]))) x = hLookup s₂.heap x := by
    intro x hxa hxf
    rw [hSet_ne _ _ _ _ hxa, hSet_ne _ _ _ _ hxf]
  have hdomlt := inv_dom_lt heap₀ fresh₀ (a :: P) s₂ hI
  have hwit_ne : ∀ f ps, hLookup s₂.heap f = some (.pairs ps) →
      f ≠ a ∧ f ≠ s₂.fresh := by
    intro f ps hf
    constructor
    · intro hfe
      rw [hfe, hcur] at hf
      exact absurd hf (by simp)
    · exact Nat.ne_of_lt (hI.fresh_bound _ (hLookup_mem _ _ _ hf))
  refine ⟨hI.nodup, hI.seen_trace, Nat.le_succ_of_le hI.fresh_lb, ?_, ?_, ?_, ?_, ?_, ?_, ?_⟩
  · intro p hp
    rcases hSet_mem _ _ _ _ hp with rfl | hp₂
    · exact Nat.lt_succ_of_lt ha_lt
    · rcases hSet_mem _ _ _ _ hp₂ with rfl | hp₃
      · exact Nat.lt_succ_self _
      · exact Nat.lt_succ_of_lt (hI.fresh_bound _ hp₃)
  · intro x hx hxs
    have hxa : x ≠ a := fun h => hxs (h ▸ haseen)
    have hxf : x ≠ s₂.fresh := Nat.ne_of_lt (hdomlt x hx)
    rw [L_other x hxa hxf]
    exact hI.unseen_frame x hx hxs
  · intro x hx
    by_cases hxf : x = s₂.fresh
    · subst hxf
      exact Or.inr ⟨d₀, L_fr⟩
    · by_cases hxa : x = a
      · subst hxa
        rw [hd] at hx
        exact absurd hx (by simp)
      · rw [L_other x hxa hxf]
        exact hI.new_nodes x hx
  · intro x hx
    by_cases hxa : x = a
    · subst hxa
      exact ⟨d₀, hd, Or.inr ⟨hni, s₂.fresh, hI.fresh_lb, L_a, L_fr⟩⟩
    · obtain ⟨d, hdx, hev⟩ := hI.seen_evol x hx
      have hxf : x ≠ s₂.fresh := Nat.ne_of_lt (hdomlt x (by simp [hdx]))
      refine ⟨d, hdx, ?_⟩
      rcases hev with h | ⟨hni₂, f, hf₁, hf₂, hf₃⟩
      · exact Or.inl (by rw [L_other x hxa hxf]; exact h)
      · obtain ⟨hfa₂, hff⟩ := hwit_ne f d hf₃
        exact Or.inr ⟨hni₂, f, hf₁, by rw [L_other x hxa hxf]; exact hf₂,
          by rw [L_other f hfa₂ hff]; exact hf₃⟩
  · intro x hx hxP d hd₂ hni₂
    by_cases hxa : x = a
    · subst hxa
      rw [hd] at hd₂
      injection hd₂ with h
      injection h with h
      subst h
      exact ⟨s₂.fresh, hI.fresh_lb, L_a, L_fr⟩
    · have hxf : x ≠ s₂.fresh := Nat.ne_of_lt (hdomlt x (by simp [hd₂]))
      obtain ⟨f, hf₁, hf₂, hf₃⟩ := hI.frp x hx
        (by simp only [List.mem_cons, not_or]; exact ⟨hxa, hxP⟩) d hd₂ hni₂
      obtain ⟨hfa₂, hff⟩ := hwit_ne f d hf₃
      exact ⟨f, hf₁, by rw [L_other x hxa hxf]; exact hf₂,
        by rw [L_other f hfa₂ hff]; exact hf₃⟩
  · intro p hp
    have hpa : p ≠ a := fun h => haP (h ▸ hp)
    have hpin : p ∈ s₂.seen := hI.p_sub p (List.mem_cons_of_mem _ hp)
    obtain ⟨d, hdp, _⟩ := hI.seen_evol p hpin
    have hpf : p ≠ s₂.fresh := Nat.ne_of_lt (hdomlt p (by simp [hdp]))
    rw [L_other p hpa hpf]
    exact hI.p_orig p (List.mem_cons_of_mem _ hp)
  · intro p hp
    exact hI.p_sub p (List.mem_cons_of_mem _ hp)

/-- Extending the list-visit trace does not disturb the invariant. -/
theorem inv_ltrace (heap₀ : List (Addr × HNode)) (fresh₀ : Addr) (P : List Addr)
    (s : HState) (a : Addr) (hI : TravInv heap₀ fresh₀ P s) :
    TravInv heap₀ fresh₀ P { s with ltrace := s.ltrace ++ [a] } :=
  ⟨hI.nodup, hI.seen_trace, hI.fresh_lb, hI.fresh_bound, hI.unseen_frame,
   hI.new_nodes, hI.seen_evol, hI.frp, hI.p_orig, hI.p_sub⟩

/-- Specification of a non-root call on one reference: for every
invariant-satisfying state there is a fuel bound past which the call
succeeds deterministically, preserving the invariant, growing `seen`
monotonically, and leaving any dict reference it was given in `seen`. -/
def NodeSpec (heap₀ : List (Addr × HNode)) (fresh₀ : Addr) (a : Addr) : Prop :=
  ∀ P s, TravInv heap₀ fresh₀ P s → ∃ F s',
    (∀ f, F ≤ f → ensureItems f a false s = some s') ∧
    TravInv heap₀ fresh₀ P s' ∧
    (∀ x, x ∈ s.seen → x ∈ s'.seen) ∧
    (∀ d₀, hLookup heap₀ a = some (.dict d₀) → a ∈ s'.seen)

/-- `NodeSpec` lifts through the element loop. -/
theorem listSpec (heap₀ : List (Addr × HNode)) (fresh₀ : Addr) (as : List Addr)
    (hns : ∀ c ∈ as, NodeSpec heap₀ fresh₀ c) :
    ∀ P s, TravInv heap₀ fresh₀ P s → ∃ F s',
      (∀ f, F ≤ f → ensureItemsList f as s = some s') ∧
      TravInv heap₀ fresh₀ P s' ∧
      (∀ x, x ∈ s.seen → x ∈ s'.seen) ∧
      (∀ c ∈ as, ∀ d₀, hLookup heap₀ c = some (.dict d₀) → c ∈ s'.seen) := by
  induction as with
  | nil =>
    intro P s hI
    refine ⟨1, s, ?_, hI, fun x hx => hx, by simp⟩
    intro f hf
    cases f with
    | zero => omega
    | succ g => rfl
  | cons a rest ih =>
    intro P s hI
    obtain ⟨F₁, s₁, hrun₁, hI₁, hmono₁, hdict₁⟩ :=
      hns a (List.mem_cons_self _ _) P s hI
    obtain ⟨F₂, s₂, hrun₂, hI₂, hmono₂, hdict₂⟩ :=
      ih (fun c hc => hns c (List.mem_cons_of_mem _ hc)) P s₁ hI₁
    refine ⟨max F₁ F₂ + 1, s₂, ?_, hI₂, fun x hx => hmono₂ x (hmono₁ x hx), ?_⟩
    · intro f hf
      cases f with
      | zero => omega
      | succ g =>
        have hg₁ : F₁ ≤ g := by omega
        have hg₂ : F₂ ≤ g := by omega
        simp only [ensureItemsList]
        rw [hrun₁ g hg₁]
        exact hrun₂ g hg₂
    · intro c hc d₀ hd
      rcases List.mem_cons.mp hc with rfl | hc₂
      · exact hmono₂ c (hdict₁ d₀ hd)
      · exact hdict₂ c hc₂ d₀ hd

/-- Every reference of rank below `n` satisfies `NodeSpec`, by induction
on the rank bound: the `seen` check gives immediate return, scalars and
already-synthesized pairs objects are untouched, lists recurse on their
elements, and dicts enter `seen`, recurse on their values, and are
finalized by the `items` synthesis exactly when the key was absent. -/
theorem nodeSpec_of_rank (heap₀ : List (Addr × HNode)) (fresh₀ : Addr)
    (rk : Addr → Nat) (hrk : RankOk heap₀ rk) :
    ∀ n a, rk a < n → NodeSpec heap₀ fresh₀ a := by
  intro n
  induction n with
  | zero => intro a ha; omega
  | succ n ih =>
    intro a ha P s hI
    by_cases hseen : a ∈ s.seen
    · refine ⟨1, s, ?_, hI, fun x hx => hx, fun d₀ _ => hseen⟩
      intro f hf
      cases f with
      | zero => omega
      | succ g => simp [ensureItems, hseen]
    · cases hh : hLookup heap₀ a with
      | none =>
        have hcase := hI.new_nodes a hh
        refine ⟨1, s, ?_, hI, fun x hx => hx, ?_⟩
        · intro f hf
          cases f with
          | zero => omega
          | succ g =>
            rcases hcase with hc | ⟨ps, hc⟩ <;> simp [ensureItems, hseen, hc]
        · intro d₀ hd
          exact absurd hd (by simp)
      | some n₀ =>
        have hsheap : hLookup s.heap a = some n₀ := by
          rw [hI.unseen_frame a (by simp [hh]) hseen, hh]
        cases n₀ with
        | scalar =>
          refine ⟨1, s, ?_, hI, fun x hx => hx, ?_⟩
          · intro f hf
            cases f with
            | zero => omega
            | succ g => simp [ensureItems, hseen, hsheap]
          · intro d₀ hd
            exact absurd hd (by simp)
        | pairs ps =>
          refine ⟨1, s, ?_, hI, fun x hx => hx, ?_⟩
          · intro f hf
            cases f with
            | zero => omega
            | succ g => simp [ensureItems, hseen, hsheap]
          · intro d₀ hd
            exact absurd hd (by simp)
        | arr es =>
          have hch : ∀ c ∈ es, NodeSpec heap₀ fresh₀ c := by
            intro c hc
            have hlt : rk c < rk a := hrk (a, .arr es) (hLookup_mem _ _ _ hh) c hc
            exact ih c (by omega)
          obtain ⟨F₂, s₂, hrun₂, hI₂, hmono₂, _⟩ :=
            listSpec heap₀ fresh₀ es hch P
              { s with ltrace := s.ltrace ++ [a] }
              (inv_ltrace heap₀ fresh₀ P s a hI)
          refine ⟨F₂ + 1, s₂, ?_, hI₂, fun x hx => hmono₂ x hx, ?_⟩
          · intro f hf
            cases f with
            | zero => omega
            | succ g =>
              have hg : F₂ ≤ g := by omega
              simp only [ensureItems, if_neg hseen, hsheap]
              exact hrun₂ g hg
          · intro d₀ hd
            exact absurd hd (by simp)
        | dict d₀ =>
          have haP : a ∉ P := fun h => hseen (hI.p_sub a h)
          have hI₁ := inv_enter heap₀ fresh₀ P s a d₀ hI hseen hh
          have hch : ∀ c ∈ d₀.map Prod.snd, NodeSpec heap₀ fresh₀ c := by
            intro c hc
            have hlt : rk c < rk a := hrk (a, .dict d₀) (hLookup_mem _ _ _ hh) c hc
            exact ih c (by omega)
          obtain ⟨F₂, s₂, hrun₂, hI₂, hmono₂, _⟩ :=
            listSpec heap₀ fresh₀ (d₀.map Prod.snd) hch (a :: P)
              { s with seen := a :: s.seen, dtrace := s.dtrace ++ [a] } hI₁
          have hcur₂ : hLookup s₂.heap a = some (.dict d₀) := by
            rw [hI₂.p_orig a (List.mem_cons_self _ _), hh]
          have haseen₂ : a ∈ s₂.seen :=
            hmono₂ a (List.mem_cons_self _ _)
          by_cases hni : dmemA d₀ "items" = false
          · refine ⟨F₂ + 1,
              { s₂ with
                heap := hSet (hSet s₂.heap s₂.fresh (.pairs d₀)) a
                  (.dict (d₀ ++ [("items", s₂.fresh)]))
                fresh := s₂.fresh + 1 }, ?_,
              inv_finalize heap₀ fresh₀ P s₂ a d₀ hI₂ hh hni haP, ?_, ?_⟩
            · intro f hf
              cases f with
              | zero => omega
              | succ g =>
                have hg : F₂ ≤ g := by omega
                simp only [ensureItems, if_neg hseen, hsheap, hrun₂ g hg, hcur₂]
                simp [hni]
            · intro x hx
              exact hmono₂ x (List.mem_cons_of_mem _ hx)
            · intro d hd
              exact haseen₂
          · have hit : dmemA d₀ "items" = true := by
              revert hni
              cases dmemA d₀ "items" <;> simp
            refine ⟨F₂ + 1, s₂, ?_,
              inv_exit_items_present heap₀ fresh₀ P s₂ a d₀ hI₂ hh hit, ?_, ?_⟩
            · intro f hf
              cases f with
              | zero => omega
              | succ g =>
                have hg : F₂ ≤ g := by omega
                simp only [ensureItems, if_neg hseen, hsheap, hrun₂ g hg, hcur₂]
                simp [hit]
            · intro x hx
              exact hmono₂ x (List.mem_cons_of_mem _ hx)
            · intro d hd
              exact haseen₂
